import Mathlib

/-!
# RFM12 transceiver driver (`rfm12_internal.h`)

A shallow embedding of the interrupt-driven RFM12 driver and proofs about its
state machine, followed by embeddings of the sorting routine of the servo array
driver (`servo_array.h`, namespace `ServoArray`) and of the pixel and rectangle
routines of the PCD8544 display driver (`pcd8544_display.h`, namespace
`Pcd8544`).  The definitions of the three drivers come first, the lemmas and
claims after them.

The driver keeps two variables, `rfm12_status` and `rfm12_state`.  Everything
outside the driver is collected in a `World`: the level of the SDO line at each
clock pulse of each exchange, the level of the nIRQ line at each sample, and the
results of the two application callbacks at each call.  The machine record
carries, next to the two driver variables, the history of what the driver did to
the outside: GPIO writes, command words, callback calls and diagnostics.
-/

namespace Rfm12

/-! ## Constants -/

@[simp] def RFXX_FLAG_FFIT : Nat := 1 <<< 15
@[simp] def RFXX_FLAG_RGIT : Nat := 1 <<< 15
@[simp] def RFXX_FLAG_POR : Nat := 1 <<< 14
@[simp] def RFXX_FLAG_FFOV : Nat := 1 <<< 13
@[simp] def RFXX_FLAG_RGUR : Nat := 1 <<< 13
@[simp] def RFXX_FLAG_WKUP : Nat := 1 <<< 12
@[simp] def RFXX_FLAG_EXT : Nat := 1 <<< 11
@[simp] def RFXX_FLAG_LBD : Nat := 1 <<< 10
@[simp] def RFXX_FLAG_FFEM : Nat := 1 <<< 9
@[simp] def RFXX_FLAG_RSSI : Nat := 1 <<< 8
@[simp] def RFXX_FLAG_ATS : Nat := 1 <<< 8
@[simp] def RFXX_FLAG_DQD : Nat := 1 <<< 7
@[simp] def RFXX_FLAG_CRL : Nat := 1 <<< 6
@[simp] def RFXX_FLAG_ATGL : Nat := 1 <<< 5

@[simp] def RFXX_TRANSIENT_FLAGS : Nat :=
  RFXX_FLAG_POR ||| RFXX_FLAG_FFOV ||| RFXX_FLAG_WKUP ||| RFXX_FLAG_EXT

@[simp] def RFXX_STATEFLAG_LISTEN : Nat := 0x80
@[simp] def RFXX_STATEFLAGS : Nat := 0x80
@[simp] def RFXX_STATE_IDLE : Nat := 0
@[simp] def RFXX_STATE_LISTEN : Nat := 1
@[simp] def RFXX_STATE_RX : Nat := 2
@[simp] def RFXX_STATE_TX_SYNC0 : Nat := 3
@[simp] def RFXX_STATE_TX_SYNC1 : Nat := 4
@[simp] def RFXX_STATE_TX : Nat := 5
@[simp] def RFXX_STATE_TX_END : Nat := 6
@[simp] def RFXX_STATE_TX_RESYNC : Nat := 7

@[simp] def RFXX_EV_CONT : Nat := 0
@[simp] def RFXX_EV_START : Nat := 1
@[simp] def RFXX_EV_END : Nat := 2
@[simp] def RFXX_EV_TX_END : Nat := 0x100
@[simp] def RFXX_EV_TX_RESYNC : Nat := 0x101

/-- The configuration words of `rfm12_init_seq`. -/
def rfm12_init_seq : List Nat :=
  [0x80D7, 0x8201, 0xA640, 0xC647, 0x94A0, 0xC2AC, 0xCA81, 0xC483, 0x9850, 0xE000, 0xC800, 0xC400]

/-! ## Data model -/

/-- The six GPIO lines of one transceiver. -/
inductive Pin where
  | SEL | SDI | SCK | SDO | DATA | NIRQ
deriving DecidableEq, Repr

/-- Writes to the GPIO registers, one constructor per `RFXX_*` pin macro that writes. -/
inductive GpioOp where
  | OUTPUT (p : Pin)
  | INPUT (p : Pin)
  | HI (p : Pin)
  | LOW (p : Pin)
  | TOGGLE (p : Pin)
deriving DecidableEq, Repr

/-- What the driver observes of the outside.
* `SDO k sdi` is the level of the data-out line sampled in exchange number `k`, after the
  data-in levels `sdi` (oldest first) have been clocked into the chip in that exchange;
* `NIRQ k` is the level of the interrupt-request line at sample number `k`;
* `read_handler k event data` is what the application's read callback returns at its call
  number `k`;
* `write_handler k` is what the application's write callback returns at its call number `k`.
The callbacks do not touch the driver's variables. -/
structure World where
  SDO : Nat → List Bool → Bool
  NIRQ : Nat → Bool
  read_handler : Nat → Nat → Nat → Bool
  write_handler : Nat → Nat

/-- The driver variables `rfm12_status` (16 bit) and `rfm12_state` (8 bit), followed by the
history of the driver's actions on the outside, each oldest first: GPIO writes, command words
exchanged, `read_handler` calls as (event, data), number of `write_handler` calls, number of
nIRQ samples, and diagnostic lines handed to `usart_msg`. -/
structure Machine where
  rfm12_status : Nat
  rfm12_state : Nat
  gpio : List GpioOp
  cmds : List Nat
  reads : List (Nat × Nat)
  writes : Nat
  polls : Nat
  msgs : List String
deriving DecidableEq, Repr

/-! ## Bit link -/

/-- The `for` loop of `rfm12_cmd` with `n` passes left: `cmd` and `res` are the two 16-bit
locals, `sdi` the data-in levels driven so far in this exchange, `g` the GPIO history. -/
def rfm12_cmd_loop (sdo : List Bool → Bool) :
    Nat → Nat → Nat → List Bool → List GpioOp → Nat × List GpioOp
  | 0, _, res, _, g => (res, g)
  | n + 1, cmd, res, sdi, g =>
    let bit := decide (cmd &&& 0x8000 ≠ 0)
    let g := g ++ [if bit then GpioOp.HI Pin.SDI else GpioOp.LOW Pin.SDI]
    let sdi := sdi ++ [bit]
    let g := g ++ [GpioOp.TOGGLE Pin.SCK]
    let cmd := (cmd <<< 1) % 65536
    let res := (res <<< 1) % 65536
    let res := if sdo sdi then res ||| 1 else res
    let g := g ++ [GpioOp.TOGGLE Pin.SCK]
    rfm12_cmd_loop sdo n cmd res sdi g

/-- `uint16_t rfm12_cmd(uint16_t cmd)`: one 16-bit exchange with the chip. -/
def rfm12_cmd (w : World) (cmd : Nat) (m : Machine) : Nat × Machine :=
  let g := m.gpio ++ [GpioOp.LOW Pin.SCK, GpioOp.LOW Pin.SEL]
  let r := rfm12_cmd_loop (w.SDO m.cmds.length) 16 cmd 0 [] g
  (r.1, { m with gpio := r.2 ++ [GpioOp.HI Pin.SEL], cmds := m.cmds ++ [cmd] })

/-- `RFXX_GET(NIRQ)`: one sample of the interrupt-request line. -/
def RFXX_GET_NIRQ (w : World) (m : Machine) : Bool × Machine :=
  (w.NIRQ m.polls, { m with polls := m.polls + 1 })

/-- A call of the application's `rfm12_read_handler(event, data)`. -/
def rfm12_read_handler (w : World) (event data : Nat) (m : Machine) : Bool × Machine :=
  (w.read_handler m.reads.length event data, { m with reads := m.reads ++ [(event, data)] })

/-- A call of the application's `rfm12_write_handler()`; the result is a `uint16_t`. -/
def rfm12_write_handler (w : World) (m : Machine) : Nat × Machine :=
  (w.write_handler m.writes % 65536, { m with writes := m.writes + 1 })

/-- A call of `usart_msg`, the diagnostic sink. -/
def usart_msg (s : String) (m : Machine) : Machine :=
  { m with msgs := m.msgs ++ [s] }

/-! ## Driver -/

/-- `void rfm12_init_pins()`. -/
def rfm12_init_pins (m : Machine) : Machine :=
  { m with gpio := m.gpio ++
      [GpioOp.INPUT Pin.NIRQ, GpioOp.INPUT Pin.SDO, GpioOp.HI Pin.SEL, GpioOp.HI Pin.SDI,
       GpioOp.LOW Pin.SCK, GpioOp.HI Pin.DATA, GpioOp.OUTPUT Pin.SEL, GpioOp.OUTPUT Pin.SDI,
       GpioOp.OUTPUT Pin.SCK, GpioOp.OUTPUT Pin.DATA] }

/-- `void rfm12_init()`. -/
def rfm12_init (w : World) (m : Machine) : Machine :=
  let m := rfm12_init_pins m
  let m := rfm12_init_seq.foldl (fun m c => (rfm12_cmd w c m).2) m
  let m := { m with rfm12_status := 0 }
  { m with rfm12_state := RFXX_STATE_IDLE }

/-- The end of `rfm12_set_state` after a `break`:
`rfm12_state = state | (rawstate & RFXX_STATEFLAGS); return 1;`. -/
def set_state_commit (state rawstate : Nat) (m : Machine) : Bool × Machine :=
  (true, { m with rfm12_state := state ||| (rawstate &&& RFXX_STATEFLAGS) })

/-- `bool rfm12_set_state(uint8_t state)`. -/
def rfm12_set_state (w : World) (state : Nat) (m : Machine) : Bool × Machine :=
  let rawstate := m.rfm12_state
  let oldstate := rawstate &&& (0xFF ^^^ RFXX_STATEFLAGS)
  if oldstate ≠ state then
    let commit := set_state_commit state rawstate
    if state = RFXX_STATE_IDLE then
      let m := (rfm12_cmd w 0x8201 m).2
      let m := (rfm12_cmd w 0xCA81 m).2
      commit m
    else if state = RFXX_STATE_LISTEN then
      let m := if oldstate = RFXX_STATE_RX then (rfm12_cmd w 0xCA81 m).2
               else (rfm12_cmd w 0x82C9 m).2
      let m := (rfm12_cmd w 0xCA83 m).2
      commit m
    else if state = RFXX_STATE_RX then
      if oldstate ≠ RFXX_STATE_LISTEN then (false, m)
      else commit m
    else if state = RFXX_STATE_TX_SYNC0 then
      if oldstate ≠ RFXX_STATE_IDLE ∧ oldstate ≠ RFXX_STATE_LISTEN ∧
          oldstate ≠ RFXX_STATE_TX_RESYNC then (false, m)
      else
        let m := (rfm12_cmd w (0xB800 ||| 0xaa) m).2
        let m := if oldstate ≠ RFXX_STATE_TX_RESYNC then
                   let m := (rfm12_cmd w (0xB800 ||| 0xaa) m).2
                   (rfm12_cmd w 0x8239 m).2
                 else m
        commit m
    else if state = RFXX_STATE_TX_SYNC1 then
      if oldstate ≠ RFXX_STATE_TX_SYNC0 then (false, m)
      else
        let m := (rfm12_cmd w (0xB800 ||| 0x2d) m).2
        commit m
    else if state = RFXX_STATE_TX then
      if oldstate ≠ RFXX_STATE_TX_SYNC1 then (false, m)
      else
        let m := (rfm12_cmd w (0xB800 ||| 0xd4) m).2
        commit m
    else if state = RFXX_STATE_TX_END ∨ state = RFXX_STATE_TX_RESYNC then
      if oldstate ≠ RFXX_STATE_TX then (false, m)
      else
        let m := (rfm12_cmd w (0xB800 ||| 0xaa) m).2
        commit m
    else (false, m)
  else (true, m)

/-- The `switch (state)` of `rfm12_handle_interrupt`: `val` is the merged status word and
`state` the base state.  The result is `none` when the branch executes `return`, otherwise
the value of `newstate` at the end of the switch. -/
def handle_interrupt_switch (w : World) (val state : Nat) (m : Machine) : Option Nat × Machine :=
  let newstate := state
  if state = RFXX_STATE_IDLE then (none, m)
  else if state = RFXX_STATE_LISTEN then
    if val &&& RFXX_FLAG_FFIT ≠ 0 then
      let newstate := RFXX_STATE_RX
      let (fifo_data, m) := rfm12_cmd w 0xB000 m
      let (_, m) := rfm12_read_handler w RFXX_EV_START (fifo_data &&& 0xff) m
      (some newstate, m)
    else (some newstate, m)
  else if state = RFXX_STATE_RX then
    if val &&& RFXX_FLAG_FFIT ≠ 0 then
      let (fifo_data, m) := rfm12_cmd w 0xB000 m
      let event := RFXX_EV_CONT
      let (newstate, event) :=
        if val &&& RFXX_FLAG_DQD = 0 then (RFXX_STATE_IDLE, RFXX_EV_END) else (newstate, event)
      let (cont, m) := rfm12_read_handler w event (fifo_data &&& 0xff) m
      let newstate := if !cont then RFXX_STATE_IDLE else newstate
      (some newstate, m)
    else (some newstate, m)
  else if state = RFXX_STATE_TX_SYNC0 ∨ state = RFXX_STATE_TX_SYNC1 then
    if val &&& RFXX_FLAG_RGIT ≠ 0 then (some ((newstate + 1) % 256), m)
    else (some newstate, m)
  else if state = RFXX_STATE_TX then
    if val &&& RFXX_FLAG_RGIT ≠ 0 then
      let (data, m) := rfm12_write_handler w m
      if data &&& 0x100 ≠ 0 then
        if data = RFXX_EV_TX_END then (some RFXX_STATE_TX_END, m)
        else if data = RFXX_EV_TX_RESYNC then (some RFXX_STATE_TX_RESYNC, m)
        else (some newstate, m)
      else
        let m := (rfm12_cmd w (0xB800 ||| (data &&& 0xff)) m).2
        (some newstate, m)
    else (some newstate, m)
  else if state = RFXX_STATE_TX_END then
    if val &&& RFXX_FLAG_RGIT ≠ 0 then (some RFXX_STATE_IDLE, m)
    else (some newstate, m)
  else if state = RFXX_STATE_TX_RESYNC then
    if val &&& RFXX_FLAG_RGIT ≠ 0 then (some RFXX_STATE_TX_SYNC0, m)
    else (some newstate, m)
  else
    (some RFXX_STATE_IDLE, usart_msg "INVALID STATE\n" m)

/-- The head of the loop body: the status read and its merge into `rfm12_status`.  The
result is the local `val` and the machine. -/
def handle_interrupt_status (w : World) (m : Machine) : Nat × Machine :=
  let (val, m) := rfm12_cmd w 0x0000 m
  let val := (m.rfm12_status &&& RFXX_TRANSIENT_FLAGS) ||| val
  (val, { m with rfm12_status := val })

/-- The redirection of Idle to Listen when the auto-relisten bit is set:
`if (newstate == RFXX_STATE_IDLE && (rfm12_state & RFXX_STATEFLAG_LISTEN)) newstate = RFXX_STATE_LISTEN;`. -/
def redirect (newstate rawstate : Nat) : Nat :=
  if newstate = RFXX_STATE_IDLE ∧ rawstate &&& RFXX_STATEFLAG_LISTEN ≠ 0 then RFXX_STATE_LISTEN
  else newstate

/-- The tail of the loop body, after the `switch`: the redirection of Idle to Listen and the
guarded transition to `newstate`. -/
def handle_interrupt_commit (w : World) (state newstate : Nat) (m : Machine) : Machine :=
  let newstate := redirect newstate m.rfm12_state
  if state ≠ newstate then
    let (res, m) := rfm12_set_state w newstate m
    if !res then usart_msg "FAIL\n" m else m
  else m

/-- The body of the `while` loop of `rfm12_handle_interrupt`.  The flag is `true` when the
body left the function through `return`. -/
def handle_interrupt_body (w : World) (m : Machine) : Bool × Machine :=
  let (val, m) := handle_interrupt_status w m
  let rawstate := m.rfm12_state
  let state := rawstate &&& (0xFF ^^^ RFXX_STATEFLAGS)
  match handle_interrupt_switch w val state m with
  | (none, m) => (true, m)
  | (some newstate, m) => (false, handle_interrupt_commit w state newstate m)

/-- One test of the `while` condition and, when nIRQ is low, one run of the body.  The flag
is `true` when the loop goes on to another test. -/
def handle_interrupt_pass (w : World) (m : Machine) : Bool × Machine :=
  let (irq, m) := RFXX_GET_NIRQ w m
  if irq then (false, m)
  else
    let (ret, m) := handle_interrupt_body w m
    (!ret, m)

/-- `void rfm12_handle_interrupt()`.  nIRQ may stay low for ever, so the loop is bounded by
`fuel` tests of its condition; `none` means the bound was reached. -/
def rfm12_handle_interrupt (w : World) : Nat → Machine → Option Machine
  | 0, _ => none
  | fuel + 1, m =>
    let r := handle_interrupt_pass w m
    if r.1 then rfm12_handle_interrupt w fuel r.2 else some r.2

/-- The machine at the end of every body run of `rfm12_handle_interrupt`, in order, for at
most `fuel` tests of the loop condition. -/
def handle_interrupt_trace (w : World) : Nat → Machine → List Machine
  | 0, _ => []
  | fuel + 1, m =>
    let (irq, m1) := RFXX_GET_NIRQ w m
    if irq then []
    else
      let (ret, m2) := handle_interrupt_body w m1
      if ret then [m2] else m2 :: handle_interrupt_trace w fuel m2

/-- `bool rfm12_listen(bool enable)`. -/
def rfm12_listen (w : World) (enable : Bool) (m : Machine) : Bool × Machine :=
  if enable then
    let m := { m with rfm12_state := m.rfm12_state ||| RFXX_STATEFLAG_LISTEN }
    if m.rfm12_state &&& (0xFF ^^^ RFXX_STATEFLAGS) = RFXX_STATE_IDLE then
      rfm12_set_state w RFXX_STATE_LISTEN m
    else (true, m)
  else
    let m := { m with rfm12_state := m.rfm12_state &&& (0xFF ^^^ RFXX_STATEFLAG_LISTEN) }
    if m.rfm12_state &&& (0xFF ^^^ RFXX_STATEFLAGS) = RFXX_STATE_LISTEN then
      rfm12_set_state w RFXX_STATE_IDLE m
    else (true, m)

/-- `bool rfm12_send_packet()`; `fuel` bounds the interrupt drain. -/
def rfm12_send_packet (w : World) (fuel : Nat) (m : Machine) : Option (Bool × Machine) :=
  let (res, m) := rfm12_set_state w RFXX_STATE_TX_SYNC0 m
  match rfm12_handle_interrupt w fuel m with
  | none => none
  | some m => some (res, m)

/-- `bool rfm12_stop_sending()`. -/
def rfm12_stop_sending (w : World) (m : Machine) : Bool × Machine :=
  let state :=
    if m.rfm12_state &&& RFXX_STATEFLAG_LISTEN ≠ 0 then RFXX_STATE_LISTEN else RFXX_STATE_IDLE
  rfm12_set_state w state m

/-- `bool rfm12_stop_receiving()`. -/
def rfm12_stop_receiving (w : World) (m : Machine) : Bool × Machine :=
  let rawstate := m.rfm12_state
  let oldstate := rawstate &&& (0xFF ^^^ RFXX_STATEFLAGS)
  if oldstate = RFXX_STATE_RX then
    let state :=
      if rawstate &&& RFXX_STATEFLAG_LISTEN ≠ 0 then RFXX_STATE_LISTEN else RFXX_STATE_IDLE
    rfm12_set_state w state m
  else (true, m)

/-- `void rfm12_clear_interrupts()`. -/
def rfm12_clear_interrupts (m : Machine) : Machine :=
  { m with rfm12_status := 0 }

/-- The base state: `rfm12_state & ~RFXX_STATEFLAGS`. -/
def base (m : Machine) : Nat := m.rfm12_state &&& (0xFF ^^^ RFXX_STATEFLAGS)

/-- The `auto_relisten` flag: `rfm12_state & RFXX_STATEFLAG_LISTEN`. -/
def auto_relisten (m : Machine) : Bool := decide (m.rfm12_state &&& RFXX_STATEFLAG_LISTEN ≠ 0)

/-! ## Derived notions used in the statements -/

/-- The word clocked out of the chip in exchange number `k` when the driver sends `cmd`. -/
def response (w : World) (k cmd : Nat) : Nat :=
  (rfm12_cmd_loop (w.SDO k) 16 cmd 0 [] []).1

/-- The event passed to `rfm12_read_handler` for a byte received in Rx, in the pass that
starts at machine `m`. -/
def rx_event (w : World) (m : Machine) : Nat :=
  if response w m.cmds.length 0 &&& RFXX_FLAG_DQD = 0 then RFXX_EV_END else RFXX_EV_CONT

/-- The machine after the FIFO read and the handler call of a pass in Rx. -/
def rx_read (w : World) (m : Machine) : Bool × Machine :=
  rfm12_read_handler w (rx_event w m) (response w (m.cmds.length + 1) 0xB000 &&& 0xff)
    (rfm12_cmd w 0xB000 (handle_interrupt_status w m).2).2

/-- What `rfm12_write_handler` returns in the pass that starts at machine `m`. -/
def tx_data (w : World) (m : Machine) : Nat := w.write_handler m.writes % 65536

/-- Issue the command words `cs` in order, discarding the responses. -/
def issue (w : World) (cs : List Nat) (m : Machine) : Machine :=
  cs.foldl (fun m c => (rfm12_cmd w c m).2) m

/-- The guard of `rfm12_set_state` for a request `t` that differs from the base state `s`. -/
def guard (s t : Nat) : Bool :=
  t == RFXX_STATE_IDLE || t == RFXX_STATE_LISTEN ||
  (t == RFXX_STATE_RX && s == RFXX_STATE_LISTEN) ||
  (t == RFXX_STATE_TX_SYNC0 &&
    (s == RFXX_STATE_IDLE || s == RFXX_STATE_LISTEN || s == RFXX_STATE_TX_RESYNC)) ||
  (t == RFXX_STATE_TX_SYNC1 && s == RFXX_STATE_TX_SYNC0) ||
  (t == RFXX_STATE_TX && s == RFXX_STATE_TX_SYNC1) ||
  ((t == RFXX_STATE_TX_END || t == RFXX_STATE_TX_RESYNC) && s == RFXX_STATE_TX)

/-- The command words `rfm12_set_state` issues on entering `t` from base state `s`. -/
def entry_cmds (s t : Nat) : List Nat :=
  if t = RFXX_STATE_IDLE then [0x8201, 0xCA81]
  else if t = RFXX_STATE_LISTEN then
    (if s = RFXX_STATE_RX then [0xCA81, 0xCA83] else [0x82C9, 0xCA83])
  else if t = RFXX_STATE_RX then []
  else if t = RFXX_STATE_TX_SYNC0 then
    (if s = RFXX_STATE_TX_RESYNC then [0xB800 ||| 0xaa]
     else [0xB800 ||| 0xaa, 0xB800 ||| 0xaa, 0x8239])
  else if t = RFXX_STATE_TX_SYNC1 then [0xB800 ||| 0x2d]
  else if t = RFXX_STATE_TX then [0xB800 ||| 0xd4]
  else if t = RFXX_STATE_TX_END ∨ t = RFXX_STATE_TX_RESYNC then [0xB800 ||| 0xaa]
  else []

/-- The edges of the transition table in the words of the specification: Listen, Rx and
TxEnd lead to Idle; Idle and Rx lead to Listen; Listen leads to Rx; Idle, Listen and TxResync
lead to TxSync0; TxSync0 leads to TxSync1; TxSync1 leads to Tx; Tx leads to TxEnd and to
TxResync. -/
def table_edge (s t : Nat) : Bool :=
  (t == RFXX_STATE_IDLE &&
      (s == RFXX_STATE_LISTEN || s == RFXX_STATE_RX || s == RFXX_STATE_TX_END)) ||
  (t == RFXX_STATE_LISTEN && (s == RFXX_STATE_IDLE || s == RFXX_STATE_RX)) ||
  (s == RFXX_STATE_LISTEN && t == RFXX_STATE_RX) ||
  (t == RFXX_STATE_TX_SYNC0 &&
      (s == RFXX_STATE_IDLE || s == RFXX_STATE_LISTEN || s == RFXX_STATE_TX_RESYNC)) ||
  (s == RFXX_STATE_TX_SYNC0 && t == RFXX_STATE_TX_SYNC1) ||
  (s == RFXX_STATE_TX_SYNC1 && t == RFXX_STATE_TX) ||
  (s == RFXX_STATE_TX && (t == RFXX_STATE_TX_END || t == RFXX_STATE_TX_RESYNC))

/-- The commands of the passes that send the data bytes `bs`: for each byte the status read
and the FIFO write. -/
def data_cmds : List Nat → List Nat
  | [] => []
  | b :: bs => 0x0000 :: (0xB800 ||| b) :: data_cmds bs

/-- The transmit-register write commands among `cs`: the words with prefix 0xB8. -/
def tx_writes (cs : List Nat) : List Nat := cs.filter (fun c => c / 256 == 0xB8)

/-- `Runs w m tr M`: starting from `m`, the loop of `rfm12_handle_interrupt` finds nIRQ low
and runs its body to the end, once for each element of `tr`; `tr` lists the machine at the
end of each body and `M` is the last of them (`m` itself when `tr` is empty). -/
inductive Runs (w : World) : Machine → List Machine → Machine → Prop
  | done (m : Machine) : Runs w m [] m
  | pass (m M M' : Machine) (tr : List Machine) (hirq : w.NIRQ m.polls = false)
      (hbody : handle_interrupt_body w (RFXX_GET_NIRQ w m).2 = (false, M))
      (hrest : Runs w M tr M') : Runs w m (M :: tr) M'

/-! ## Worlds and machines for concrete runs -/

/-- A world whose chip answers every exchange with all ones, whose nIRQ line is low for the
first `n` samples, and whose write callback yields `ws` and then `RFXX_EV_TX_END`. -/
def sendWorld (n : Nat) (ws : List Nat) : World where
  SDO := fun _ _ => true
  NIRQ := fun k => decide (n ≤ k)
  read_handler := fun _ _ _ => true
  write_handler := fun k => ws.getD k RFXX_EV_TX_END

/-- A machine with the given state byte, status 0 and empty histories. -/
def fresh (st : Nat) : Machine :=
  { rfm12_status := 0, rfm12_state := st, gpio := [], cmds := [], reads := [], writes := 0,
    polls := 0, msgs := [] }

/-- A world whose chip answers every exchange with all ones, whose nIRQ line is always low and
whose read callback always asks to stop. -/
def abortWorld : World where
  SDO := fun _ _ => true
  NIRQ := fun _ => false
  read_handler := fun _ _ _ => false
  write_handler := fun _ => RFXX_EV_TX_END

/-- A world whose chip answers every exchange with all ones, whose nIRQ line is always low and
whose write callback asks for a resync at its first call and ends the transfer afterwards. -/
def resyncWorld : World where
  SDO := fun _ _ => true
  NIRQ := fun _ => false
  read_handler := fun _ _ _ => true
  write_handler := fun k => if k = 0 then RFXX_EV_TX_RESYNC else RFXX_EV_TX_END

/-- A world for one reception of two bytes: nIRQ is low at the first two samples and high
afterwards; the chip answers all ones, except that bit 7 (data-quality-detect) is clear in
exchange number 4, the second status read after `rfm12_listen`. -/
def receiveWorld : World where
  SDO := fun k sdi => !(k == 4 && sdi.length == 9)
  NIRQ := fun k => decide (2 ≤ k)
  read_handler := fun _ _ _ => true
  write_handler := fun _ => RFXX_EV_TX_END

/-! ## Derived notions for the status word and the bit link -/

/-- The machine after `k` runs of the loop body of `rfm12_handle_interrupt`. -/
def passes (w : World) : Nat → Machine → Machine
  | 0, m => m
  | k + 1, m => (handle_interrupt_body w (passes w k m)).2

/-- The raw responses to the status reads of the first `k` runs of the loop body, oldest
first. -/
def status_reads (w : World) : Nat → Machine → List Nat
  | 0, _ => []
  | k + 1, m => status_reads w k m ++ [response w (passes w k m).cmds.length 0]

/-- A world whose chip answers every exchange with zero and whose nIRQ line is always low. -/
def quietWorld : World where
  SDO := fun _ _ => false
  NIRQ := fun _ => false
  read_handler := fun _ _ _ => true
  write_handler := fun _ => RFXX_EV_TX_END

/-- A world whose chip reports FIFO overflow (bit 13) in exchange number 0 only and answers
zero otherwise, with nIRQ always low. -/
def latchWorld : World where
  SDO := fun k sdi => k == 0 && sdi.length == 3
  NIRQ := fun _ => false
  read_handler := fun _ _ _ => true
  write_handler := fun _ => RFXX_EV_TX_END

/-- The GPIO writes of the clock pulses that send the data-in levels `bits`: for each level
the write to SDI and the two toggles of SCK. -/
def pulse_ops : List Bool → List GpioOp
  | [] => []
  | b :: bs =>
    (if b then GpioOp.HI Pin.SDI else GpioOp.LOW Pin.SDI) :: GpioOp.TOGGLE Pin.SCK ::
      GpioOp.TOGGLE Pin.SCK :: pulse_ops bs

/-- The level of the output latch of pin `p` after the GPIO write `op`, from level `lvl`. -/
def apply_op (p : Pin) (lvl : Bool) (op : GpioOp) : Bool :=
  match op with
  | GpioOp.HI q => if q = p then true else lvl
  | GpioOp.LOW q => if q = p then false else lvl
  | GpioOp.TOGGLE q => if q = p then !lvl else lvl
  | _ => lvl

/-- The level of the output latch of pin `p` after the GPIO writes `ops`, from level
`init`. -/
def port_level (p : Pin) (init : Bool) (ops : List GpioOp) : Bool :=
  ops.foldl (apply_op p) init

/-- The data-in levels the loop of `rfm12_cmd` drives in `n` passes from the local `cmd`:
bit 15 of `cmd`, then `cmd` is shifted left within 16 bits. -/
def msb_bits : Nat → Nat → List Bool
  | 0, _ => []
  | n + 1, cmd => decide (cmd &&& 0x8000 ≠ 0) :: msb_bits n ((cmd <<< 1) % 65536)

/-- The data-out levels sampled while the data-in levels `bits` are driven, after the levels
`sdi` driven before. -/
def samples (sdo : List Bool → Bool) : List Bool → List Bool → List Bool
  | _, [] => []
  | sdi, b :: bs => sdo (sdi ++ [b]) :: samples sdo (sdi ++ [b]) bs

/-- The local `res` of `rfm12_cmd` after the sampled levels `ds` have been shifted in. -/
def shift_in (res : Nat) (ds : List Bool) : Nat :=
  ds.foldl (fun r d => if d then ((r <<< 1) % 65536) ||| 1 else (r <<< 1) % 65536) res

/-- A world whose data-out line repeats, at every sample, the level last driven on the
data-in line; nIRQ is always high. -/
def echoWorld : World where
  SDO := fun _ sdi => sdi.getLast?.getD false
  NIRQ := fun _ => true
  read_handler := fun _ _ _ => true
  write_handler := fun _ => RFXX_EV_TX_END

/-! ## Reachability and worlds for the later claims -/

/-- A world whose write callback returns 0x200, a value above 0xFF with bit 8 clear; the chip
answers every exchange with all ones and nIRQ is always low. -/
def strayWorld : World where
  SDO := fun _ _ => true
  NIRQ := fun _ => false
  read_handler := fun _ _ _ => true
  write_handler := fun _ => 0x200

/-- A world like `abortWorld`, except that the chip answers the first exchange with 0x8080
(bit 15 and bit 7 only) instead of all ones. -/
def bareWorld : World where
  SDO := fun k sdi => k != 0 || sdi.length == 1 || sdi.length == 9
  NIRQ := fun _ => false
  read_handler := fun _ _ _ => false
  write_handler := fun _ => RFXX_EV_TX_END

/-- `Reach direct m`: the machine `m` is reached from `rfm12_init` (run on any machine, in any
world) by a finite sequence of calls of `rfm12_listen`, `rfm12_send_packet`,
`rfm12_stop_sending`, `rfm12_stop_receiving`, `rfm12_clear_interrupts`, of loop bodies and
whole runs of `rfm12_handle_interrupt`, each in a world of its own, and, when `direct` is
true, of `rfm12_set_state` with any 8-bit argument.  The machines a drain passes through (a
sample of nIRQ, the machine `rfm12_send_packet` hands to its drain) are reached too, so that
a drain that never returns is covered. -/
inductive Reach (direct : Bool) : Machine → Prop
  | init (w : World) (m0 : Machine) : Reach direct (rfm12_init w m0)
  | listen (w : World) (enable : Bool) (m : Machine) :
      Reach direct m → Reach direct (rfm12_listen w enable m).2
  | send_packet (w : World) (fuel : Nat) (m : Machine) (res : Bool) (m' : Machine) :
      Reach direct m → rfm12_send_packet w fuel m = some (res, m') → Reach direct m'
  | send_packet_start (w : World) (m : Machine) :
      Reach direct m → Reach direct (rfm12_set_state w RFXX_STATE_TX_SYNC0 m).2
  | stop_sending (w : World) (m : Machine) :
      Reach direct m → Reach direct (rfm12_stop_sending w m).2
  | stop_receiving (w : World) (m : Machine) :
      Reach direct m → Reach direct (rfm12_stop_receiving w m).2
  | clear_interrupts (m : Machine) : Reach direct m → Reach direct (rfm12_clear_interrupts m)
  | body (w : World) (m : Machine) : Reach direct m → Reach direct (handle_interrupt_body w m).2
  | poll (w : World) (m : Machine) : Reach direct m → Reach direct (RFXX_GET_NIRQ w m).2
  | drain (w : World) (fuel : Nat) (m m' : Machine) :
      Reach direct m → rfm12_handle_interrupt w fuel m = some m' → Reach direct m'
  | set_state (w : World) (t : Nat) (m : Machine) :
      direct = true → t < 256 → Reach direct m → Reach direct (rfm12_set_state w t m).2

end Rfm12

/-! # Servo array driver (`servo_array.h`) -/

namespace ServoArray

/-- `servo_array_t`: the context of one port.  `port` is the address of the port register;
`pwm` and `order` are the two arrays of eight entries.  A read outside an array (undefined
in C) yields 0 and a write outside is dropped; neither happens on a context whose `order`
entries are channel numbers below 8 or the padding 0xff. -/
structure servo_array_t where
  port : Nat
  pwm : List Nat
  order : List Nat
  pos : Nat
  mask : Nat
deriving DecidableEq, Repr

/-- The first loop of `servo_array_init`, with `n` passes left: `i` is the loop counter, `j`
the number of channels found so far and `mask` the shifted local copy of the mask. -/
def init_loop : Nat → Nat → Nat → Nat → servo_array_t → Nat × servo_array_t
  | 0, _, j, _, ctx => (j, ctx)
  | n + 1, i, j, mask, ctx =>
    let ctx := { ctx with pwm := ctx.pwm.set i (if mask &&& 1 ≠ 0 then 1500 else 0) }
    let ctx := { ctx with order := ctx.order.set j i }
    let j := (j + (mask &&& 1)) % 256
    let mask := mask >>> 1
    init_loop n (i + 1) j mask ctx

/-- The loop `for (; j < 8; j++) ctx->order[j] = 0xff;`, which runs at most eight times. -/
def pad_loop : Nat → Nat → List Nat → List Nat
  | 0, _, order => order
  | n + 1, j, order => if j < 8 then pad_loop n (j + 1) (order.set j 0xff) else order

/-- `void servo_array_init(servo_array_t* ctx, volatile uint8_t* port, uint8_t mask)`. -/
def servo_array_init (ctx : servo_array_t) (port mask : Nat) : servo_array_t :=
  let ctx := { ctx with port := port }
  let ctx := { ctx with mask := mask }
  let ctx := { ctx with pos := 0 }
  let (j, ctx) := init_loop 8 0 0 mask ctx
  { ctx with order := pad_loop 8 j ctx.order }

/-- The `while (i != 0)` loop of `servo_array_reorder`, from index `i`: the result is the
final `i` and the order array. -/
def reorder_shift (pwm : List Nat) (val : Nat) : Nat → List Nat → Nat × List Nat
  | 0, order => (0, order)
  | i + 1, order =>
    let val2 := pwm.getD (order.getD i 0) 0
    if val2 > val then reorder_shift pwm val i (order.set (i + 1) (order.getD i 0))
    else (i + 1, order)

/-- The `for` loop of `servo_array_reorder` with `n` passes left, at index `l`. -/
def reorder_loop (pwm : List Nat) : Nat → Nat → List Nat → List Nat
  | 0, _, order => order
  | n + 1, l, order =>
    let ch := order.getD l 0
    if ch = 0xff then order
    else
      let val := pwm.getD ch 0
      let (i, order) := reorder_shift pwm val l order
      reorder_loop pwm n (l + 1) (order.set i l)

/-- `void servo_array_setpwm(servo_array_t* ctx, uint8_t pin, uint16_t pwm)`. -/
def servo_array_setpwm (ctx : servo_array_t) (pin pwm : Nat) : servo_array_t :=
  { ctx with pwm := ctx.pwm.set pin pwm }

/-- `void servo_array_reorder(servo_array_t* ctx)`. -/
def servo_array_reorder (ctx : servo_array_t) : servo_array_t :=
  { ctx with order := reorder_loop ctx.pwm 8 0 ctx.order }

/-- A context with all fields zero. -/
def zeroed : servo_array_t :=
  { port := 0, pwm := List.replicate 8 0, order := List.replicate 8 0, pos := 0, mask := 0 }

/-- The pulse widths of the channels listed in `order` before the padding, in order. -/
def widths (ctx : servo_array_t) : List Nat :=
  (ctx.order.takeWhile (fun ch => ch != 0xff)).map (fun ch => ctx.pwm.getD ch 0)

/-- A context with the two channels 0 and 1 of widths 2000 and 1000, after one call of
`servo_array_reorder`: built by `servo_array_init` with mask 0x03, two calls of
`servo_array_setpwm` and the reorder. -/
def sorted_pair : servo_array_t :=
  servo_array_reorder
    (servo_array_setpwm (servo_array_setpwm (servo_array_init zeroed 0x25 0x03) 0 2000) 1 1000)

end ServoArray

/-! # PCD8544 display driver (`pcd8544_display.h`) -/

namespace Pcd8544

@[simp] def LCD_WIDTH : Nat := 84
@[simp] def LCD_HEIGHT : Nat := 48
@[simp] def PCD8544_SETYADDR : Nat := 0x40
@[simp] def PCD8544_SETXADDR : Nat := 0x80
@[simp] def display_ssel : Nat := 1 <<< 4
@[simp] def display_dc : Nat := 1 <<< 5
@[simp] def display_patch_size : Nat := 4
@[simp] def display_mask_size : Nat := LCD_WIDTH / display_patch_size * LCD_HEIGHT / 8
@[simp] def COLOR_WHITE : Nat := 0
@[simp] def COLOR_BLACK : Nat := 1
@[simp] def COLOR_INVERT : Nat := 2

/-- What the display driver does to the hardware: writes to `PORTD` and calls of the SPI
subsystem, whose code is outside this repository. -/
inductive HwOp where
  | SPI_Disable_Interrupt
  | SPI_Enable_Interrupt
  | SPI_TransferByte (b : Nat)
  | SPI_AsyncTransferByte (b : Nat)
  | PORTD_or (bits : Nat)
  | PORTD_and_not (bits : Nat)
deriving DecidableEq, Repr

/-- The global `display_ctx`.  `image` (504 bytes) and `modified_mask` (16 bytes) are given
as functions of the index; `used` records, oldest first, every index at which a routine
that changes the context read or wrote `image`, and `hw` records the hardware operations.  The interrupt `On_SPI_Complete`,
which calls `display_isr` when a transfer ends, is not part of the model; `display_isr` never
writes `image`. -/
structure display_ctx_t where
  image : Nat → Nat
  modified_mask : Nat → Nat
  pos : Nat
  mod : Nat
  used : List Nat
  hw : List HwOp

/-- A read of `display_ctx.image[pos]`. -/
def image_read (d : display_ctx_t) (pos : Nat) : Nat × display_ctx_t :=
  (d.image pos, { d with used := d.used ++ [pos] })

/-- The store `display_ctx.image[pos] = v` of a value computed in `int`. -/
def image_write (d : display_ctx_t) (pos v : Nat) : display_ctx_t :=
  { d with image := fun p => if p = pos then v % 256 else d.image p }

/-- The statement `display_ctx.modified_mask[mpos>>3] |= (1<<(mpos&7));`. -/
def mask_set (d : display_ctx_t) (mpos : Nat) : display_ctx_t :=
  { d with modified_mask := fun k =>
      if k = mpos >>> 3 then (d.modified_mask k ||| (1 <<< (mpos &&& 7))) % 256
      else d.modified_mask k }

/-- `void display_hwgoto(uint8_t x, uint8_t y)`. -/
def display_hwgoto (d : display_ctx_t) (x y : Nat) : display_ctx_t :=
  { d with hw := d.hw ++
      [HwOp.SPI_Disable_Interrupt, HwOp.PORTD_or display_ssel, HwOp.PORTD_and_not display_dc,
       HwOp.PORTD_and_not display_ssel, HwOp.SPI_TransferByte (PCD8544_SETYADDR ||| y),
       HwOp.SPI_TransferByte (PCD8544_SETXADDR ||| x), HwOp.PORTD_or display_dc,
       HwOp.SPI_Enable_Interrupt] }

/-- The `do ... while (!check && count <= display_mask_size)` loop of `display_isr` with at
most `n` more runs of its body: the result is `i`, `count` and `check`.  `count` grows by one
in each run, so 127 runs are never exceeded. -/
def isr_search (mask : Nat → Nat) : Nat → Nat → Nat → Nat × Nat × Bool
  | 0, i, count => (i, count, false)
  | n + 1, i, count =>
    let i := (i + 1) % 256
    let count := (count + 1) % 256
    let i := if i ≥ display_mask_size then 0 else i
    let check := decide (mask (i >>> 3) &&& (1 <<< (i &&& 7)) ≠ 0)
    if !check && decide (count ≤ display_mask_size) then isr_search mask n i count
    else (i, count, check)

/-- The end of `display_isr`: the asynchronous transfer of one byte of the image. -/
def isr_send (d : display_ctx_t) (i j : Nat) : Bool × display_ctx_t :=
  let (b, d) := image_read d ((i * display_patch_size + j) % 65536)
  let d := { d with hw := d.hw ++ [HwOp.SPI_AsyncTransferByte b] }
  let j := (j + 1) % 256
  (true, { d with mod := j })

/-- `bool display_isr()`. -/
def display_isr (d : display_ctx_t) : Bool × display_ctx_t :=
  let i := d.pos
  let j := d.mod
  if j = display_patch_size ∨ j = 0 then
    let i := if j = 0 then 255 else i
    let (i, count, check) := isr_search d.modified_mask 127 i 0
    if !check then (false, { d with mod := 0 })
    else
      let d := if count ≠ 1 ∨ j = 0 then
          display_hwgoto d
            (((i % (LCD_WIDTH / display_patch_size)) * display_patch_size) % 256)
            (i / (LCD_WIDTH / display_patch_size))
        else d
      let d := { d with pos := i }
      let d := { d with modified_mask := fun k =>
          if k = i >>> 3 then d.modified_mask k &&& (0xFF ^^^ (1 <<< (i &&& 7)))
          else d.modified_mask k }
      isr_send d i 0
  else isr_send d i j

/-- `void display_poll()`. -/
def display_poll (d : display_ctx_t) : display_ctx_t :=
  if d.mod = 0 then (display_isr d).2 else d

/-- The `switch (color)` of `display_putpixel` and `display_rect`: the read-modify-write of
`display_ctx.image[pos]` with `mask`. -/
def image_paint (d : display_ctx_t) (pos color mask : Nat) : display_ctx_t :=
  if color = COLOR_WHITE then
    let (v, d) := image_read d pos
    image_write d pos (v &&& (0xFF ^^^ mask))
  else if color = COLOR_BLACK then
    let (v, d) := image_read d pos
    image_write d pos (v ||| mask)
  else if color = COLOR_INVERT then
    let (v, d) := image_read d pos
    image_write d pos (v ^^^ mask)
  else d

/-- `void display_putpixel(uint8_t x, uint8_t y, uint8_t color)`.  The tests `x >= 0` and
`y >= 0` of the source hold for every `uint8_t`. -/
def display_putpixel (d : display_ctx_t) (x y color : Nat) : display_ctx_t :=
  if ¬ (x < LCD_WIDTH ∧ y < LCD_HEIGHT) then d
  else
    let pos := (x + LCD_WIDTH * (y >>> 3)) % 65536
    let mpos := (pos / display_patch_size) % 256
    let d := image_paint d pos color (1 <<< (y &&& 7))
    let d := mask_set d mpos
    display_poll d

/-- `uint8_t display_getpixel(uint8_t x, uint8_t y)`, which changes nothing: it is given as
a function of the context, and its one read, at the index `x + LCD_WIDTH * (y >> 3)`, is not
recorded in `used`. -/
def display_getpixel (d : display_ctx_t) (x y : Nat) : Nat :=
  if ¬ (x < LCD_WIDTH ∧ y < LCD_HEIGHT) then 0
  else
    let pos := (x + LCD_WIDTH * (y >>> 3)) % 65536
    if d.image pos &&& (1 <<< (y &&& 7)) ≠ 0 then COLOR_BLACK else COLOR_WHITE

/-- The inner loop of `display_invalidate_rect` with `n` passes left, at column `dx`. -/
def invalidate_row (mpos0 dy : Nat) : Nat → Nat → display_ctx_t → display_ctx_t
  | 0, _, d => d
  | n + 1, dx, d =>
    let mpos := (mpos0 + dy * (LCD_WIDTH / display_patch_size) + dx) % 256
    invalidate_row mpos0 dy n (dx + 1) (mask_set d mpos)

/-- The outer loop of `display_invalidate_rect` with `n` passes left, at row `dy`; `nx` is
the number of passes of the inner loop. -/
def invalidate_rows (mpos0 nx : Nat) : Nat → Nat → display_ctx_t → display_ctx_t
  | 0, _, d => d
  | n + 1, dy, d => invalidate_rows mpos0 nx n (dy + 1) (invalidate_row mpos0 dy nx 0 d)

/-- The value of the `uint8_t` initialised with `(a+b-1)>>3` for `uint8_t` operands: the sum
is formed in `int`, and for `a + b = 0` it is `-1`, whose shift is `-1`, stored as 255. -/
def last_band (a b : Nat) : Nat := if a + b = 0 then 255 else ((a + b - 1) >>> 3) % 256

/-- `void display_invalidate_rect(uint8_t x, uint8_t y, uint8_t w, uint8_t h)`. -/
def display_invalidate_rect (d : display_ctx_t) (x y w h : Nat) : display_ctx_t :=
  let y0 := y >>> 3
  let y1 := last_band y h
  let x0 := x / display_patch_size
  let x1 := if x + w = 0 then 0 else ((x + w - 1) / display_patch_size) % 256
  let y1 := if y1 ≥ LCD_HEIGHT >>> 3 then (LCD_HEIGHT >>> 3) - 1 else y1
  let x1 := if x1 ≥ LCD_WIDTH / display_patch_size then LCD_WIDTH / display_patch_size - 1 else x1
  let mpos0 := (x0 + y0 * (LCD_WIDTH / display_patch_size)) % 65536
  let d := invalidate_rows mpos0 (x1 + 1 - x0) (y1 + 1 - y0) 0 d
  display_poll d

/-- The inner loop of `display_rect` with `n` passes left, at column `dx`. -/
def rect_row (color mask pos1 : Nat) : Nat → Nat → display_ctx_t → display_ctx_t
  | 0, _, d => d
  | n + 1, dx, d =>
    let pos := (pos1 + dx) % 65536
    rect_row color mask pos1 n (dx + 1) (image_paint d pos color mask)

/-- The outer loop of `display_rect` with `n` passes left, at row `dy`; `last` is `y1-y0`
and `nx` the number of passes of the inner loop. -/
def rect_rows (color y0mask y1mask pos0 last nx : Nat) :
    Nat → Nat → display_ctx_t → display_ctx_t
  | 0, _, d => d
  | n + 1, dy, d =>
    let mask := if dy = 0 then y0mask else if dy = last then y1mask else 0xff
    let pos1 := (pos0 + dy * LCD_WIDTH) % 65536
    rect_rows color y0mask y1mask pos0 last nx n (dy + 1) (rect_row color mask pos1 nx 0 d)

/-- `void display_rect(uint8_t x, uint8_t y, uint8_t w, uint8_t h, uint8_t color)`.  The
loops run while `dy <= (y1-y0)` and `dx <= (x1-x0)`, compared in `int`: `y1 + 1 - y0` and
`x1 + 1 - x0` times, not at all when the difference is negative. -/
def display_rect (d : display_ctx_t) (x y w h color : Nat) : display_ctx_t :=
  let y0 := y >>> 3
  let y1 := last_band y h
  let x0 := x
  let x1 := if x + w = 0 then 255 else (x + w - 1) % 256
  let y1 := if y1 ≥ LCD_HEIGHT >>> 3 then (LCD_HEIGHT >>> 3) - 1 else y1
  let x1 := if x1 ≥ LCD_WIDTH then LCD_WIDTH - 1 else x1
  let my0 := y &&& 7
  let my1 := if y + h = 0 then 7 else (y + h - 1) &&& 7
  let y0mask := (0xff <<< my0) % 256
  let y1mask := 0xff >>> (7 - my1)
  let y0mask := if y0 = y1 then y0mask &&& y1mask else y0mask
  let pos0 := (x0 + y0 * LCD_WIDTH) % 65536
  let d := rect_rows color y0mask y1mask pos0 (y1 - y0) (x1 + 1 - x0) (y1 + 1 - y0) 0 d
  display_invalidate_rect d x y w h

/-- A cleared display context: white image, nothing marked as modified, no history. -/
def cleared : display_ctx_t :=
  { image := fun _ => 0, modified_mask := fun _ => 0, pos := 0, mod := 0, used := [], hw := [] }

/-- The byte stored by the `switch (color)` for the old byte `v`. -/
def paint_byte (color mask v : Nat) : Nat :=
  if color = COLOR_WHITE then (v &&& (0xFF ^^^ mask)) % 256
  else if color = COLOR_BLACK then (v ||| mask) % 256
  else if color = COLOR_INVERT then (v ^^^ mask) % 256
  else v

/-- The pixel value painted over the old value `old` where the mask has the bit `m`. -/
def paint_bit (color : Nat) (m old : Bool) : Bool :=
  if color = COLOR_WHITE then old && !m
  else if color = COLOR_BLACK then old || m
  else if color = COLOR_INVERT then xor old m
  else old

end Pcd8544

/-! # RFM12 transceiver driver: lemmas and claims -/

namespace Rfm12

/-! ## Byte arithmetic of the state variable -/

theorem and_128_cases (x : Nat) : x &&& 128 = 0 ∨ x &&& 128 = 128 := by
  have h128 : (128 : Nat) = 2 ^ 7 := by norm_num
  rw [h128]
  cases h : x.testBit 7
  · left
    apply Nat.eq_of_testBit_eq
    intro i
    simp only [Nat.testBit_and, Nat.testBit_two_pow, Nat.zero_testBit]
    by_cases h7 : 7 = i
    · subst h7; simp [h]
    · simp [h7]
  · right
    apply Nat.eq_of_testBit_eq
    intro i
    simp only [Nat.testBit_and, Nat.testBit_two_pow]
    by_cases h7 : 7 = i
    · subst h7; simp [h]
    · simp [h7]

theorem and_128_of_lt {t : Nat} (ht : t < 128) : t &&& 128 = 0 := by
  have h128 : (128 : Nat) = 2 ^ 7 := by norm_num
  apply Nat.eq_of_testBit_eq
  intro i
  rw [h128]
  simp only [Nat.testBit_and, Nat.testBit_two_pow, Nat.zero_testBit]
  by_cases h7 : 7 = i
  · subst h7
    have : t.testBit 7 = false := Nat.testBit_lt_two_pow (by omega)
    simp [this]
  · simp [h7]

theorem and_127_of_lt {t : Nat} (ht : t < 128) : t &&& 127 = t := by
  have h := Nat.and_pow_two_sub_one_of_lt_two_pow (x := t) (n := 7) (by omega)
  simpa using h

/-- The base state stored by a committed transition is the requested one. -/
theorem commit_base (t x : Nat) (ht : t < 128) : (t ||| (x &&& 128)) &&& 127 = t := by
  have h0 : (128 &&& 127 : Nat) = 0 := by decide
  rw [Nat.and_distrib_right, Nat.and_assoc, and_127_of_lt ht, h0]
  simp

/-- The flag bit stored by a committed transition is the old one. -/
theorem commit_flag (t x : Nat) (ht : t < 128) : (t ||| (x &&& 128)) &&& 128 = x &&& 128 := by
  have h0 : (128 &&& 128 : Nat) = 128 := by decide
  rw [Nat.and_distrib_right, Nat.and_assoc, and_128_of_lt ht, h0]
  simp

/-- Bit 15 of the merged status word is bit 15 of the raw word. -/
theorem merged_bit15 (p r : Nat) : ((p &&& 30720) ||| r) &&& 32768 = r &&& 32768 := by
  have h0 : (30720 &&& 32768 : Nat) = 0 := by decide
  rw [Nat.and_distrib_right, Nat.and_assoc, h0]
  simp

/-- Bit 7 of the merged status word is bit 7 of the raw word. -/
theorem merged_bit7 (p r : Nat) : ((p &&& 30720) ||| r) &&& 128 = r &&& 128 := by
  have h0 : (30720 &&& 128 : Nat) = 0 := by decide
  rw [Nat.and_distrib_right, Nat.and_assoc, h0]
  simp

/-! ## Effect of one exchange on the machine -/

@[simp] theorem rfm12_cmd_status (w : World) (c : Nat) (m : Machine) :
    (rfm12_cmd w c m).2.rfm12_status = m.rfm12_status := by
  simp only [rfm12_cmd]

@[simp] theorem rfm12_cmd_state (w : World) (c : Nat) (m : Machine) :
    (rfm12_cmd w c m).2.rfm12_state = m.rfm12_state := by
  simp only [rfm12_cmd]

@[simp] theorem rfm12_cmd_cmds (w : World) (c : Nat) (m : Machine) :
    (rfm12_cmd w c m).2.cmds = m.cmds ++ [c] := by
  simp only [rfm12_cmd]

@[simp] theorem rfm12_cmd_reads (w : World) (c : Nat) (m : Machine) :
    (rfm12_cmd w c m).2.reads = m.reads := by
  simp only [rfm12_cmd]

@[simp] theorem rfm12_cmd_writes (w : World) (c : Nat) (m : Machine) :
    (rfm12_cmd w c m).2.writes = m.writes := by
  simp only [rfm12_cmd]

@[simp] theorem rfm12_cmd_polls (w : World) (c : Nat) (m : Machine) :
    (rfm12_cmd w c m).2.polls = m.polls := by
  simp only [rfm12_cmd]

@[simp] theorem rfm12_cmd_msgs (w : World) (c : Nat) (m : Machine) :
    (rfm12_cmd w c m).2.msgs = m.msgs := by
  simp only [rfm12_cmd]

/-! ## Guarded transitions -/

@[simp] theorem issue_nil (w : World) (m : Machine) : issue w [] m = m := rfl

@[simp] theorem issue_cons (w : World) (c : Nat) (cs : List Nat) (m : Machine) :
    issue w (c :: cs) m = issue w cs (rfm12_cmd w c m).2 := by
  simp only [issue, List.foldl]

@[simp] theorem issue_status (w : World) (cs : List Nat) (m : Machine) :
    (issue w cs m).rfm12_status = m.rfm12_status := by
  induction cs generalizing m with
  | nil => simp
  | cons c cs ih => simp [ih]

@[simp] theorem issue_state (w : World) (cs : List Nat) (m : Machine) :
    (issue w cs m).rfm12_state = m.rfm12_state := by
  induction cs generalizing m with
  | nil => simp
  | cons c cs ih => simp [ih]

@[simp] theorem issue_cmds (w : World) (cs : List Nat) (m : Machine) :
    (issue w cs m).cmds = m.cmds ++ cs := by
  induction cs generalizing m with
  | nil => simp
  | cons c cs ih => simp [ih]

@[simp] theorem issue_reads (w : World) (cs : List Nat) (m : Machine) :
    (issue w cs m).reads = m.reads := by
  induction cs generalizing m with
  | nil => simp
  | cons c cs ih => simp [ih]

@[simp] theorem issue_writes (w : World) (cs : List Nat) (m : Machine) :
    (issue w cs m).writes = m.writes := by
  induction cs generalizing m with
  | nil => simp
  | cons c cs ih => simp [ih]

@[simp] theorem issue_polls (w : World) (cs : List Nat) (m : Machine) :
    (issue w cs m).polls = m.polls := by
  induction cs generalizing m with
  | nil => simp
  | cons c cs ih => simp [ih]

@[simp] theorem issue_msgs (w : World) (cs : List Nat) (m : Machine) :
    (issue w cs m).msgs = m.msgs := by
  induction cs generalizing m with
  | nil => simp
  | cons c cs ih => simp [ih]

/-- Closed form of `rfm12_set_state`: nothing happens when the request is the current base
state; otherwise the guard decides, and an accepted request issues the entry commands and
stores the requested state next to the old flag bit. -/
theorem rfm12_set_state_eq (w : World) (t : Nat) (m : Machine) :
    rfm12_set_state w t m =
      if base m = t then (true, m)
      else if guard (base m) t then
        (true, { issue w (entry_cmds (base m) t) m with
                  rfm12_state := t ||| (m.rfm12_state &&& RFXX_STATEFLAGS) })
      else (false, m) := by
  unfold rfm12_set_state base
  simp only []
  generalize m.rfm12_state &&& (0xFF ^^^ RFXX_STATEFLAGS) = s
  by_cases h : s = t
  · simp [h]
  · rw [if_pos h, if_neg h]
    unfold guard entry_cmds set_state_commit
    simp only [RFXX_STATE_IDLE, RFXX_STATE_LISTEN, RFXX_STATE_RX, RFXX_STATE_TX_SYNC0,
      RFXX_STATE_TX_SYNC1, RFXX_STATE_TX, RFXX_STATE_TX_END, RFXX_STATE_TX_RESYNC]
    split_ifs <;> simp_all

theorem set_state_snd_status (w : World) (t : Nat) (m : Machine) :
    (rfm12_set_state w t m).2.rfm12_status = m.rfm12_status := by
  rw [rfm12_set_state_eq]; split_ifs <;> simp

theorem set_state_snd_reads (w : World) (t : Nat) (m : Machine) :
    (rfm12_set_state w t m).2.reads = m.reads := by
  rw [rfm12_set_state_eq]; split_ifs <;> simp

theorem set_state_snd_writes (w : World) (t : Nat) (m : Machine) :
    (rfm12_set_state w t m).2.writes = m.writes := by
  rw [rfm12_set_state_eq]; split_ifs <;> simp

theorem set_state_snd_polls (w : World) (t : Nat) (m : Machine) :
    (rfm12_set_state w t m).2.polls = m.polls := by
  rw [rfm12_set_state_eq]; split_ifs <;> simp

theorem set_state_snd_msgs (w : World) (t : Nat) (m : Machine) :
    (rfm12_set_state w t m).2.msgs = m.msgs := by
  rw [rfm12_set_state_eq]; split_ifs <;> simp

/-- An accepted request other than the current base state. -/
theorem set_state_accept (w : World) (t : Nat) (m : Machine) (hne : base m ≠ t)
    (hg : guard (base m) t = true) :
    rfm12_set_state w t m =
      (true, { issue w (entry_cmds (base m) t) m with
                rfm12_state := t ||| (m.rfm12_state &&& RFXX_STATEFLAGS) }) := by
  rw [rfm12_set_state_eq, if_neg hne, if_pos hg]

/-- A refused request. -/
theorem set_state_refuse (w : World) (t : Nat) (m : Machine) (hne : base m ≠ t)
    (hg : guard (base m) t = false) : rfm12_set_state w t m = (false, m) := by
  rw [rfm12_set_state_eq, if_neg hne, hg]; rfl

/-- The guard of the code accepts every edge of the specification's table, every request
for Idle and every request for Listen, and nothing else. -/
theorem guard_iff (s t : Nat) :
    guard s t = true ↔
      t = RFXX_STATE_IDLE ∨ t = RFXX_STATE_LISTEN ∨ table_edge s t = true := by
  unfold guard table_edge
  simp only [RFXX_STATE_IDLE, RFXX_STATE_LISTEN, RFXX_STATE_RX, RFXX_STATE_TX_SYNC0,
    RFXX_STATE_TX_SYNC1, RFXX_STATE_TX, RFXX_STATE_TX_END, RFXX_STATE_TX_RESYNC,
    Bool.or_eq_true, Bool.and_eq_true, beq_iff_eq]
  by_cases h0 : t = 0
  · subst h0; simp
  by_cases h1 : t = 1
  · subst h1; simp
  by_cases h2 : t = 2
  · subst h2; simp
  by_cases h3 : t = 3
  · subst h3; simp
  by_cases h4 : t = 4
  · subst h4; simp
  by_cases h5 : t = 5
  · subst h5; simp
  by_cases h6 : t = 6
  · subst h6; simp
  by_cases h7 : t = 7
  · subst h7; simp
  simp [h0, h1, h2, h3, h4, h5, h6, h7]

/-! ## One pass of the dispatcher -/

@[simp] theorem xor_ff_80 : (0xFF ^^^ RFXX_STATEFLAGS : Nat) = 127 := by decide

theorem base_eq (m : Machine) : base m = m.rfm12_state &&& 127 := by
  unfold base; rw [xor_ff_80]

theorem handle_interrupt_status_eq (w : World) (m : Machine) :
    handle_interrupt_status w m =
      ((m.rfm12_status &&& RFXX_TRANSIENT_FLAGS) ||| (rfm12_cmd w 0 m).1,
       { (rfm12_cmd w 0 m).2 with
          rfm12_status := (m.rfm12_status &&& RFXX_TRANSIENT_FLAGS) ||| (rfm12_cmd w 0 m).1 }) := by
  simp only [handle_interrupt_status, rfm12_cmd_status]

/-- Bit 15 of the local `val` is bit 15 of the raw status response. -/
theorem status_val_bit15 (w : World) (m : Machine) :
    (handle_interrupt_status w m).1 &&& 32768 = (rfm12_cmd w 0 m).1 &&& 32768 := by
  rw [handle_interrupt_status_eq]
  exact merged_bit15 _ _

/-- Bit 7 of the local `val` is bit 7 of the raw status response. -/
theorem status_val_bit7 (w : World) (m : Machine) :
    (handle_interrupt_status w m).1 &&& 128 = (rfm12_cmd w 0 m).1 &&& 128 := by
  rw [handle_interrupt_status_eq]
  exact merged_bit7 _ _

@[simp] theorem status_snd_state (w : World) (m : Machine) :
    (handle_interrupt_status w m).2.rfm12_state = m.rfm12_state := by
  rw [handle_interrupt_status_eq]; simp

@[simp] theorem status_snd_cmds (w : World) (m : Machine) :
    (handle_interrupt_status w m).2.cmds = m.cmds ++ [0] := by
  rw [handle_interrupt_status_eq]; simp

@[simp] theorem status_snd_reads (w : World) (m : Machine) :
    (handle_interrupt_status w m).2.reads = m.reads := by
  rw [handle_interrupt_status_eq]; simp

@[simp] theorem status_snd_writes (w : World) (m : Machine) :
    (handle_interrupt_status w m).2.writes = m.writes := by
  rw [handle_interrupt_status_eq]; simp

@[simp] theorem status_snd_polls (w : World) (m : Machine) :
    (handle_interrupt_status w m).2.polls = m.polls := by
  rw [handle_interrupt_status_eq]; simp

@[simp] theorem status_snd_msgs (w : World) (m : Machine) :
    (handle_interrupt_status w m).2.msgs = m.msgs := by
  rw [handle_interrupt_status_eq]; simp

@[simp] theorem status_snd_status (w : World) (m : Machine) :
    (handle_interrupt_status w m).2.rfm12_status =
      (m.rfm12_status &&& RFXX_TRANSIENT_FLAGS) ||| (rfm12_cmd w 0 m).1 := by
  rw [handle_interrupt_status_eq]

@[simp] theorem status_snd_base (w : World) (m : Machine) :
    base (handle_interrupt_status w m).2 = base m := by
  unfold base; rw [status_snd_state]

/-! ### The switch, state by state -/

theorem switch_idle (w : World) (val : Nat) (m : Machine) :
    handle_interrupt_switch w val 0 m = (none, m) := by
  simp [handle_interrupt_switch]

theorem switch_listen (w : World) (val : Nat) (m : Machine) (h : val &&& 32768 ≠ 0) :
    handle_interrupt_switch w val 1 m =
      (some 2, (rfm12_read_handler w 1 ((rfm12_cmd w 0xB000 m).1 &&& 0xff)
        (rfm12_cmd w 0xB000 m).2).2) := by
  simp [handle_interrupt_switch, h]

theorem switch_rx (w : World) (val : Nat) (m : Machine) (h : val &&& 32768 ≠ 0) :
    handle_interrupt_switch w val 2 m =
      (some (if val &&& 128 = 0 ∨
                (rfm12_read_handler w (if val &&& 128 = 0 then 2 else 0)
                  ((rfm12_cmd w 0xB000 m).1 &&& 0xff) (rfm12_cmd w 0xB000 m).2).1 = false
             then 0 else 2),
       (rfm12_read_handler w (if val &&& 128 = 0 then 2 else 0)
          ((rfm12_cmd w 0xB000 m).1 &&& 0xff) (rfm12_cmd w 0xB000 m).2).2) := by
  by_cases hd : val &&& 128 = 0
  · simp [handle_interrupt_switch, h, hd]
  · simp [handle_interrupt_switch, h, hd]

theorem switch_tx_sync0 (w : World) (val : Nat) (m : Machine) (h : val &&& 32768 ≠ 0) :
    handle_interrupt_switch w val 3 m = (some 4, m) := by
  simp [handle_interrupt_switch, h]

theorem switch_tx_sync1 (w : World) (val : Nat) (m : Machine) (h : val &&& 32768 ≠ 0) :
    handle_interrupt_switch w val 4 m = (some 5, m) := by
  simp [handle_interrupt_switch, h]

theorem switch_tx_byte (w : World) (val : Nat) (m : Machine) (h : val &&& 32768 ≠ 0)
    (hd : (rfm12_write_handler w m).1 &&& 256 = 0) :
    handle_interrupt_switch w val 5 m =
      (some 5, (rfm12_cmd w (0xB800 ||| ((rfm12_write_handler w m).1 &&& 0xff))
        (rfm12_write_handler w m).2).2) := by
  simp [handle_interrupt_switch, h, hd]

theorem switch_tx_end_of_transfer (w : World) (val : Nat) (m : Machine) (h : val &&& 32768 ≠ 0)
    (hd : (rfm12_write_handler w m).1 = 256) :
    handle_interrupt_switch w val 5 m = (some 6, (rfm12_write_handler w m).2) := by
  simp [handle_interrupt_switch, h, hd]

theorem switch_tx_resync_request (w : World) (val : Nat) (m : Machine) (h : val &&& 32768 ≠ 0)
    (hd : (rfm12_write_handler w m).1 = 257) :
    handle_interrupt_switch w val 5 m = (some 7, (rfm12_write_handler w m).2) := by
  simp [handle_interrupt_switch, h, hd]

theorem switch_tx_end (w : World) (val : Nat) (m : Machine) (h : val &&& 32768 ≠ 0) :
    handle_interrupt_switch w val 6 m = (some 0, m) := by
  simp [handle_interrupt_switch, h]

theorem switch_tx_resync (w : World) (val : Nat) (m : Machine) (h : val &&& 32768 ≠ 0) :
    handle_interrupt_switch w val 7 m = (some 3, m) := by
  simp [handle_interrupt_switch, h]

/-- The switch never writes `rfm12_state`. -/
theorem switch_snd_state (w : World) (val s : Nat) (m : Machine) :
    (handle_interrupt_switch w val s m).2.rfm12_state = m.rfm12_state := by
  unfold handle_interrupt_switch
  simp only []
  split_ifs <;> simp [rfm12_read_handler, rfm12_write_handler, usart_msg]

/-- The switch never writes `rfm12_status`. -/
theorem switch_snd_status (w : World) (val s : Nat) (m : Machine) :
    (handle_interrupt_switch w val s m).2.rfm12_status = m.rfm12_status := by
  unfold handle_interrupt_switch
  simp only []
  split_ifs <;> simp [rfm12_read_handler, rfm12_write_handler, usart_msg]

/-- The switch never samples nIRQ. -/
theorem switch_snd_polls (w : World) (val s : Nat) (m : Machine) :
    (handle_interrupt_switch w val s m).2.polls = m.polls := by
  unfold handle_interrupt_switch
  simp only []
  split_ifs <;> simp [rfm12_read_handler, rfm12_write_handler, usart_msg]

/-! ### The guarded transition at the end of the body -/

theorem commit_same (w : World) (s ns : Nat) (m : Machine)
    (h : s = redirect ns m.rfm12_state) : handle_interrupt_commit w s ns m = m := by
  unfold handle_interrupt_commit
  simp only []
  rw [if_neg (not_not.mpr h)]

theorem commit_accept (w : World) (s ns : Nat) (m : Machine) (hb : base m = s)
    (hne : s ≠ redirect ns m.rfm12_state) (hg : guard s (redirect ns m.rfm12_state) = true) :
    handle_interrupt_commit w s ns m =
      { issue w (entry_cmds s (redirect ns m.rfm12_state)) m with
          rfm12_state := redirect ns m.rfm12_state ||| (m.rfm12_state &&& RFXX_STATEFLAGS) } := by
  subst hb
  have hset := set_state_accept w (redirect ns m.rfm12_state) m hne hg
  unfold handle_interrupt_commit
  simp only []
  rw [if_pos hne, hset]
  rfl

theorem commit_refuse (w : World) (s ns : Nat) (m : Machine) (hb : base m = s)
    (hne : s ≠ redirect ns m.rfm12_state) (hg : guard s (redirect ns m.rfm12_state) = false) :
    handle_interrupt_commit w s ns m = usart_msg "FAIL\n" m := by
  subst hb
  have hset := set_state_refuse w (redirect ns m.rfm12_state) m hne hg
  unfold handle_interrupt_commit
  simp only []
  rw [if_pos hne, hset]
  rfl

/-- The tail of the body never writes `rfm12_status`. -/
theorem commit_status (w : World) (s ns : Nat) (m : Machine) :
    (handle_interrupt_commit w s ns m).rfm12_status = m.rfm12_status := by
  unfold handle_interrupt_commit
  simp only []
  split_ifs <;> simp [usart_msg, set_state_snd_status]

/-- The body, once the switch has produced a target. -/
theorem body_of_switch (w : World) (m : Machine) (ns : Nat) (M : Machine)
    (h : handle_interrupt_switch w (handle_interrupt_status w m).1 (base m)
          (handle_interrupt_status w m).2 = (some ns, M)) :
    handle_interrupt_body w m = (false, handle_interrupt_commit w (base m) ns M) := by
  unfold handle_interrupt_body
  simp only []
  unfold base at h
  rw [status_snd_state, h]
  rfl


/-! ### The body, state by state -/

theorem rfm12_cmd_loop_fst (sdo : List Bool → Bool) (n cmd res : Nat) (sdi : List Bool)
    (g g' : List GpioOp) :
    (rfm12_cmd_loop sdo n cmd res sdi g).1 = (rfm12_cmd_loop sdo n cmd res sdi g').1 := by
  induction n generalizing cmd res sdi g g' with
  | zero => rfl
  | succ n ih =>
    simp only [rfm12_cmd_loop]
    exact ih _ _ _ _ _

theorem rfm12_cmd_fst (w : World) (c : Nat) (m : Machine) :
    (rfm12_cmd w c m).1 = response w m.cmds.length c := by
  simp only [rfm12_cmd, response]
  exact rfm12_cmd_loop_fst _ _ _ _ _ _ _

theorem status_val (w : World) (m : Machine) :
    (handle_interrupt_status w m).1 =
      (m.rfm12_status &&& RFXX_TRANSIENT_FLAGS) ||| response w m.cmds.length 0 := by
  rw [handle_interrupt_status_eq, rfm12_cmd_fst]

theorem status_bit15 (w : World) (m : Machine)
    (h : response w m.cmds.length 0 &&& RFXX_FLAG_FFIT ≠ 0) :
    (handle_interrupt_status w m).1 &&& 32768 ≠ 0 := by
  rw [status_val_bit15, rfm12_cmd_fst]; simpa using h

theorem base_status (w : World) (m : Machine) (s : Nat) (hs : base m = s) :
    base (handle_interrupt_status w m).2 = s := by
  rw [status_snd_base, hs]

/-- The body in Idle: the status is read and the function returns. -/
theorem body_idle (w : World) (m : Machine) (hs : base m = RFXX_STATE_IDLE) :
    handle_interrupt_body w m = (true, (handle_interrupt_status w m).2) := by
  unfold handle_interrupt_body
  simp only []
  have hb : (handle_interrupt_status w m).2.rfm12_state &&& (0xFF ^^^ RFXX_STATEFLAGS) = 0 := by
    rw [status_snd_state]; exact hs
  rw [hb, switch_idle]

/-- The body in Listen with FIFO-ready set. -/
theorem body_listen (w : World) (m : Machine) (hs : base m = RFXX_STATE_LISTEN)
    (hffit : response w m.cmds.length 0 &&& RFXX_FLAG_FFIT ≠ 0) :
    handle_interrupt_body w m =
      (false,
        { (rfm12_read_handler w RFXX_EV_START
            (response w (m.cmds.length + 1) 0xB000 &&& 0xff)
            (rfm12_cmd w 0xB000 (handle_interrupt_status w m).2).2).2 with
          rfm12_state := RFXX_STATE_RX ||| (m.rfm12_state &&& RFXX_STATEFLAGS) }) := by
  have hsw := switch_listen w _ (handle_interrupt_status w m).2 (status_bit15 w m hffit)
  simp only [RFXX_STATE_LISTEN] at hs
  rw [← hs] at hsw
  rw [body_of_switch w m _ _ hsw, hs]
  rw [commit_accept w 1 2 _ (by simpa [base_eq, rfm12_read_handler] using hs)
    (by simp [redirect]) (by simp [redirect]; decide)]
  simp [redirect, entry_cmds, rfm12_read_handler, rfm12_cmd_fst]

/-- The target the switch computes in Rx with FIFO-ready set. -/
theorem switch_rx_target (w : World) (m : Machine) (hs : base m = RFXX_STATE_RX)
    (hffit : response w m.cmds.length 0 &&& RFXX_FLAG_FFIT ≠ 0) :
    handle_interrupt_switch w (handle_interrupt_status w m).1 (base m)
        (handle_interrupt_status w m).2 =
      (some (if response w m.cmds.length 0 &&& RFXX_FLAG_DQD = 0 ∨ (rx_read w m).1 = false
              then RFXX_STATE_IDLE else RFXX_STATE_RX),
        (rx_read w m).2) := by
  have hsw := switch_rx w _ (handle_interrupt_status w m).2 (status_bit15 w m hffit)
  simp only [RFXX_STATE_RX] at hs
  rw [hs, hsw, status_val_bit7, rfm12_cmd_fst, rfm12_cmd_fst]
  simp [rx_read, rx_event]

/-- The body in Rx with FIFO-ready set, when the target stays Rx. -/
theorem body_rx_continue (w : World) (m : Machine) (hs : base m = RFXX_STATE_RX)
    (hffit : response w m.cmds.length 0 &&& RFXX_FLAG_FFIT ≠ 0)
    (hdqd : response w m.cmds.length 0 &&& RFXX_FLAG_DQD ≠ 0)
    (hcont : (rx_read w m).1 = true) :
    handle_interrupt_body w m = (false, (rx_read w m).2) := by
  have hsw := switch_rx_target w m hs hffit
  have h128 : ¬ response w m.cmds.length 0 &&& 128 = 0 := by simpa using hdqd
  rw [if_neg (by simp [h128, hcont])] at hsw
  rw [body_of_switch w m _ _ hsw]
  rw [commit_same w _ _ _ (by simp [redirect, hs])]

/-- The body in Rx with FIFO-ready set, when the target is Idle. -/
theorem body_rx_end (w : World) (m : Machine) (hs : base m = RFXX_STATE_RX)
    (hffit : response w m.cmds.length 0 &&& RFXX_FLAG_FFIT ≠ 0)
    (hend : response w m.cmds.length 0 &&& RFXX_FLAG_DQD = 0 ∨ (rx_read w m).1 = false) :
    handle_interrupt_body w m =
      (false,
        { issue w (entry_cmds RFXX_STATE_RX (redirect RFXX_STATE_IDLE m.rfm12_state))
            (rx_read w m).2 with
          rfm12_state := redirect RFXX_STATE_IDLE m.rfm12_state |||
            (m.rfm12_state &&& RFXX_STATEFLAGS) }) := by
  have hsw := switch_rx_target w m hs hffit
  rw [if_pos hend] at hsw
  rw [body_of_switch w m _ _ hsw, hs]
  have hst : (rx_read w m).2.rfm12_state = m.rfm12_state := by
    simp [rx_read, rfm12_read_handler]
  rw [commit_accept w _ _ _ (by rw [base, hst]; exact hs)
    (by rw [hst]; unfold redirect; split_ifs <;> simp)
    (by rw [hst]; unfold redirect; split_ifs <;> decide)]
  rw [hst]
/-- The body in TxSync0 with FIFO-space-available set. -/
theorem body_tx_sync0 (w : World) (m : Machine) (hs : base m = RFXX_STATE_TX_SYNC0)
    (hrgit : response w m.cmds.length 0 &&& RFXX_FLAG_RGIT ≠ 0) :
    handle_interrupt_body w m =
      (false,
        { issue w [0xB800 ||| 0x2d] (handle_interrupt_status w m).2 with
          rfm12_state := RFXX_STATE_TX_SYNC1 ||| (m.rfm12_state &&& RFXX_STATEFLAGS) }) := by
  have hsw := switch_tx_sync0 w _ (handle_interrupt_status w m).2 (status_bit15 w m hrgit)
  simp only [RFXX_STATE_TX_SYNC0] at hs
  rw [← hs] at hsw
  rw [body_of_switch w m _ _ hsw, hs]
  rw [commit_accept w 3 4 _ (base_status w m 3 hs) (by simp [redirect])
    (by simp [redirect]; decide)]
  simp [redirect, entry_cmds]

/-- The body in TxSync1 with FIFO-space-available set. -/
theorem body_tx_sync1 (w : World) (m : Machine) (hs : base m = RFXX_STATE_TX_SYNC1)
    (hrgit : response w m.cmds.length 0 &&& RFXX_FLAG_RGIT ≠ 0) :
    handle_interrupt_body w m =
      (false,
        { issue w [0xB800 ||| 0xd4] (handle_interrupt_status w m).2 with
          rfm12_state := RFXX_STATE_TX ||| (m.rfm12_state &&& RFXX_STATEFLAGS) }) := by
  have hsw := switch_tx_sync1 w _ (handle_interrupt_status w m).2 (status_bit15 w m hrgit)
  simp only [RFXX_STATE_TX_SYNC1] at hs
  rw [← hs] at hsw
  rw [body_of_switch w m _ _ hsw, hs]
  rw [commit_accept w 4 5 _ (base_status w m 4 hs) (by simp [redirect])
    (by simp [redirect]; decide)]
  simp [redirect, entry_cmds]

theorem write_handler_fst (w : World) (m : Machine) :
    (rfm12_write_handler w (handle_interrupt_status w m).2).1 = tx_data w m := by
  simp [rfm12_write_handler, tx_data]

/-- The body in Tx with FIFO-space-available set, when the handler returns a data byte. -/
theorem body_tx_byte (w : World) (m : Machine) (hs : base m = RFXX_STATE_TX)
    (hrgit : response w m.cmds.length 0 &&& RFXX_FLAG_RGIT ≠ 0)
    (hd : tx_data w m &&& 0x100 = 0) :
    handle_interrupt_body w m =
      (false,
        (rfm12_cmd w (0xB800 ||| (tx_data w m &&& 0xff))
          (rfm12_write_handler w (handle_interrupt_status w m).2).2).2) := by
  have hsw := switch_tx_byte w _ (handle_interrupt_status w m).2 (status_bit15 w m hrgit)
    (by rw [write_handler_fst]; exact hd)
  simp only [RFXX_STATE_TX] at hs
  rw [← hs, write_handler_fst] at hsw
  rw [body_of_switch w m _ _ hsw]
  rw [commit_same w _ _ _ (by simp [redirect, hs])]

/-- The body in Tx with FIFO-space-available set, when the handler returns
`RFXX_EV_TX_END`. -/
theorem body_tx_end_of_transfer (w : World) (m : Machine) (hs : base m = RFXX_STATE_TX)
    (hrgit : response w m.cmds.length 0 &&& RFXX_FLAG_RGIT ≠ 0)
    (hd : tx_data w m = RFXX_EV_TX_END) :
    handle_interrupt_body w m =
      (false,
        { issue w [0xB800 ||| 0xaa] (rfm12_write_handler w (handle_interrupt_status w m).2).2 with
          rfm12_state := RFXX_STATE_TX_END ||| (m.rfm12_state &&& RFXX_STATEFLAGS) }) := by
  have hsw := switch_tx_end_of_transfer w _ (handle_interrupt_status w m).2
    (status_bit15 w m hrgit) (by rw [write_handler_fst]; exact hd)
  simp only [RFXX_STATE_TX] at hs
  rw [← hs] at hsw
  rw [body_of_switch w m _ _ hsw, hs]
  rw [commit_accept w 5 6 _ (by simpa [base_eq, rfm12_write_handler] using hs)
    (by simp [redirect]) (by simp [redirect]; decide)]
  simp [redirect, entry_cmds, rfm12_write_handler]

/-- The body in Tx with FIFO-space-available set, when the handler returns
`RFXX_EV_TX_RESYNC`. -/
theorem body_tx_resync_request (w : World) (m : Machine) (hs : base m = RFXX_STATE_TX)
    (hrgit : response w m.cmds.length 0 &&& RFXX_FLAG_RGIT ≠ 0)
    (hd : tx_data w m = RFXX_EV_TX_RESYNC) :
    handle_interrupt_body w m =
      (false,
        { issue w [0xB800 ||| 0xaa] (rfm12_write_handler w (handle_interrupt_status w m).2).2 with
          rfm12_state := RFXX_STATE_TX_RESYNC ||| (m.rfm12_state &&& RFXX_STATEFLAGS) }) := by
  have hsw := switch_tx_resync_request w _ (handle_interrupt_status w m).2
    (status_bit15 w m hrgit) (by rw [write_handler_fst]; exact hd)
  simp only [RFXX_STATE_TX] at hs
  rw [← hs] at hsw
  rw [body_of_switch w m _ _ hsw, hs]
  rw [commit_accept w 5 7 _ (by simpa [base_eq, rfm12_write_handler] using hs)
    (by simp [redirect]) (by simp [redirect]; decide)]
  simp [redirect, entry_cmds, rfm12_write_handler]

/-- The body in TxEnd with FIFO-space-available set. -/
theorem body_tx_end (w : World) (m : Machine) (hs : base m = RFXX_STATE_TX_END)
    (hrgit : response w m.cmds.length 0 &&& RFXX_FLAG_RGIT ≠ 0) :
    handle_interrupt_body w m =
      (false,
        { issue w (entry_cmds RFXX_STATE_TX_END (redirect RFXX_STATE_IDLE m.rfm12_state))
            (handle_interrupt_status w m).2 with
          rfm12_state := redirect RFXX_STATE_IDLE m.rfm12_state |||
            (m.rfm12_state &&& RFXX_STATEFLAGS) }) := by
  have hsw := switch_tx_end w _ (handle_interrupt_status w m).2 (status_bit15 w m hrgit)
  simp only [RFXX_STATE_TX_END] at hs
  rw [← hs] at hsw
  rw [body_of_switch w m _ _ hsw, hs]
  rw [commit_accept w 6 0 _ (base_status w m 6 hs)
    (by rw [status_snd_state]; unfold redirect; split_ifs <;> simp)
    (by rw [status_snd_state]; unfold redirect; split_ifs <;> decide)]
  simp

/-- The body in TxResync with FIFO-space-available set. -/
theorem body_tx_resync (w : World) (m : Machine) (hs : base m = RFXX_STATE_TX_RESYNC)
    (hrgit : response w m.cmds.length 0 &&& RFXX_FLAG_RGIT ≠ 0) :
    handle_interrupt_body w m =
      (false,
        { issue w [0xB800 ||| 0xaa] (handle_interrupt_status w m).2 with
          rfm12_state := RFXX_STATE_TX_SYNC0 ||| (m.rfm12_state &&& RFXX_STATEFLAGS) }) := by
  have hsw := switch_tx_resync w _ (handle_interrupt_status w m).2 (status_bit15 w m hrgit)
  simp only [RFXX_STATE_TX_RESYNC] at hs
  rw [← hs] at hsw
  rw [body_of_switch w m _ _ hsw, hs]
  rw [commit_accept w 7 3 _ (base_status w m 7 hs) (by simp [redirect])
    (by simp [redirect]; decide)]
  simp [redirect, entry_cmds]

@[simp] theorem or_b8_aa : (0xB800 ||| 0xaa : Nat) = 0xB8AA := by decide
@[simp] theorem or_b8_2d : (0xB800 ||| 0x2d : Nat) = 0xB82D := by decide
@[simp] theorem or_b8_d4 : (0xB800 ||| 0xd4 : Nat) = 0xB8D4 := by decide

/-! ## The interrupt drain -/

@[simp] theorem get_nirq_fst (w : World) (m : Machine) :
    (RFXX_GET_NIRQ w m).1 = w.NIRQ m.polls := rfl
@[simp] theorem get_nirq_state (w : World) (m : Machine) :
    (RFXX_GET_NIRQ w m).2.rfm12_state = m.rfm12_state := rfl
@[simp] theorem get_nirq_status (w : World) (m : Machine) :
    (RFXX_GET_NIRQ w m).2.rfm12_status = m.rfm12_status := rfl
@[simp] theorem get_nirq_cmds (w : World) (m : Machine) :
    (RFXX_GET_NIRQ w m).2.cmds = m.cmds := rfl
@[simp] theorem get_nirq_reads (w : World) (m : Machine) :
    (RFXX_GET_NIRQ w m).2.reads = m.reads := rfl
@[simp] theorem get_nirq_writes (w : World) (m : Machine) :
    (RFXX_GET_NIRQ w m).2.writes = m.writes := rfl
@[simp] theorem get_nirq_polls (w : World) (m : Machine) :
    (RFXX_GET_NIRQ w m).2.polls = m.polls + 1 := rfl
@[simp] theorem get_nirq_msgs (w : World) (m : Machine) :
    (RFXX_GET_NIRQ w m).2.msgs = m.msgs := rfl
@[simp] theorem get_nirq_base (w : World) (m : Machine) :
    base (RFXX_GET_NIRQ w m).2 = base m := rfl

theorem drain_continue (w : World) (f : Nat) (m M : Machine) (hirq : w.NIRQ m.polls = false)
    (hbody : handle_interrupt_body w (RFXX_GET_NIRQ w m).2 = (false, M)) :
    rfm12_handle_interrupt w (f + 1) m = rfm12_handle_interrupt w f M := by
  simp [rfm12_handle_interrupt, handle_interrupt_pass, hirq, hbody]

theorem drain_irq_high (w : World) (f : Nat) (m : Machine) (hirq : w.NIRQ m.polls = true) :
    rfm12_handle_interrupt w (f + 1) m = some (RFXX_GET_NIRQ w m).2 := by
  simp [rfm12_handle_interrupt, handle_interrupt_pass, hirq]

theorem drain_return (w : World) (f : Nat) (m M : Machine) (hirq : w.NIRQ m.polls = false)
    (hbody : handle_interrupt_body w (RFXX_GET_NIRQ w m).2 = (true, M)) :
    rfm12_handle_interrupt w (f + 1) m = some M := by
  simp [rfm12_handle_interrupt, handle_interrupt_pass, hirq, hbody]

theorem trace_continue (w : World) (f : Nat) (m M : Machine) (hirq : w.NIRQ m.polls = false)
    (hbody : handle_interrupt_body w (RFXX_GET_NIRQ w m).2 = (false, M)) :
    handle_interrupt_trace w (f + 1) m = M :: handle_interrupt_trace w f M := by
  simp [handle_interrupt_trace, hirq, hbody]

theorem trace_irq_high (w : World) (f : Nat) (m : Machine) (hirq : w.NIRQ m.polls = true) :
    handle_interrupt_trace w (f + 1) m = [] := by
  simp [handle_interrupt_trace, hirq]

theorem trace_return (w : World) (f : Nat) (m M : Machine) (hirq : w.NIRQ m.polls = false)
    (hbody : handle_interrupt_body w (RFXX_GET_NIRQ w m).2 = (true, M)) :
    handle_interrupt_trace w (f + 1) m = [M] := by
  simp [handle_interrupt_trace, hirq, hbody]

theorem runs_drain (w : World) {m M : Machine} {tr : List Machine} (h : Runs w m tr M)
    (f : Nat) : rfm12_handle_interrupt w (tr.length + f) m = rfm12_handle_interrupt w f M := by
  induction h with
  | done m => simp
  | pass m M M' tr hirq hbody _ ih =>
    have : (M :: tr).length + f = (tr.length + f) + 1 := by simp; omega
    rw [this, drain_continue w _ m M hirq hbody, ih]

theorem runs_trace (w : World) {m M : Machine} {tr : List Machine} (h : Runs w m tr M)
    (f : Nat) :
    handle_interrupt_trace w (tr.length + f) m = tr ++ handle_interrupt_trace w f M := by
  induction h with
  | done m => simp
  | pass m M M' tr hirq hbody _ ih =>
    have : (M :: tr).length + f = (tr.length + f) + 1 := by simp; omega
    rw [this, trace_continue w _ m M hirq hbody, ih]
    rfl

theorem runs_short (w : World) {m M : Machine} {tr : List Machine} (h : Runs w m tr M)
    (f : Nat) (hf : f ≤ tr.length) : rfm12_handle_interrupt w f m = none := by
  induction h generalizing f with
  | done m =>
    have : f = 0 := by simpa using hf
    subst this; rfl
  | pass m M M' tr hirq hbody _ ih =>
    cases f with
    | zero => rfl
    | succ f =>
      rw [drain_continue w f m M hirq hbody]
      exact ih f (by simpa using hf)

theorem runs_append (w : World) {m M M' : Machine} {tr tr' : List Machine}
    (h : Runs w m tr M) (h' : Runs w M tr' M') : Runs w m (tr ++ tr') M' := by
  induction h with
  | done m => simpa using h'
  | pass m M M'' tr hirq hbody _ ih => exact Runs.pass m M M' (tr ++ tr') hirq hbody (ih h')

theorem runs_one (w : World) (m M : Machine) (hirq : w.NIRQ m.polls = false)
    (hbody : handle_interrupt_body w (RFXX_GET_NIRQ w m).2 = (false, M)) : Runs w m [M] M :=
  Runs.pass m M M [] hirq hbody (Runs.done M)

/-- The base state of a machine whose state byte was stored by a committed transition. -/
theorem base_of_state (m : Machine) (t raw : Nat) (ht : t < 128)
    (h : m.rfm12_state = t ||| (raw &&& RFXX_STATEFLAGS)) : base m = t := by
  rw [base_eq, h]; exact commit_base t raw ht

/-- The flag of a machine whose state byte was stored by a committed transition. -/
theorem flag_of_state (m m' : Machine) (t : Nat) (ht : t < 128)
    (h : m'.rfm12_state = t ||| (m.rfm12_state &&& RFXX_STATEFLAGS)) :
    auto_relisten m' = auto_relisten m := by
  unfold auto_relisten
  simp only [RFXX_STATEFLAG_LISTEN]
  rw [h]
  simp only [RFXX_STATEFLAGS, commit_flag t _ ht]

theorem redirect_idle (raw : Nat) :
    redirect RFXX_STATE_IDLE raw = if raw &&& 128 ≠ 0 then 1 else 0 := by
  simp [redirect]

theorem redirect_lt (ns raw : Nat) (h : ns < 128) : redirect ns raw < 128 := by
  unfold redirect; split_ifs
  · simp
  · exact h

theorem rfm12_cmd_loop_ones (n cmd res : Nat) (sdi : List Bool) (g : List GpioOp) :
    (rfm12_cmd_loop (fun _ => true) n cmd res sdi g).1
      = (rfm12_cmd_loop (fun _ => true) n 0 res [] []).1 := by
  induction n generalizing cmd res sdi g with
  | zero => rfl
  | succ n ih =>
    simp only [rfm12_cmd_loop, if_true]
    rw [ih]
    exact (ih _ _ _ _).symm

/-- A chip that holds SDO high answers every exchange with 0xFFFF. -/
theorem response_ones (w : World) (k c : Nat) (h : w.SDO k = fun _ => true) :
    response w k c = 0xFFFF := by
  unfold response
  rw [h, rfm12_cmd_loop_ones]
  decide

/-- C9, general part: whenever the switch of a pass computes the target Idle while
auto-relisten is set, the pass ends in Listen, with auto-relisten still set. -/
theorem idle_target_relistens (w : World) (m M : Machine)
    (hsw : handle_interrupt_switch w (handle_interrupt_status w m).1 (base m)
          (handle_interrupt_status w m).2 = (some RFXX_STATE_IDLE, M))
    (har : auto_relisten m = true) :
    (handle_interrupt_body w m).1 = false ∧
    base (handle_interrupt_body w m).2 = RFXX_STATE_LISTEN ∧
    auto_relisten (handle_interrupt_body w m).2 = true := by
  have hM : M.rfm12_state = m.rfm12_state := by
    have := switch_snd_state w (handle_interrupt_status w m).1 (base m)
      (handle_interrupt_status w m).2
    rw [hsw, status_snd_state] at this
    exact this
  have hfl : ¬ m.rfm12_state &&& 128 = 0 := by
    simpa [auto_relisten] using har
  have hred : redirect RFXX_STATE_IDLE M.rfm12_state = 1 := by
    rw [hM]; simp [redirect, hfl]
  rw [body_of_switch w m _ M hsw]
  refine ⟨rfl, ?_⟩
  by_cases hb : base m = 1
  · rw [commit_same w _ _ _ (by rw [hred]; exact hb)]
    refine ⟨?_, ?_⟩
    · simp only [base, hM]; simpa [base] using hb
    · simp only [auto_relisten, hM]; simpa [auto_relisten] using har
  · rw [commit_accept w _ _ _ (by simp only [base, hM]) (by rw [hred]; exact hb)
      (by rw [hred]; simp [guard])]
    rw [hred]
    refine ⟨?_, ?_⟩
    · exact base_of_state _ 1 M.rfm12_state (by decide) rfl
    · rw [← har]; exact flag_of_state m _ 1 (by decide) (by simp [hM])

/-- `rfm12_listen(true)` from Idle with the auto-relisten bit already set. -/
theorem listen_enable_from_idle (w : World) (m0 : Machine) (h0 : m0.rfm12_state = 0x80) :
    (rfm12_listen w true m0).1 = true ∧
    (rfm12_listen w true m0).2.rfm12_state = 0x81 ∧
    (rfm12_listen w true m0).2.cmds = m0.cmds ++ [0x82C9, 0xCA83] ∧
    (rfm12_listen w true m0).2.polls = m0.polls ∧
    (rfm12_listen w true m0).2.reads = m0.reads := by
  have hb : base { m0 with rfm12_state := m0.rfm12_state ||| RFXX_STATEFLAG_LISTEN } = 0 := by
    simp only [base, h0]; decide
  have hl : rfm12_listen w true m0 =
      rfm12_set_state w RFXX_STATE_LISTEN
        { m0 with rfm12_state := m0.rfm12_state ||| RFXX_STATEFLAG_LISTEN } := by
    unfold rfm12_listen
    simp only [if_true]
    exact if_pos hb
  rw [hl, set_state_accept w _ _ (by rw [hb]; decide) (by rw [hb]; decide), hb]
  refine ⟨rfl, ?_, ?_, ?_, ?_⟩
  · simp only [h0]; decide
  · simp [entry_cmds]
  · simp
  · simp

/-- C9, the scenario: from Idle with auto-relisten set, after `rfm12_listen(true)`, a drain
whose first status has FIFO-ready set and whose second status has FIFO-ready set and
data-quality-detect clear, and which then finds nIRQ high, passes through Rx and returns in
Listen with auto-relisten set. -/
theorem receive_then_relisten (w : World) (m0 : Machine) (h0 : m0.rfm12_state = 0x80)
    (hirq0 : w.NIRQ m0.polls = false) (hirq1 : w.NIRQ (m0.polls + 1) = false)
    (hirq2 : w.NIRQ (m0.polls + 2) = true)
    (hs1 : response w (m0.cmds.length + 2) 0 &&& RFXX_FLAG_FFIT ≠ 0)
    (hs2 : response w (m0.cmds.length + 4) 0 &&& RFXX_FLAG_FFIT ≠ 0)
    (hq2 : response w (m0.cmds.length + 4) 0 &&& RFXX_FLAG_DQD = 0)
    (fuel : Nat) (hfuel : 3 ≤ fuel) :
    ∃ mf, rfm12_handle_interrupt w fuel (rfm12_listen w true m0).2 = some mf ∧
      base mf = RFXX_STATE_LISTEN ∧ auto_relisten mf = true ∧
      (handle_interrupt_trace w fuel (rfm12_listen w true m0).2).map base
        = [RFXX_STATE_RX, RFXX_STATE_LISTEN] := by
  obtain ⟨_, hst1, hc1, hp1, _⟩ := listen_enable_from_idle w m0 h0
  generalize (rfm12_listen w true m0).2 = m1 at *
  have hlen1 : m1.cmds.length = m0.cmds.length + 2 := by rw [hc1]; simp
  -- first pass: Listen to Rx
  have hb1 : base (RFXX_GET_NIRQ w m1).2 = RFXX_STATE_LISTEN := by
    rw [get_nirq_base, base_eq, hst1]; decide
  have h1 := body_listen w (RFXX_GET_NIRQ w m1).2 hb1
    (by rw [get_nirq_cmds, hlen1]; exact hs1)
  generalize hm2 : (handle_interrupt_body w (RFXX_GET_NIRQ w m1).2).2 = m2
  have hbody1 : handle_interrupt_body w (RFXX_GET_NIRQ w m1).2 = (false, m2) := by
    rw [← hm2, h1]
  have hst2 : m2.rfm12_state = 0x82 := by
    rw [← hm2, h1]; simp only [get_nirq_state, hst1]; decide
  have hc2 : m2.cmds.length = m0.cmds.length + 4 := by
    rw [← hm2, h1]; simp [rfm12_read_handler, hlen1]
  have hp2 : m2.polls = m0.polls + 1 := by
    rw [← hm2, h1]; simp [rfm12_read_handler, hp1]
  -- second pass: Rx to Listen
  have hb2 : base (RFXX_GET_NIRQ w m2).2 = RFXX_STATE_RX := by
    rw [get_nirq_base, base_eq, hst2]; decide
  have h2 := body_rx_end w (RFXX_GET_NIRQ w m2).2 hb2
    (by rw [get_nirq_cmds, hc2]; exact hs2)
    (Or.inl (by rw [get_nirq_cmds, hc2]; exact hq2))
  generalize hm3 : (handle_interrupt_body w (RFXX_GET_NIRQ w m2).2).2 = m3
  have hbody2 : handle_interrupt_body w (RFXX_GET_NIRQ w m2).2 = (false, m3) := by
    rw [← hm3, h2]
  have hst3 : m3.rfm12_state = 0x81 := by
    rw [← hm3, h2]; simp only [get_nirq_state, hst2]; decide
  have hp3 : m3.polls = m0.polls + 2 := by
    rw [← hm3, h2]; simp [rx_read, rfm12_read_handler, hp2]
  -- the loop
  obtain ⟨f, rfl⟩ : ∃ f, fuel = f + 1 + 1 + 1 := ⟨fuel - 3, by omega⟩
  refine ⟨(RFXX_GET_NIRQ w m3).2, ?_, ?_, ?_, ?_⟩
  · rw [drain_continue w _ m1 m2 (by rw [hp1]; exact hirq0) hbody1,
      drain_continue w _ m2 m3 (by rw [hp2]; exact hirq1) hbody2,
      drain_irq_high w _ m3 (by rw [hp3]; exact hirq2)]
  · rw [get_nirq_base, base_eq, hst3]; decide
  · simp only [auto_relisten, get_nirq_state, hst3]; decide
  · rw [trace_continue w _ m1 m2 (by rw [hp1]; exact hirq0) hbody1,
      trace_continue w _ m2 m3 (by rw [hp2]; exact hirq1) hbody2,
      trace_irq_high w _ m3 (by rw [hp3]; exact hirq2)]
    simp only [List.map, base, hst2, hst3]; decide

/-! ## Transmission runs -/

theorem and_256_of_lt {t : Nat} (ht : t < 256) : t &&& 256 = 0 := by
  have h256 : (256 : Nat) = 2 ^ 8 := by norm_num
  apply Nat.eq_of_testBit_eq
  intro i
  rw [h256]
  simp only [Nat.testBit_and, Nat.testBit_two_pow, Nat.zero_testBit]
  by_cases h8 : 8 = i
  · subst h8
    have : t.testBit 8 = false := Nat.testBit_lt_two_pow (by omega)
    simp [this]
  · simp [h8]

theorem and_255_of_lt {t : Nat} (ht : t < 256) : t &&& 255 = t := by
  have h := Nat.and_pow_two_sub_one_of_lt_two_pow (x := t) (n := 8) (by omega)
  simpa using h

/-- The passes in Tx that send the data bytes `bs`. -/
theorem tx_bytes_run (w : World) (hrgit : ∀ k, response w k 0 &&& RFXX_FLAG_RGIT ≠ 0) :
    ∀ (bs : List Nat) (m : Machine), base m = RFXX_STATE_TX → (∀ b ∈ bs, b < 256) →
      (∀ i, i < bs.length → w.NIRQ (m.polls + i) = false) →
      (∀ i (h : i < bs.length), w.write_handler (m.writes + i) = bs[i]) →
      ∃ tr M, Runs w m tr M ∧ tr.map base = List.replicate bs.length RFXX_STATE_TX ∧
        M.rfm12_state = m.rfm12_state ∧ M.cmds = m.cmds ++ data_cmds bs ∧
        M.writes = m.writes + bs.length ∧ M.polls = m.polls + bs.length ∧
        M.reads = m.reads ∧ M.msgs = m.msgs := by
  intro bs
  induction bs with
  | nil =>
    intro m _ _ _ _
    exact ⟨[], m, Runs.done m, rfl, rfl, by simp [data_cmds], rfl, rfl, rfl, rfl⟩
  | cons b bs ih =>
    intro m hs hb hirq hwr
    have hb256 : b < 256 := hb b (by simp)
    have hdata : tx_data w (RFXX_GET_NIRQ w m).2 = b := by
      have := hwr 0 (by simp)
      simp only [Nat.add_zero, List.getElem_cons_zero] at this
      simp only [tx_data, get_nirq_writes, this]
      omega
    have h1 := body_tx_byte w (RFXX_GET_NIRQ w m).2 hs (hrgit _)
      (by rw [hdata]; exact and_256_of_lt hb256)
    rw [hdata, and_255_of_lt hb256] at h1
    generalize hM1 : (rfm12_cmd w (0xB800 ||| b)
      (rfm12_write_handler w (handle_interrupt_status w (RFXX_GET_NIRQ w m).2).2).2).2 = M1 at h1
    have hst1 : M1.rfm12_state = m.rfm12_state := by
      rw [← hM1]; simp [rfm12_write_handler]
    have hc1 : M1.cmds = m.cmds ++ [0, 0xB800 ||| b] := by
      rw [← hM1]; simp [rfm12_write_handler]
    have hw1 : M1.writes = m.writes + 1 := by
      rw [← hM1]; simp [rfm12_write_handler]
    have hp1 : M1.polls = m.polls + 1 := by
      rw [← hM1]; simp [rfm12_write_handler]
    have hr1 : M1.reads = m.reads := by
      rw [← hM1]; simp [rfm12_write_handler]
    have hmsg1 : M1.msgs = m.msgs := by
      rw [← hM1]; simp [rfm12_write_handler]
    have hbase1 : base M1 = RFXX_STATE_TX := by
      simp only [base, hst1]; exact hs
    obtain ⟨tr, M, hrun, htr, hst, hc, hwM, hpM, hrM, hmM⟩ := ih M1 hbase1
      (fun x hx => hb x (by simp [hx]))
      (fun i hi => by
        have := hirq (i + 1) (by simp; omega)
        rw [hp1]; rw [← this]; congr 1; omega)
      (fun i hi => by
        have := hwr (i + 1) (by simp; omega)
        simp only [List.getElem_cons_succ] at this
        rw [hw1, ← this]; congr 1; omega)
    refine ⟨M1 :: tr, M, Runs.pass m M1 M tr (by simpa using hirq 0 (by simp)) h1 hrun,
      ?_, ?_, ?_, ?_, ?_, ?_, ?_⟩
    · simp [htr, hbase1, List.replicate_succ]
    · rw [hst, hst1]
    · rw [hc, hc1]; simp [data_cmds]
    · rw [hwM, hw1]; simp; omega
    · rw [hpM, hp1]; simp; omega
    · rw [hrM, hr1]
    · rw [hmM, hmsg1]

/-- The passes of a whole transmission, from TxSync0 until Idle (or Listen) is entered. -/
theorem transmit_run (w : World) (hrgit : ∀ k, response w k 0 &&& RFXX_FLAG_RGIT ≠ 0)
    (bs : List Nat) (m : Machine) (hs : base m = RFXX_STATE_TX_SYNC0)
    (hb : ∀ b ∈ bs, b < 256)
    (hirq : ∀ i, i < bs.length + 4 → w.NIRQ (m.polls + i) = false)
    (hwr : ∀ i (h : i < bs.length), w.write_handler (m.writes + i) = bs[i])
    (heot : w.write_handler (m.writes + bs.length) = RFXX_EV_TX_END) :
    ∃ tr M, Runs w m tr M ∧
      tr.map base = [RFXX_STATE_TX_SYNC1, RFXX_STATE_TX] ++
        List.replicate bs.length RFXX_STATE_TX ++
        [RFXX_STATE_TX_END, redirect RFXX_STATE_IDLE m.rfm12_state] ∧
      M.rfm12_state = redirect RFXX_STATE_IDLE m.rfm12_state ||| (m.rfm12_state &&& 128) ∧
      M.cmds = m.cmds ++ [0x0000, 0xB82D, 0x0000, 0xB8D4] ++ data_cmds bs ++
        [0x0000, 0xB8AA, 0x0000] ++
        entry_cmds RFXX_STATE_TX_END (redirect RFXX_STATE_IDLE m.rfm12_state) ∧
      M.polls = m.polls + bs.length + 4 ∧ M.msgs = m.msgs := by
  -- TxSync0 to TxSync1
  have h1 := body_tx_sync0 w (RFXX_GET_NIRQ w m).2 hs (hrgit _)
  generalize hM1 : ({ issue w [0xB800 ||| 0x2d] (handle_interrupt_status w (RFXX_GET_NIRQ w m).2).2
    with rfm12_state := RFXX_STATE_TX_SYNC1 |||
      ((RFXX_GET_NIRQ w m).2.rfm12_state &&& RFXX_STATEFLAGS) } : Machine) = M1 at h1
  have hst1 : M1.rfm12_state = 4 ||| (m.rfm12_state &&& RFXX_STATEFLAGS) := by
    rw [← hM1]; simp
  have hc1 : M1.cmds = m.cmds ++ [0, 0xB82D] := by rw [← hM1]; simp
  have hw1 : M1.writes = m.writes := by rw [← hM1]; simp
  have hp1 : M1.polls = m.polls + 1 := by rw [← hM1]; simp
  have hm1 : M1.msgs = m.msgs := by rw [← hM1]; simp
  have hb1 : base M1 = RFXX_STATE_TX_SYNC1 := base_of_state M1 4 _ (by decide) hst1
  have hf1 : M1.rfm12_state &&& 128 = m.rfm12_state &&& 128 := by
    rw [hst1]; exact commit_flag 4 _ (by decide)
  -- TxSync1 to Tx
  have h2 := body_tx_sync1 w (RFXX_GET_NIRQ w M1).2 hb1 (hrgit _)
  generalize hM2 : ({ issue w [0xB800 ||| 0xd4] (handle_interrupt_status w (RFXX_GET_NIRQ w M1).2).2
    with rfm12_state := RFXX_STATE_TX |||
      ((RFXX_GET_NIRQ w M1).2.rfm12_state &&& RFXX_STATEFLAGS) } : Machine) = M2 at h2
  have hst2 : M2.rfm12_state = 5 ||| (M1.rfm12_state &&& RFXX_STATEFLAGS) := by
    rw [← hM2]; simp
  have hc2 : M2.cmds = M1.cmds ++ [0, 0xB8D4] := by rw [← hM2]; simp
  have hw2 : M2.writes = M1.writes := by rw [← hM2]; simp
  have hp2 : M2.polls = M1.polls + 1 := by rw [← hM2]; simp
  have hm2 : M2.msgs = M1.msgs := by rw [← hM2]; simp
  have hb2 : base M2 = RFXX_STATE_TX := base_of_state M2 5 _ (by decide) hst2
  have hf2 : M2.rfm12_state &&& 128 = m.rfm12_state &&& 128 := by
    rw [hst2, ← hf1]; exact commit_flag 5 _ (by decide)
  -- the data bytes
  obtain ⟨tr, M3, hrun3, htr3, hst3, hc3, hw3, hp3, _, hm3⟩ := tx_bytes_run w hrgit bs M2 hb2 hb
    (fun i hi => by
      have := hirq (i + 2) (by omega)
      rw [hp2, hp1, ← this]; congr 1; omega)
    (fun i hi => by rw [hw2, hw1]; exact hwr i hi)
  have hb3 : base M3 = RFXX_STATE_TX := by simp only [base, hst3]; exact hb2
  -- Tx to TxEnd
  have hdata : tx_data w (RFXX_GET_NIRQ w M3).2 = RFXX_EV_TX_END := by
    simp only [tx_data, get_nirq_writes, hw3, hw2, hw1, heot]; decide
  have h4 := body_tx_end_of_transfer w (RFXX_GET_NIRQ w M3).2 hb3 (hrgit _) hdata
  generalize hM4 : ({ issue w [0xB800 ||| 0xaa]
      (rfm12_write_handler w (handle_interrupt_status w (RFXX_GET_NIRQ w M3).2).2).2
    with rfm12_state := RFXX_STATE_TX_END |||
      ((RFXX_GET_NIRQ w M3).2.rfm12_state &&& RFXX_STATEFLAGS) } : Machine) = M4 at h4
  have hst4 : M4.rfm12_state = 6 ||| (M3.rfm12_state &&& RFXX_STATEFLAGS) := by
    rw [← hM4]; simp
  have hc4 : M4.cmds = M3.cmds ++ [0, 0xB8AA] := by
    rw [← hM4]; simp [rfm12_write_handler]
  have hp4 : M4.polls = M3.polls + 1 := by rw [← hM4]; simp [rfm12_write_handler]
  have hm4 : M4.msgs = M3.msgs := by rw [← hM4]; simp [rfm12_write_handler]
  have hb4 : base M4 = RFXX_STATE_TX_END := base_of_state M4 6 _ (by decide) hst4
  have hf4 : M4.rfm12_state &&& 128 = m.rfm12_state &&& 128 := by
    rw [hst4, hst3, ← hf2]; exact commit_flag 6 _ (by decide)
  have hred4 : redirect RFXX_STATE_IDLE M4.rfm12_state
      = redirect RFXX_STATE_IDLE m.rfm12_state := by
    simp only [redirect, RFXX_STATEFLAG_LISTEN, hf4]
  -- TxEnd to Idle or Listen
  have h5 := body_tx_end w (RFXX_GET_NIRQ w M4).2 hb4 (hrgit _)
  rw [get_nirq_state, hred4] at h5
  generalize hM5 : ({ issue w
      (entry_cmds RFXX_STATE_TX_END (redirect RFXX_STATE_IDLE m.rfm12_state))
      (handle_interrupt_status w (RFXX_GET_NIRQ w M4).2).2
    with rfm12_state := redirect RFXX_STATE_IDLE m.rfm12_state |||
      (M4.rfm12_state &&& RFXX_STATEFLAGS) } : Machine) = M5 at h5
  have hst5 : M5.rfm12_state
      = redirect RFXX_STATE_IDLE m.rfm12_state ||| (m.rfm12_state &&& 128) := by
    rw [← hM5, ← hf4]; rfl
  have hc5 : M5.cmds = M4.cmds ++ [0] ++
      entry_cmds RFXX_STATE_TX_END (redirect RFXX_STATE_IDLE m.rfm12_state) := by
    rw [← hM5]; simp
  have hp5 : M5.polls = M4.polls + 1 := by rw [← hM5]; simp
  have hm5 : M5.msgs = M4.msgs := by rw [← hM5]; simp
  have hb5 : base M5 = redirect RFXX_STATE_IDLE m.rfm12_state :=
    base_of_state M5 _ m.rfm12_state (redirect_lt 0 _ (by decide)) hst5
  -- the run
  have hq0 : w.NIRQ m.polls = false := by simpa using hirq 0 (by omega)
  have hq1 : w.NIRQ M1.polls = false := by rw [hp1]; exact hirq 1 (by omega)
  have hq3 : w.NIRQ M3.polls = false := by
    have := hirq (bs.length + 2) (by omega)
    rw [hp3, hp2, hp1, ← this]; congr 1; omega
  have hq4 : w.NIRQ M4.polls = false := by
    have := hirq (bs.length + 3) (by omega)
    rw [hp4, hp3, hp2, hp1, ← this]; congr 1; omega
  have hrun : Runs w m ([M1, M2] ++ tr ++ [M4, M5]) M5 :=
    runs_append w
      (runs_append w (Runs.pass m M1 M2 [M2] hq0 h1 (runs_one w M1 M2 hq1 h2)) hrun3)
      (Runs.pass M3 M4 M5 [M5] hq3 h4 (runs_one w M4 M5 hq4 h5))
  refine ⟨[M1, M2] ++ tr ++ [M4, M5], M5, hrun, ?_, hst5, ?_, ?_, ?_⟩
  · simp [htr3, hb1, hb2, hb4, hb5]
  · rw [hc5, hc4, hc3, hc2, hc1]; simp
  · rw [hp5, hp4, hp3, hp2, hp1]; omega
  · rw [hm5, hm4, hm3, hm2, hm1]

/-- The loop in Idle: it stops at once, after at most one more status read. -/
theorem drain_in_idle (w : World) (f : Nat) (m : Machine) (hs : base m = RFXX_STATE_IDLE) :
    (∃ mf, rfm12_handle_interrupt w (f + 1) m = some mf ∧ base mf = RFXX_STATE_IDLE ∧
      mf.rfm12_state = m.rfm12_state) ∧
    (handle_interrupt_trace w (f + 1) m).map base =
      (if w.NIRQ m.polls then [] else [RFXX_STATE_IDLE]) := by
  cases hirq : w.NIRQ m.polls
  · have hbody := body_idle w (RFXX_GET_NIRQ w m).2 hs
    rw [drain_return w f m _ hirq hbody, trace_return w f m _ hirq hbody]
    refine ⟨⟨_, rfl, ?_, ?_⟩, ?_⟩
    · rw [status_snd_base]; exact hs
    · simp
    · simp only [List.map, status_snd_base, get_nirq_base, hs]; rfl
  · rw [drain_irq_high w f m hirq, trace_irq_high w f m hirq]
    exact ⟨⟨_, rfl, hs, rfl⟩, rfl⟩

set_option maxRecDepth 100000 in
theorem tx_write_prefix : ∀ b, b < 256 → (0xB800 ||| b) / 256 = 0xB8 := by
  decide

theorem tx_writes_append (xs ys : List Nat) :
    tx_writes (xs ++ ys) = tx_writes xs ++ tx_writes ys := by
  simp [tx_writes]

theorem tx_writes_data_cmds (bs : List Nat) (hb : ∀ b ∈ bs, b < 256) :
    tx_writes (data_cmds bs) = bs.map (fun b => 0xB800 ||| b) := by
  induction bs with
  | nil => rfl
  | cons b bs ih =>
    have h1 := tx_write_prefix b (hb b (by simp))
    have h2 := ih (fun x hx => hb x (by simp [hx]))
    simp only [tx_writes] at h2
    simp [data_cmds, tx_writes, h1, h2]

theorem tx_writes_entry_idle_listen (s r : Nat) (hr : r = 0 ∨ r = 1) :
    tx_writes (entry_cmds s r) = [] := by
  rcases hr with rfl | rfl
  · simp [entry_cmds, tx_writes]
  · by_cases hs : s = 2
    · subst hs; decide
    · simp [entry_cmds, hs, tx_writes]

theorem redirect_idle_cases (raw : Nat) :
    redirect RFXX_STATE_IDLE raw = 0 ∨ redirect RFXX_STATE_IDLE raw = 1 := by
  unfold redirect; split_ifs <;> simp

theorem redirect_idle_le (raw : Nat) : redirect RFXX_STATE_IDLE raw ≤ 2 := by
  rcases redirect_idle_cases raw with h | h <;> rw [h] <;> decide

/-- Once the machine is in Idle, Listen or Rx, the rest of a drain issues no
transmit-register write. -/
theorem receive_side_no_tx_writes (w : World)
    (hrgit : ∀ k, response w k 0 &&& RFXX_FLAG_RGIT ≠ 0) :
    ∀ (f : Nat) (m mf : Machine), base m ≤ 2 → rfm12_handle_interrupt w f m = some mf →
      tx_writes mf.cmds = tx_writes m.cmds := by
  intro f
  induction f with
  | zero => intro m mf _ h; cases h
  | succ f ih =>
    intro m mf hs h
    cases hirq : w.NIRQ m.polls
    · have hcases : base m = 0 ∨ base m = 1 ∨ base m = 2 := by omega
      rcases hcases with h0 | h1 | h2
      · have hbody := body_idle w (RFXX_GET_NIRQ w m).2 h0
        rw [drain_return w f m _ hirq hbody] at h
        cases h
        rw [status_snd_cmds, get_nirq_cmds, tx_writes_append]
        simp [tx_writes]
      · have hbody := body_listen w (RFXX_GET_NIRQ w m).2 h1 (hrgit _)
        rw [drain_continue w f m _ hirq hbody] at h
        rw [ih _ mf (by rw [base_of_state _ 2 m.rfm12_state (by decide) rfl]) h]
        simp [rfm12_read_handler, tx_writes]
      · by_cases hend : response w (RFXX_GET_NIRQ w m).2.cmds.length 0 &&& RFXX_FLAG_DQD = 0 ∨
            (rx_read w (RFXX_GET_NIRQ w m).2).1 = false
        · have hbody := body_rx_end w (RFXX_GET_NIRQ w m).2 h2 (hrgit _) hend
          rw [drain_continue w f m _ hirq hbody] at h
          have hr := redirect_idle_cases (RFXX_GET_NIRQ w m).2.rfm12_state
          rw [ih _ mf (by
            rw [base_of_state _ _ m.rfm12_state (redirect_lt 0 _ (by decide)) rfl]
            exact redirect_idle_le _) h]
          rw [issue_cmds, tx_writes_append, tx_writes_entry_idle_listen _ _ hr]
          simp [rx_read, rfm12_read_handler, tx_writes]
        · have hdqd : response w (RFXX_GET_NIRQ w m).2.cmds.length 0 &&& RFXX_FLAG_DQD ≠ 0 :=
            fun hq => hend (Or.inl hq)
          have hcont : (rx_read w (RFXX_GET_NIRQ w m).2).1 = true := by
            cases hc : (rx_read w (RFXX_GET_NIRQ w m).2).1
            · exact absurd (Or.inr hc) hend
            · rfl
          have hbody := body_rx_continue w (RFXX_GET_NIRQ w m).2 h2 (hrgit _) hdqd hcont
          rw [drain_continue w f m _ hirq hbody] at h
          rw [ih _ mf (by
            have : (rx_read w (RFXX_GET_NIRQ w m).2).2.rfm12_state = m.rfm12_state := by
              simp [rx_read, rfm12_read_handler]
            simp only [base, this]
            exact le_of_eq h2) h]
          simp [rx_read, rfm12_read_handler, tx_writes]
    · rw [drain_irq_high w f m hirq] at h
      cases h
      rfl

/-! ## Requests, status accumulation and the bit link -/

/-- The guard accepts only the eight known states as targets. -/
theorem guard_lt (s t : Nat) (h : guard s t = true) : t < 8 := by
  unfold guard at h
  simp only [RFXX_STATE_IDLE, RFXX_STATE_LISTEN, RFXX_STATE_RX, RFXX_STATE_TX_SYNC0,
    RFXX_STATE_TX_SYNC1, RFXX_STATE_TX, RFXX_STATE_TX_END, RFXX_STATE_TX_RESYNC,
    Bool.or_eq_true, Bool.and_eq_true, beq_iff_eq] at h
  omega

/-- `rfm12_set_state` never changes the flag bit of the state byte. -/
theorem set_state_flag (w : World) (t : Nat) (m : Machine) :
    (rfm12_set_state w t m).2.rfm12_state &&& 128 = m.rfm12_state &&& 128 := by
  rw [rfm12_set_state_eq]
  by_cases h1 : base m = t
  · rw [if_pos h1]
  · rw [if_neg h1]
    by_cases h2 : guard (base m) t = true
    · rw [if_pos h2]
      exact commit_flag t _ (by have := guard_lt _ _ h2; omega)
    · rw [if_neg h2]

/-- A successful `rfm12_set_state(t)` leaves the base state `t`. -/
theorem set_state_base (w : World) (t : Nat) (m : Machine)
    (h : (rfm12_set_state w t m).1 = true) : base (rfm12_set_state w t m).2 = t := by
  rw [rfm12_set_state_eq] at h ⊢
  by_cases h1 : base m = t
  · rw [if_pos h1]; exact h1
  · rw [if_neg h1] at h ⊢
    by_cases h2 : guard (base m) t = true
    · rw [if_pos h2]
      exact base_of_state _ t m.rfm12_state (by have := guard_lt _ _ h2; omega) rfl
    · rw [if_neg h2] at h; cases h

theorem auto_relisten_congr (m m' : Machine)
    (h : m'.rfm12_state &&& 128 = m.rfm12_state &&& 128) :
    auto_relisten m' = auto_relisten m := by
  unfold auto_relisten
  simp only [RFXX_STATEFLAG_LISTEN, h]

/-- The tail of the body never changes the flag bit. -/
theorem commit_flag_bit (w : World) (s ns : Nat) (m : Machine) :
    (handle_interrupt_commit w s ns m).rfm12_state &&& 128 = m.rfm12_state &&& 128 := by
  unfold handle_interrupt_commit
  simp only []
  split_ifs <;> simp [usart_msg, set_state_flag]

/-- The tail of the body never samples nIRQ. -/
theorem commit_polls (w : World) (s ns : Nat) (m : Machine) :
    (handle_interrupt_commit w s ns m).polls = m.polls := by
  unfold handle_interrupt_commit
  simp only []
  split_ifs <;> simp [usart_msg, set_state_snd_polls]

/-- The loop body never changes the flag bit. -/
theorem body_flag (w : World) (m : Machine) :
    (handle_interrupt_body w m).2.rfm12_state &&& 128 = m.rfm12_state &&& 128 := by
  unfold handle_interrupt_body
  simp only []
  generalize hsw : handle_interrupt_switch w (handle_interrupt_status w m).1
    ((handle_interrupt_status w m).2.rfm12_state &&& (0xFF ^^^ RFXX_STATEFLAGS))
    (handle_interrupt_status w m).2 = r
  have hr : r.2.rfm12_state = m.rfm12_state := by
    rw [← hsw, switch_snd_state, status_snd_state]
  rcases r with ⟨_ | ns, M⟩
  · show M.rfm12_state &&& 128 = _
    rw [show M.rfm12_state = m.rfm12_state from hr]
  · show (handle_interrupt_commit w _ ns M).rfm12_state &&& 128 = _
    rw [commit_flag_bit, show M.rfm12_state = m.rfm12_state from hr]

/-- The loop body never samples nIRQ. -/
theorem body_polls (w : World) (m : Machine) :
    (handle_interrupt_body w m).2.polls = m.polls := by
  unfold handle_interrupt_body
  simp only []
  generalize hsw : handle_interrupt_switch w (handle_interrupt_status w m).1
    ((handle_interrupt_status w m).2.rfm12_state &&& (0xFF ^^^ RFXX_STATEFLAGS))
    (handle_interrupt_status w m).2 = r
  have hr : r.2.polls = m.polls := by
    rw [← hsw, switch_snd_polls, status_snd_polls]
  rcases r with ⟨_ | ns, M⟩
  · exact hr
  · show (handle_interrupt_commit w _ ns M).polls = _
    rw [commit_polls]; exact hr

/-- One test of the loop condition takes one sample of nIRQ and keeps the flag bit. -/
theorem pass_facts (w : World) (m : Machine) :
    (handle_interrupt_pass w m).2.rfm12_state &&& 128 = m.rfm12_state &&& 128 ∧
    (handle_interrupt_pass w m).2.polls = m.polls + 1 ∧
    (w.NIRQ m.polls = true → (handle_interrupt_pass w m).1 = false) := by
  unfold handle_interrupt_pass
  simp only []
  cases hirq : (RFXX_GET_NIRQ w m).1
  · have hq : w.NIRQ m.polls = false := hirq
    simp only [Bool.false_eq_true, if_false]
    refine ⟨?_, ?_, ?_⟩
    · rw [body_flag]; rfl
    · rw [body_polls]; rfl
    · intro h; rw [hq] at h; cases h
  · simp only [if_true]
    exact ⟨rfl, rfl, fun _ => trivial⟩

/-- The drain never changes the flag bit. -/
theorem drain_flag (w : World) :
    ∀ (fuel : Nat) (m mf : Machine), rfm12_handle_interrupt w fuel m = some mf →
      mf.rfm12_state &&& 128 = m.rfm12_state &&& 128 := by
  intro fuel
  induction fuel with
  | zero => intro m mf h; cases h
  | succ f ih =>
    intro m mf h
    simp only [rfm12_handle_interrupt] at h
    have hp := (pass_facts w m).1
    split_ifs at h with hc
    · rw [ih _ _ h, hp]
    · cases h; exact hp

/-- The drain returns as soon as a sample of nIRQ is high: with nIRQ high at the sample
number `m.polls + j`, every fuel above `j` is enough. -/
theorem drain_terminates (w : World) :
    ∀ (j : Nat) (m : Machine), w.NIRQ (m.polls + j) = true →
      ∀ fuel, j < fuel → ∃ mf, rfm12_handle_interrupt w fuel m = some mf := by
  intro j
  induction j with
  | zero =>
    intro m h fuel hf
    obtain ⟨f, rfl⟩ : ∃ f, fuel = f + 1 := ⟨fuel - 1, by omega⟩
    simp only [rfm12_handle_interrupt]
    rw [(pass_facts w m).2.2 (by simpa using h)]
    exact ⟨_, rfl⟩
  | succ j ih =>
    intro m h fuel hf
    obtain ⟨f, rfl⟩ : ∃ f, fuel = f + 1 := ⟨fuel - 1, by omega⟩
    simp only [rfm12_handle_interrupt]
    split_ifs with hc
    · exact ih _ (by rw [(pass_facts w m).2.1, ← h]; congr 1; omega) f (by omega)
    · exact ⟨_, rfl⟩

/-- Requests for Idle and for Listen pass the guard from every state. -/
theorem guard_idle_listen (s t : Nat) (ht : t = RFXX_STATE_IDLE ∨ t = RFXX_STATE_LISTEN) :
    guard s t = true := by
  rcases ht with rfl | rfl <;> simp [guard]

/-- `rfm12_set_state` accepts Idle and Listen from every state. -/
theorem set_state_idle_listen (w : World) (t : Nat) (m : Machine)
    (ht : t = RFXX_STATE_IDLE ∨ t = RFXX_STATE_LISTEN) :
    (rfm12_set_state w t m).1 = true := by
  rw [rfm12_set_state_eq]
  by_cases h1 : base m = t
  · rw [if_pos h1]
  · rw [if_neg h1, if_pos (guard_idle_listen _ _ ht)]

/-- The state `rfm12_stop_sending` and `rfm12_stop_receiving` ask for. -/
theorem relisten_target (m : Machine) :
    (if m.rfm12_state &&& RFXX_STATEFLAG_LISTEN ≠ 0 then RFXX_STATE_LISTEN
      else RFXX_STATE_IDLE) =
      (if auto_relisten m then RFXX_STATE_LISTEN else RFXX_STATE_IDLE) := by
  unfold auto_relisten
  by_cases hf : m.rfm12_state &&& RFXX_STATEFLAG_LISTEN ≠ 0 <;> simp [hf]

theorem relisten_target_cases (m : Machine) :
    (if m.rfm12_state &&& RFXX_STATEFLAG_LISTEN ≠ 0 then RFXX_STATE_LISTEN
      else RFXX_STATE_IDLE) = RFXX_STATE_IDLE ∨
    (if m.rfm12_state &&& RFXX_STATEFLAG_LISTEN ≠ 0 then RFXX_STATE_LISTEN
      else RFXX_STATE_IDLE) = RFXX_STATE_LISTEN := by
  split_ifs
  · exact Or.inr rfl
  · exact Or.inl rfl

theorem xor_255_128 : (255 ^^^ 128 : Nat) = 127 := by decide

theorem or_128_and_127 (x : Nat) : (x ||| 128) &&& 127 = x &&& 127 := by
  have h0 : (128 &&& 127 : Nat) = 0 := by decide
  rw [Nat.and_distrib_right, h0]; simp

theorem or_128_and_128 (x : Nat) : (x ||| 128) &&& 128 = 128 := by
  have h0 : (128 &&& 128 : Nat) = 128 := by decide
  rw [Nat.and_distrib_right, h0]
  rcases and_128_cases x with h | h <;> rw [h] <;> decide

theorem and_127_and_127 (x : Nat) : (x &&& 127) &&& 127 = x &&& 127 := by
  rw [Nat.and_assoc]; simp

theorem and_127_and_128 (x : Nat) : (x &&& 127) &&& 128 = 0 := by
  have h0 : (127 &&& 128 : Nat) = 0 := by decide
  rw [Nat.and_assoc, h0]; simp

/-- `rfm12_listen(true)`, unfolded. -/
theorem listen_enable_eq (w : World) (m : Machine) :
    rfm12_listen w true m =
      if base m = RFXX_STATE_IDLE then
        rfm12_set_state w RFXX_STATE_LISTEN
          { m with rfm12_state := m.rfm12_state ||| RFXX_STATEFLAG_LISTEN }
      else (true, { m with rfm12_state := m.rfm12_state ||| RFXX_STATEFLAG_LISTEN }) := by
  unfold rfm12_listen
  simp only [if_true, base_eq, xor_ff_80, RFXX_STATEFLAG_LISTEN, or_128_and_127]

/-- `rfm12_listen(false)`, unfolded. -/
theorem listen_disable_eq (w : World) (m : Machine) :
    rfm12_listen w false m =
      if base m = RFXX_STATE_LISTEN then
        rfm12_set_state w RFXX_STATE_IDLE
          { m with rfm12_state := m.rfm12_state &&& (0xFF ^^^ RFXX_STATEFLAG_LISTEN) }
      else (true, { m with rfm12_state := m.rfm12_state &&& (0xFF ^^^ RFXX_STATEFLAG_LISTEN) }) := by
  unfold rfm12_listen
  simp only [Bool.false_eq_true, if_false, base_eq, xor_ff_80, RFXX_STATEFLAG_LISTEN,
    xor_255_128, and_127_and_127]

/-- `rfm12_stop_sending` keeps auto-relisten. -/
theorem stop_sending_flag (w : World) (m : Machine) :
    auto_relisten (rfm12_stop_sending w m).2 = auto_relisten m :=
  auto_relisten_congr _ _ (set_state_flag w _ m)

/-- `rfm12_listen(enable)` leaves auto-relisten equal to `enable`. -/
theorem listen_flag (w : World) (m : Machine) :
    auto_relisten (rfm12_listen w true m).2 = true ∧
    auto_relisten (rfm12_listen w false m).2 = false := by
  have hon : auto_relisten { m with rfm12_state := m.rfm12_state ||| RFXX_STATEFLAG_LISTEN }
      = true := by
    simp only [auto_relisten, RFXX_STATEFLAG_LISTEN, or_128_and_128]; decide
  have hoff : auto_relisten
      { m with rfm12_state := m.rfm12_state &&& (0xFF ^^^ RFXX_STATEFLAG_LISTEN) } = false := by
    simp only [auto_relisten, RFXX_STATEFLAG_LISTEN, xor_255_128, and_127_and_128]; decide
  constructor
  · rw [listen_enable_eq]
    split_ifs
    · rw [auto_relisten_congr _ _ (set_state_flag w _ _), hon]
    · exact hon
  · rw [listen_disable_eq]
    split_ifs
    · rw [auto_relisten_congr _ _ (set_state_flag w _ _), hoff]
    · exact hoff

/-- `rfm12_send_packet` is the transition to TxSync0 followed by one drain of the machine the
transition leaves. -/
theorem send_packet_eq (w : World) (fuel : Nat) (m : Machine) :
    rfm12_send_packet w fuel m =
      (rfm12_handle_interrupt w fuel (rfm12_set_state w RFXX_STATE_TX_SYNC0 m).2).map
        (fun mf => ((rfm12_set_state w RFXX_STATE_TX_SYNC0 m).1, mf)) := by
  unfold rfm12_send_packet
  simp only []
  cases rfm12_handle_interrupt w fuel (rfm12_set_state w RFXX_STATE_TX_SYNC0 m).2 <;> rfl

/-- `rfm12_init`, with its loop written as `issue`. -/
theorem rfm12_init_eq (w : World) (m : Machine) :
    rfm12_init w m =
      { issue w rfm12_init_seq (rfm12_init_pins m) with
          rfm12_status := 0, rfm12_state := RFXX_STATE_IDLE } := by
  simp only [rfm12_init, issue]

/-- The stored status after one run of the loop body. -/
theorem body_status (w : World) (m : Machine) :
    (handle_interrupt_body w m).2.rfm12_status =
      (m.rfm12_status &&& RFXX_TRANSIENT_FLAGS) ||| response w m.cmds.length 0 := by
  unfold handle_interrupt_body
  simp only []
  generalize hsw : handle_interrupt_switch w (handle_interrupt_status w m).1
    ((handle_interrupt_status w m).2.rfm12_state &&& (0xFF ^^^ RFXX_STATEFLAGS))
    (handle_interrupt_status w m).2 = r
  have hr : r.2.rfm12_status = (handle_interrupt_status w m).2.rfm12_status := by
    rw [← hsw]; exact switch_snd_status _ _ _ _
  rw [status_snd_status, rfm12_cmd_fst] at hr
  rcases r with ⟨_ | ns, M⟩
  · exact hr
  · show (handle_interrupt_commit w _ ns M).rfm12_status = _
    rw [commit_status]; exact hr

/-- One bit of the merged status word. -/
theorem body_status_testBit (w : World) (m : Machine) (i : Nat) :
    (handle_interrupt_body w m).2.rfm12_status.testBit i =
      ((m.rfm12_status.testBit i && RFXX_TRANSIENT_FLAGS.testBit i) ||
        (response w m.cmds.length 0).testBit i) := by
  rw [body_status, Nat.testBit_or, Nat.testBit_and]

/-- The transient mask has exactly the bits 11, 12, 13 and 14. -/
theorem transient_bits (i : Nat) :
    RFXX_TRANSIENT_FLAGS.testBit i = true ↔ i = 11 ∨ i = 12 ∨ i = 13 ∨ i = 14 := by
  have h : RFXX_TRANSIENT_FLAGS = 2 ^ 11 ||| 2 ^ 12 ||| 2 ^ 13 ||| 2 ^ 14 := by decide
  rw [h]
  simp only [Nat.testBit_or, Nat.testBit_two_pow, Bool.or_eq_true, decide_eq_true_eq]
  omega

theorem or_ne_zero_left {a b : Nat} (h : a ≠ 0) : a ||| b ≠ 0 := by
  intro h0
  apply h
  apply Nat.eq_of_testBit_eq
  intro i
  have hi := congrArg (fun x => x.testBit i) h0
  simp only [Nat.testBit_or, Nat.zero_testBit, Bool.or_eq_false_iff] at hi
  simp [hi.1]

/-- The overflow bit of the merged status word. -/
theorem merged_ffov (p r : Nat) :
    ((p &&& 30720) ||| r) &&& 8192 = (p &&& 8192) ||| (r &&& 8192) := by
  have h0 : (30720 &&& 8192 : Nat) = 8192 := by decide
  rw [Nat.and_distrib_right, Nat.and_assoc, h0]

/-- The low-battery bit of the merged status word. -/
theorem merged_lbd (p r : Nat) : ((p &&& 30720) ||| r) &&& 1024 = r &&& 1024 := by
  have h0 : (30720 &&& 1024 : Nat) = 0 := by decide
  rw [Nat.and_distrib_right, Nat.and_assoc, h0]
  simp

theorem switch_tx_ignored (w : World) (val : Nat) (m : Machine) (h : val &&& 32768 ≠ 0)
    (hd : (rfm12_write_handler w m).1 &&& 256 ≠ 0)
    (h1 : (rfm12_write_handler w m).1 ≠ 256) (h2 : (rfm12_write_handler w m).1 ≠ 257) :
    handle_interrupt_switch w val 5 m = (some 5, (rfm12_write_handler w m).2) := by
  simp [handle_interrupt_switch, h, hd, h1, h2]

/-- The body in Tx with FIFO-space-available set, when the handler returns a word with bit 8
set that is neither sentinel: nothing is sent and the state stays Tx. -/
theorem body_tx_ignored (w : World) (m : Machine) (hs : base m = RFXX_STATE_TX)
    (hrgit : response w m.cmds.length 0 &&& RFXX_FLAG_RGIT ≠ 0)
    (hd : tx_data w m &&& 0x100 ≠ 0) (h1 : tx_data w m ≠ RFXX_EV_TX_END)
    (h2 : tx_data w m ≠ RFXX_EV_TX_RESYNC) :
    handle_interrupt_body w m =
      (false, (rfm12_write_handler w (handle_interrupt_status w m).2).2) := by
  have hsw := switch_tx_ignored w _ (handle_interrupt_status w m).2 (status_bit15 w m hrgit)
    (by rw [write_handler_fst]; exact hd) (by rw [write_handler_fst]; exact h1)
    (by rw [write_handler_fst]; exact h2)
  simp only [RFXX_STATE_TX] at hs
  rw [← hs] at hsw
  rw [body_of_switch w m _ _ hsw]
  rw [commit_same w _ _ _ (by simp [redirect, hs])]

/-- In Tx with FIFO-space-available set the write handler is called exactly once. -/
theorem body_tx_writes (w : World) (m : Machine) (hs : base m = RFXX_STATE_TX)
    (hrgit : response w m.cmds.length 0 &&& RFXX_FLAG_RGIT ≠ 0) :
    (handle_interrupt_body w m).1 = false ∧
    (handle_interrupt_body w m).2.writes = m.writes + 1 := by
  by_cases hd : tx_data w m &&& 0x100 = 0
  · rw [body_tx_byte w m hs hrgit hd]
    exact ⟨rfl, by simp [rfm12_write_handler]⟩
  · by_cases h1 : tx_data w m = RFXX_EV_TX_END
    · rw [body_tx_end_of_transfer w m hs hrgit h1]
      exact ⟨rfl, by simp [rfm12_write_handler]⟩
    · by_cases h2 : tx_data w m = RFXX_EV_TX_RESYNC
      · rw [body_tx_resync_request w m hs hrgit h2]
        exact ⟨rfl, by simp [rfm12_write_handler]⟩
      · rw [body_tx_ignored w m hs hrgit hd h1 h2]
        exact ⟨rfl, by simp [rfm12_write_handler]⟩

/-- The loop of `rfm12_cmd` in closed form. -/
theorem rfm12_cmd_loop_eq (sdo : List Bool → Bool) :
    ∀ (n cmd res : Nat) (sdi : List Bool) (g : List GpioOp),
      rfm12_cmd_loop sdo n cmd res sdi g =
        (shift_in res (samples sdo sdi (msb_bits n cmd)), g ++ pulse_ops (msb_bits n cmd)) := by
  intro n
  induction n with
  | zero => intro cmd res sdi g; simp [rfm12_cmd_loop, msb_bits, samples, shift_in, pulse_ops]
  | succ n ih =>
    intro cmd res sdi g
    simp only [rfm12_cmd_loop, ih, msb_bits, samples, shift_in, pulse_ops, List.foldl_cons,
      List.append_assoc, List.cons_append, List.nil_append]

theorem and_32768_ne_zero (x : Nat) : decide (x &&& 0x8000 ≠ 0) = x.testBit 15 := by
  have h : (0x8000 : Nat) = 2 ^ 15 := by norm_num
  rw [h]
  cases hb : x.testBit 15
  · have h0 : x &&& 2 ^ 15 = 0 := by
      apply Nat.eq_of_testBit_eq
      intro i
      simp only [Nat.testBit_and, Nat.testBit_two_pow, Nat.zero_testBit]
      by_cases hi : 15 = i
      · subst hi; simp [hb]
      · simp [hi]
    exact decide_eq_false (fun hne => hne h0)
  · have h1 : x &&& 2 ^ 15 ≠ 0 := by
      intro h0
      have hc := congrArg (fun y => y.testBit 15) h0
      simp only [Nat.testBit_and, Nat.testBit_two_pow, Nat.zero_testBit, hb, decide_True,
        Bool.and_self] at hc
      cases hc
    exact decide_eq_true h1

theorem shift_mod_succ (c k : Nat) :
    (((c <<< k) % 65536) <<< 1) % 65536 = (c <<< (k + 1)) % 65536 := by
  simp only [Nat.shiftLeft_eq, Nat.pow_succ]
  rw [Nat.mod_mul_mod, Nat.mul_assoc]

/-- The data-in levels are the bits of the command word, most significant first. -/
theorem msb_bits_eq (c : Nat) :
    ∀ (n k : Nat), k + n ≤ 16 →
      msb_bits n ((c <<< k) % 65536) = (List.range n).map (fun i => c.testBit (15 - (k + i))) := by
  intro n
  induction n with
  | zero => intro k _; rfl
  | succ n ih =>
    intro k hk
    have h16 : (65536 : Nat) = 2 ^ 16 := by norm_num
    have hhead : decide ((c <<< k) % 65536 &&& 0x8000 ≠ 0) = c.testBit (15 - k) := by
      rw [and_32768_ne_zero, h16, Nat.testBit_mod_two_pow, Nat.testBit_shiftLeft]
      have : k ≤ 15 := by omega
      simp [this]
    rw [msb_bits, hhead, shift_mod_succ, ih (k + 1) (by omega), List.range_succ_eq_map]
    simp only [List.map_cons, List.map_map, Nat.add_zero]
    congr 1
    apply List.map_congr_left
    intro i _
    simp only [Function.comp, Nat.succ_eq_add_one]
    congr 2
    omega

/-- The level sampled at pulse `i` is what the chip answers to the levels driven up to and
including pulse `i`. -/
theorem samples_getD (sdo : List Bool → Bool) :
    ∀ (bits sdi : List Bool) (i : Nat), i < bits.length →
      (samples sdo sdi bits).getD i false = sdo (sdi ++ bits.take (i + 1)) := by
  intro bits
  induction bits with
  | nil => intro sdi i hi; simp at hi
  | cons b bs ih =>
    intro sdi i hi
    cases i with
    | zero => simp [samples]
    | succ i =>
      have hi' : i < bs.length := by simpa using hi
      simp only [samples, List.getD_cons_succ, List.take_succ_cons]
      rw [ih (sdi ++ [b]) i hi']
      simp

theorem samples_length (sdo : List Bool → Bool) :
    ∀ (bits sdi : List Bool), (samples sdo sdi bits).length = bits.length := by
  intro bits
  induction bits with
  | nil => intro sdi; rfl
  | cons b bs ih => intro sdi; simp [samples, ih]

/-- One bit of `res` after one more sampled level has been shifted in. -/
theorem shift_step_testBit (r : Nat) (d : Bool) (j : Nat) :
    (if d then ((r <<< 1) % 65536) ||| 1 else (r <<< 1) % 65536).testBit j =
      if j = 0 then d else (decide (j < 16) && r.testBit (j - 1)) := by
  have h16 : (65536 : Nat) = 2 ^ 16 := by norm_num
  have hsh : ((r <<< 1) % 65536).testBit j =
      (decide (j < 16) && (decide (1 ≤ j) && r.testBit (j - 1))) := by
    rw [h16, Nat.testBit_mod_two_pow, Nat.testBit_shiftLeft]
  have hone : (1 : Nat).testBit j = decide (j = 0) := by
    cases j with
    | zero => rfl
    | succ j => simp [Nat.testBit_succ]
  by_cases hj : j = 0
  · subst hj
    cases d
    · simp [hsh]
    · rw [if_pos rfl, if_pos rfl, Nat.testBit_or, hsh]; simp
  · have hj1 : 1 ≤ j := by omega
    cases d <;> simp [hsh, hone, hj, hj1]

/-- The bits of `res` after the sampled levels `ds` have been shifted in: the last sampled
level is bit 0. -/
theorem shift_in_testBit :
    ∀ (ds : List Bool) (res j : Nat), j < 16 →
      (shift_in res ds).testBit j =
        if j < ds.length then ds.getD (ds.length - 1 - j) false
        else res.testBit (j - ds.length) := by
  intro ds
  induction ds with
  | nil => intro res j _; simp [shift_in]
  | cons d ds ih =>
    intro res j hj
    have hcons : shift_in res (d :: ds) =
        shift_in (if d then ((res <<< 1) % 65536) ||| 1 else (res <<< 1) % 65536) ds := by
      simp [shift_in]
    rw [hcons, ih _ j hj]
    by_cases h1 : j < ds.length
    · have h2 : j < (d :: ds).length := by simp; omega
      rw [if_pos h1, if_pos h2]
      have : (d :: ds).length - 1 - j = (ds.length - 1 - j) + 1 := by simp; omega
      rw [this, List.getD_cons_succ]
    · rw [if_neg h1, shift_step_testBit]
      by_cases h3 : j = ds.length
      · have h2 : j < (d :: ds).length := by simp; omega
        have h4 : (d :: ds).length - 1 - j = 0 := by simp; omega
        rw [if_pos (by omega), if_pos h2, h4]
        rfl
      · have h2 : ¬ j < (d :: ds).length := by simp; omega
        have h5 : j - ds.length < 16 := by omega
        have h6 : j - ds.length - 1 = j - (d :: ds).length := by simp; omega
        rw [if_neg (by omega), if_neg h2, h6]
        simp [h5]

theorem shift_in_lt : ∀ (ds : List Bool) (res : Nat), res < 65536 → shift_in res ds < 65536 := by
  intro ds
  induction ds with
  | nil => intro res h; simpa [shift_in] using h
  | cons d ds ih =>
    intro res _
    have hcons : shift_in res (d :: ds) =
        shift_in (if d then ((res <<< 1) % 65536) ||| 1 else (res <<< 1) % 65536) ds := by
      simp [shift_in]
    rw [hcons]
    apply ih
    have hm : (res <<< 1) % 65536 < 2 ^ 16 := Nat.mod_lt _ (by norm_num)
    split_ifs
    · exact Nat.or_lt_two_pow hm (by norm_num)
    · exact hm

/-- The pulses toggle the clock twice for each level sent. -/
theorem pulse_ops_count (bits : List Bool) :
    (pulse_ops bits).count (GpioOp.TOGGLE Pin.SCK) = 2 * bits.length := by
  induction bits with
  | nil => rfl
  | cons b bs ih =>
    cases b <;> simp [pulse_ops, ih, List.count_cons] <;> omega

/-- The pulses write only to SDI and, by toggling, to SCK. -/
theorem pulse_ops_mem (bits : List Bool) :
    ∀ op ∈ pulse_ops bits,
      op = GpioOp.TOGGLE Pin.SCK ∨ op = GpioOp.HI Pin.SDI ∨ op = GpioOp.LOW Pin.SDI := by
  induction bits with
  | nil => intro op h; simp [pulse_ops] at h
  | cons b bs ih =>
    intro op h
    simp only [pulse_ops, List.mem_cons] at h
    rcases h with h | h | h | h
    · cases b <;> simp_all
    · exact Or.inl h
    · exact Or.inl h
    · exact ih op h

/-- GPIO writes that do not name SEL leave SEL as it was. -/
theorem port_level_sel (ops : List GpioOp)
    (h : ∀ op ∈ ops,
      op = GpioOp.TOGGLE Pin.SCK ∨ op = GpioOp.HI Pin.SDI ∨ op = GpioOp.LOW Pin.SDI)
    (b : Bool) : port_level Pin.SEL b ops = b := by
  induction ops generalizing b with
  | nil => rfl
  | cons op ops ih =>
    have hop := h op (by simp)
    have hrest := ih (fun o ho => h o (by simp [ho]))
    simp only [port_level, List.foldl_cons] at hrest ⊢
    rcases hop with rfl | rfl | rfl <;> simp [apply_op, hrest]

/-- The pulses leave the clock as they found it. -/
theorem port_level_sck_pulses (bits : List Bool) (b : Bool) :
    port_level Pin.SCK b (pulse_ops bits) = b := by
  induction bits generalizing b with
  | nil => rfl
  | cons x xs ih =>
    have hrest := ih b
    simp only [port_level] at hrest ⊢
    cases x <;> simp [pulse_ops, apply_op, hrest]

theorem port_level_append (p : Pin) (b : Bool) (xs ys : List GpioOp) :
    port_level p b (xs ++ ys) = port_level p (port_level p b xs) ys := by
  simp [port_level, List.foldl_append]

theorem pulse_ops_append (xs ys : List Bool) :
    pulse_ops (xs ++ ys) = pulse_ops xs ++ pulse_ops ys := by
  induction xs with
  | nil => rfl
  | cons x xs ih => simp [pulse_ops, ih]

theorem pulse_ops_length (xs : List Bool) : (pulse_ops xs).length = 3 * xs.length := by
  induction xs with
  | nil => rfl
  | cons x xs ih => simp [pulse_ops, ih]; omega

/-- The GPIO writes up to and including write `k` (1 to 3) of pulse `i`. -/
theorem pulse_ops_take (bits : List Bool) (i k : Nat) (hi : i < bits.length) (hk : k ≤ 3) :
    (pulse_ops bits).take (3 * i + k) = pulse_ops (bits.take i) ++
      ([if bits.getD i false then GpioOp.HI Pin.SDI else GpioOp.LOW Pin.SDI,
        GpioOp.TOGGLE Pin.SCK, GpioOp.TOGGLE Pin.SCK] : List GpioOp).take k := by
  have hsplit : bits = bits.take i ++ bits.getD i false :: bits.drop (i + 1) := by
    have h1 : bits.drop i = bits.getD i false :: bits.drop (i + 1) := by
      rw [List.getD_eq_getElem _ _ hi]
      exact List.drop_eq_getElem_cons hi
    rw [← h1, List.take_append_drop]
  have hlen : (pulse_ops (bits.take i)).length = 3 * i := by
    rw [pulse_ops_length, List.length_take, Nat.min_eq_left (Nat.le_of_lt hi)]
  conv_lhs => rw [hsplit, pulse_ops_append]
  rw [List.take_append_eq_append_take, hlen]
  have h3 : 3 * i + k - 3 * i = k := by omega
  rw [List.take_of_length_le (by omega), h3]
  congr 1
  have : k = 0 ∨ k = 1 ∨ k = 2 ∨ k = 3 := by omega
  rcases this with rfl | rfl | rfl | rfl <;> simp [pulse_ops]

theorem msb_bits_16 (c : Nat) (hc : c < 65536) :
    msb_bits 16 c = (List.range 16).map (fun i => c.testBit (15 - i)) := by
  have h := msb_bits_eq c 16 0 (by omega)
  rw [Nat.shiftLeft_zero, Nat.mod_eq_of_lt hc] at h
  rw [h]
  apply List.map_congr_left
  intro i _
  simp

theorem range_map_take (f : Nat → Bool) (n i : Nat) (h : i ≤ n) :
    ((List.range n).map f).take i = (List.range i).map f := by
  rw [← List.map_take, List.take_range, Nat.min_eq_left h]

theorem range_map_getD (f : Nat → Bool) (n i : Nat) (h : i < n) :
    ((List.range n).map f).getD i false = f i := by
  rw [List.getD_eq_getElem _ _ (by simpa using h)]
  simp

/-- The word returned by an exchange, bit by bit. -/
theorem response_testBit (w : World) (k c : Nat) (hc : c < 65536) (i : Nat) (hi : i < 16) :
    (response w k c).testBit (15 - i) =
      w.SDO k ((List.range (i + 1)).map fun j => c.testBit (15 - j)) := by
  unfold response
  rw [rfm12_cmd_loop_eq]
  have hlen : (samples (w.SDO k) [] (msb_bits 16 c)).length = 16 := by
    rw [samples_length, msb_bits_16 c hc]; simp
  rw [shift_in_testBit _ _ _ (by omega), hlen, if_pos (by omega)]
  have h1 : 16 - 1 - (15 - i) = i := by omega
  rw [h1, samples_getD _ _ _ _ (by rw [msb_bits_16 c hc]; simpa using hi), msb_bits_16 c hc,
    range_map_take _ _ _ (by omega)]
  rfl

theorem response_lt (w : World) (k c : Nat) : response w k c < 65536 := by
  unfold response
  rw [rfm12_cmd_loop_eq]
  exact shift_in_lt _ _ (by norm_num)

theorem rfm12_cmd_gpio (w : World) (c : Nat) (m : Machine) (hc : c < 65536) :
    (rfm12_cmd w c m).2.gpio = m.gpio ++ ([GpioOp.LOW Pin.SCK, GpioOp.LOW Pin.SEL] ++
      pulse_ops ((List.range 16).map fun i => c.testBit (15 - i)) ++ [GpioOp.HI Pin.SEL]) := by
  simp only [rfm12_cmd]
  rw [rfm12_cmd_loop_eq, msb_bits_16 c hc]
  simp

/-- A prefix of the GPIO writes of one exchange that stops before select is raised. -/
theorem exchange_take (P : List GpioOp) (x : GpioOp) (n : Nat) (h2 : 2 ≤ n)
    (hn : n ≤ 2 + P.length) :
    ([GpioOp.LOW Pin.SCK, GpioOp.LOW Pin.SEL] ++ P ++ [x]).take n =
      [GpioOp.LOW Pin.SCK, GpioOp.LOW Pin.SEL] ++ P.take (n - 2) := by
  obtain ⟨j, rfl⟩ : ∃ j, n = j + 2 := ⟨n - 2, by omega⟩
  have hj : j ≤ P.length := by omega
  simp only [List.cons_append, List.nil_append, List.take_succ_cons, Nat.add_sub_cancel]
  rw [List.take_append_of_le_length hj]

theorem port_level_pulse_sdi (bits : List Bool) (i k : Nat) (hi : i < bits.length)
    (h1 : 1 ≤ k) (hk : k ≤ 3) (b : Bool) :
    port_level Pin.SDI b ((pulse_ops bits).take (3 * i + k)) = bits.getD i false := by
  rw [pulse_ops_take bits i k hi hk, port_level_append]
  have : k = 1 ∨ k = 2 ∨ k = 3 := by omega
  rcases this with rfl | rfl | rfl <;>
    cases bits.getD i false <;> simp [port_level, apply_op]

theorem port_level_pulse_sck (bits : List Bool) (i k : Nat) (hi : i < bits.length)
    (hk : k ≤ 3) (b : Bool) :
    port_level Pin.SCK b ((pulse_ops bits).take (3 * i + k)) =
      port_level Pin.SCK b (([GpioOp.LOW Pin.SDI, GpioOp.TOGGLE Pin.SCK,
        GpioOp.TOGGLE Pin.SCK] : List GpioOp).take k) := by
  rw [pulse_ops_take bits i k hi hk, port_level_append, port_level_sck_pulses]
  have : k = 0 ∨ k = 1 ∨ k = 2 ∨ k = 3 := by omega
  rcases this with rfl | rfl | rfl | rfl <;>
    cases bits.getD i false <;> simp [port_level, apply_op]

theorem port_level_head (p : Pin) (b : Bool) :
    port_level p b [GpioOp.LOW Pin.SCK, GpioOp.LOW Pin.SEL] =
      if p = Pin.SCK ∨ p = Pin.SEL then false else b := by
  cases p <;> simp [port_level, apply_op]

/-! ## Dispatcher targets, status frames and reachability -/

/-- The state byte after `rfm12_set_state`: unchanged, or the accepted target with the old
flag bit. -/
theorem set_state_state_cases (w : World) (t : Nat) (m : Machine) :
    (rfm12_set_state w t m).2.rfm12_state = m.rfm12_state ∨
    ((rfm12_set_state w t m).2.rfm12_state = t ||| (m.rfm12_state &&& 128) ∧
      guard (base m) t = true) := by
  rw [rfm12_set_state_eq]
  by_cases h : base m = t
  · rw [if_pos h]; exact Or.inl rfl
  · rw [if_neg h]
    cases hg : guard (base m) t
    · simp only [Bool.false_eq_true, if_false, true_or]
    · simp only [if_true, RFXX_STATEFLAGS, and_self, or_true]

/-- The result of `rfm12_set_state` is success exactly when the request is for the current
base state or passes the guard. -/
theorem set_state_fst (w : World) (t : Nat) (m : Machine) :
    (rfm12_set_state w t m).1 = (decide (base m = t) || guard (base m) t) := by
  rw [rfm12_set_state_eq]
  by_cases h : base m = t
  · simp [h]
  · rw [if_neg h]
    cases hg : guard (base m) t <;> simp [h]

theorem base_lt (m : Machine) : base m < 128 := by
  rw [base_eq]
  exact lt_of_le_of_lt Nat.and_le_right (by norm_num)

/-- The state byte after the guarded transition at the end of the loop body. -/
theorem commit_state_cases (w : World) (s ns : Nat) (m : Machine) (hb : base m = s) :
    ((handle_interrupt_commit w s ns m).rfm12_state = m.rfm12_state ∧
      (handle_interrupt_commit w s ns m).msgs = m.msgs ∧ s = redirect ns m.rfm12_state) ∨
    ((handle_interrupt_commit w s ns m).rfm12_state
        = redirect ns m.rfm12_state ||| (m.rfm12_state &&& 128) ∧
      (handle_interrupt_commit w s ns m).msgs = m.msgs ∧
      guard s (redirect ns m.rfm12_state) = true) ∨
    ((handle_interrupt_commit w s ns m).rfm12_state = m.rfm12_state ∧
      (handle_interrupt_commit w s ns m).msgs = m.msgs ++ ["FAIL\n"] ∧
      s ≠ redirect ns m.rfm12_state ∧ guard s (redirect ns m.rfm12_state) = false) := by
  by_cases h : s = redirect ns m.rfm12_state
  · rw [commit_same w s ns m h]
    exact Or.inl ⟨rfl, rfl, h⟩
  · cases hg : guard s (redirect ns m.rfm12_state)
    · rw [commit_refuse w s ns m hb h hg]
      refine Or.inr (Or.inr ⟨?_, ?_, h, rfl⟩)
      · simp only [usart_msg]
      · simp only [usart_msg]
    · rw [commit_accept w s ns m hb h hg]
      refine Or.inr (Or.inl ⟨?_, ?_, rfl⟩)
      · simp only [RFXX_STATEFLAGS]
      · simp only [issue_msgs]

/-- With bit 15 of the status clear the switch does nothing in the eight known states
other than Idle. -/
theorem switch_quiet (w : World) (val s : Nat) (m : Machine) (h : val &&& 32768 = 0)
    (h1 : 1 ≤ s) (h7 : s ≤ 7) : handle_interrupt_switch w val s m = (some s, m) := by
  interval_cases s <;> simp [handle_interrupt_switch, h]

/-- The `default` branch of the switch. -/
theorem switch_invalid (w : World) (val s : Nat) (m : Machine) (h8 : 8 ≤ s) :
    handle_interrupt_switch w val s m = (some 0, usart_msg "INVALID STATE\n" m) := by
  have h0 : s ≠ 0 := by omega
  have h1 : s ≠ 1 := by omega
  have h2 : s ≠ 2 := by omega
  have h3 : s ≠ 3 := by omega
  have h4 : s ≠ 4 := by omega
  have h5 : s ≠ 5 := by omega
  have h6 : s ≠ 6 := by omega
  have h7 : s ≠ 7 := by omega
  simp [handle_interrupt_switch, h0, h1, h2, h3, h4, h5, h6, h7]

/-- The first component of the switch, for each base state: `return` in Idle, otherwise the
value of `newstate`. -/
theorem switch_fst (w : World) (val s : Nat) (m : Machine) :
    (s = 0 ∧ (handle_interrupt_switch w val s m).1 = none) ∨
    ∃ ns, (handle_interrupt_switch w val s m).1 = some ns ∧
      ((ns = s ∧ 1 ≤ s ∧ s ≤ 7) ∨ (s = 1 ∧ ns = 2) ∨ (s = 2 ∧ ns = 0) ∨ (s = 3 ∧ ns = 4) ∨
       (s = 4 ∧ ns = 5) ∨ (s = 5 ∧ (ns = 6 ∨ ns = 7)) ∨ (s = 6 ∧ ns = 0) ∨ (s = 7 ∧ ns = 3) ∨
       (8 ≤ s ∧ ns = 0)) := by
  by_cases h8 : 8 ≤ s
  · rw [switch_invalid w val s m h8]
    exact Or.inr ⟨0, rfl, by omega⟩
  · have hs : s = 0 ∨ s = 1 ∨ s = 2 ∨ s = 3 ∨ s = 4 ∨ s = 5 ∨ s = 6 ∨ s = 7 := by omega
    by_cases hb : val &&& 32768 = 0
    · by_cases h0 : s = 0
      · subst h0
        rw [switch_idle]
        exact Or.inl ⟨rfl, rfl⟩
      · have h1 : 1 ≤ s := by omega
        have h7 : s ≤ 7 := by omega
        rw [switch_quiet w val s m hb h1 h7]
        exact Or.inr ⟨s, rfl, Or.inl ⟨rfl, h1, h7⟩⟩
    · rcases hs with rfl | rfl | rfl | rfl | rfl | rfl | rfl | rfl
      · rw [switch_idle]; exact Or.inl ⟨rfl, rfl⟩
      · rw [switch_listen w val m hb]; exact Or.inr ⟨_, rfl, by decide⟩
      · rw [switch_rx w val m hb]
        refine Or.inr ⟨_, rfl, ?_⟩
        split_ifs <;> decide
      · rw [switch_tx_sync0 w val m hb]; exact Or.inr ⟨_, rfl, by decide⟩
      · rw [switch_tx_sync1 w val m hb]; exact Or.inr ⟨_, rfl, by decide⟩
      · by_cases hd : (rfm12_write_handler w m).1 &&& 256 = 0
        · rw [switch_tx_byte w val m hb hd]; exact Or.inr ⟨_, rfl, by decide⟩
        · by_cases e1 : (rfm12_write_handler w m).1 = 256
          · rw [switch_tx_end_of_transfer w val m hb e1]; exact Or.inr ⟨_, rfl, by decide⟩
          · by_cases e2 : (rfm12_write_handler w m).1 = 257
            · rw [switch_tx_resync_request w val m hb e2]; exact Or.inr ⟨_, rfl, by decide⟩
            · rw [switch_tx_ignored w val m hb hd e1 e2]; exact Or.inr ⟨_, rfl, by decide⟩
      · rw [switch_tx_end w val m hb]; exact Or.inr ⟨_, rfl, by decide⟩
      · rw [switch_tx_resync w val m hb]; exact Or.inr ⟨_, rfl, by decide⟩

/-- The diagnostics of the switch: "INVALID STATE" in the `default` branch and nothing
otherwise. -/
theorem switch_snd_msgs (w : World) (val s : Nat) (m : Machine) :
    (handle_interrupt_switch w val s m).2.msgs =
      if 8 ≤ s then m.msgs ++ ["INVALID STATE\n"] else m.msgs := by
  by_cases h8 : 8 ≤ s
  · rw [switch_invalid w val s m h8, if_pos h8]
    rfl
  · rw [if_neg h8]
    have hs : s = 0 ∨ s = 1 ∨ s = 2 ∨ s = 3 ∨ s = 4 ∨ s = 5 ∨ s = 6 ∨ s = 7 := by omega
    by_cases hb : val &&& 32768 = 0
    · by_cases h0 : s = 0
      · subst h0
        rw [switch_idle]
      · have h1 : 1 ≤ s := by omega
        have h7 : s ≤ 7 := by omega
        rw [switch_quiet w val s m hb h1 h7]
    · rcases hs with rfl | rfl | rfl | rfl | rfl | rfl | rfl | rfl
      · rw [switch_idle]
      · rw [switch_listen w val m hb]; simp [rfm12_read_handler]
      · rw [switch_rx w val m hb]; simp [rfm12_read_handler]
      · rw [switch_tx_sync0 w val m hb]
      · rw [switch_tx_sync1 w val m hb]
      · by_cases hd : (rfm12_write_handler w m).1 &&& 256 = 0
        · rw [switch_tx_byte w val m hb hd]; simp [rfm12_write_handler]
        · by_cases e1 : (rfm12_write_handler w m).1 = 256
          · rw [switch_tx_end_of_transfer w val m hb e1]; simp [rfm12_write_handler]
          · by_cases e2 : (rfm12_write_handler w m).1 = 257
            · rw [switch_tx_resync_request w val m hb e2]; simp [rfm12_write_handler]
            · rw [switch_tx_ignored w val m hb hd e1 e2]; simp [rfm12_write_handler]
      · rw [switch_tx_end w val m hb]
      · rw [switch_tx_resync w val m hb]

/-- The handler calls of the `default` branch: none. -/
theorem switch_invalid_snd (w : World) (val s : Nat) (m : Machine) (h8 : 8 ≤ s) :
    (handle_interrupt_switch w val s m).2 = usart_msg "INVALID STATE\n" m := by
  rw [switch_invalid w val s m h8]

/-- The loop body: `return` in Idle, otherwise the switch followed by the guarded
transition. -/
theorem body_cases (w : World) (m : Machine) :
    (base m = 0 ∧ handle_interrupt_body w m = (true, (handle_interrupt_status w m).2)) ∨
    ∃ ns M,
      handle_interrupt_switch w (handle_interrupt_status w m).1 (base m)
        (handle_interrupt_status w m).2 = (some ns, M) ∧
      handle_interrupt_body w m = (false, handle_interrupt_commit w (base m) ns M) := by
  rcases switch_fst w (handle_interrupt_status w m).1 (base m) (handle_interrupt_status w m).2
    with ⟨h0, -⟩ | ⟨ns, hns, -⟩
  · exact Or.inl ⟨h0, body_idle w m h0⟩
  · have hsw : handle_interrupt_switch w (handle_interrupt_status w m).1 (base m)
        (handle_interrupt_status w m).2 =
        (some ns, (handle_interrupt_switch w (handle_interrupt_status w m).1 (base m)
          (handle_interrupt_status w m).2).2) := by
      rw [← hns]
    exact Or.inr ⟨ns, _, hsw, body_of_switch w m ns _ hsw⟩

theorem redirect_of_ne (ns raw : Nat) (h : ns ≠ 0) : redirect ns raw = ns := by
  simp [redirect, h]

/-- The base state is the same before the status read and after the switch. -/
theorem switch_base (w : World) (m : Machine) :
    base (handle_interrupt_switch w (handle_interrupt_status w m).1 (base m)
      (handle_interrupt_status w m).2).2 = base m := by
  simp only [base_eq, switch_snd_state, status_snd_state]

/-- Every target the switch can leave in `newstate` is, after the redirection of Idle, the
current base state or passes the guard of `rfm12_set_state`. -/
theorem target_accepted (s ns raw : Nat)
    (h : (ns = s ∧ 1 ≤ s ∧ s ≤ 7) ∨ (s = 1 ∧ ns = 2) ∨ (s = 2 ∧ ns = 0) ∨ (s = 3 ∧ ns = 4) ∨
      (s = 4 ∧ ns = 5) ∨ (s = 5 ∧ (ns = 6 ∨ ns = 7)) ∨ (s = 6 ∧ ns = 0) ∨ (s = 7 ∧ ns = 3) ∨
      (8 ≤ s ∧ ns = 0)) :
    s = redirect ns raw ∨ guard s (redirect ns raw) = true := by
  by_cases h0 : ns = 0
  · subst h0
    exact Or.inr (guard_idle_listen s _ (redirect_idle_cases raw))
  · rw [redirect_of_ne ns raw h0]
    rcases h with ⟨h, -, -⟩ | ⟨rfl, rfl⟩ | ⟨rfl, rfl⟩ | ⟨rfl, rfl⟩ | ⟨rfl, rfl⟩ |
      ⟨rfl, rfl | rfl⟩ | ⟨rfl, rfl⟩ | ⟨rfl, rfl⟩ | ⟨-, rfl⟩
    · exact Or.inl h.symm
    all_goals first | exact Or.inr (by decide) | exact absurd rfl h0

/-- The guarded transition at the end of the loop body succeeds or is not attempted: the loop
body adds no diagnostic after the switch. -/
theorem body_commit_msgs (w : World) (m : Machine) (ns : Nat)
    (h : (handle_interrupt_switch w (handle_interrupt_status w m).1 (base m)
      (handle_interrupt_status w m).2).1 = some ns) :
    (handle_interrupt_commit w (base m) ns
      (handle_interrupt_switch w (handle_interrupt_status w m).1 (base m)
        (handle_interrupt_status w m).2).2).msgs =
    (handle_interrupt_switch w (handle_interrupt_status w m).1 (base m)
        (handle_interrupt_status w m).2).2.msgs := by
  have hraw : (handle_interrupt_switch w (handle_interrupt_status w m).1 (base m)
      (handle_interrupt_status w m).2).2.rfm12_state = m.rfm12_state := by
    rw [switch_snd_state, status_snd_state]
  have hacc : base m = redirect ns m.rfm12_state ∨
      guard (base m) (redirect ns m.rfm12_state) = true := by
    rcases switch_fst w (handle_interrupt_status w m).1 (base m)
      (handle_interrupt_status w m).2 with ⟨-, hn⟩ | ⟨ns', hns, ht⟩
    · rw [hn] at h; cases h
    · rw [hns] at h
      cases h
      exact target_accepted _ _ _ ht
  rcases commit_state_cases w (base m) ns _ (switch_base w m) with
    ⟨-, hm, -⟩ | ⟨-, hm, -⟩ | ⟨-, -, hne, hg⟩
  · exact hm
  · exact hm
  · rw [hraw] at hne hg
    rcases hacc with h1 | h1
    · exact absurd h1 hne
    · rw [h1] at hg; cases hg

/-- The diagnostics of one loop body: "INVALID STATE" when the base state is none of the
eight known states, and nothing otherwise. -/
theorem body_msgs (w : World) (m : Machine) :
    (handle_interrupt_body w m).2.msgs =
      if 8 ≤ base m then m.msgs ++ ["INVALID STATE\n"] else m.msgs := by
  rcases body_cases w m with ⟨h0, hb⟩ | ⟨ns, M, hsw, hb⟩
  · rw [hb, if_neg (by omega)]
    exact status_snd_msgs w m
  · rw [hb]
    have h1 : (handle_interrupt_switch w (handle_interrupt_status w m).1 (base m)
        (handle_interrupt_status w m).2).1 = some ns := by rw [hsw]
    have h2 : (handle_interrupt_switch w (handle_interrupt_status w m).1 (base m)
        (handle_interrupt_status w m).2).2 = M := by rw [hsw]
    have h3 := body_commit_msgs w m ns h1
    rw [h2] at h3
    show (handle_interrupt_commit w (base m) ns M).msgs = _
    rw [h3, ← h2, switch_snd_msgs, status_snd_msgs]

theorem guard_edges (s t : Nat) :
    guard s t = true ↔
      t = RFXX_STATE_IDLE ∨ t = RFXX_STATE_LISTEN ∨
      (s = RFXX_STATE_LISTEN ∧ t = RFXX_STATE_RX) ∨
      (s = RFXX_STATE_IDLE ∧ t = RFXX_STATE_TX_SYNC0) ∨
      (s = RFXX_STATE_LISTEN ∧ t = RFXX_STATE_TX_SYNC0) ∨
      (s = RFXX_STATE_TX_RESYNC ∧ t = RFXX_STATE_TX_SYNC0) ∨
      (s = RFXX_STATE_TX_SYNC0 ∧ t = RFXX_STATE_TX_SYNC1) ∨
      (s = RFXX_STATE_TX_SYNC1 ∧ t = RFXX_STATE_TX) ∨
      (s = RFXX_STATE_TX ∧ t = RFXX_STATE_TX_END) ∨
      (s = RFXX_STATE_TX ∧ t = RFXX_STATE_TX_RESYNC) := by
  unfold guard
  simp only [RFXX_STATE_IDLE, RFXX_STATE_LISTEN, RFXX_STATE_RX, RFXX_STATE_TX_SYNC0,
    RFXX_STATE_TX_SYNC1, RFXX_STATE_TX, RFXX_STATE_TX_END, RFXX_STATE_TX_RESYNC,
    Bool.or_eq_true, Bool.and_eq_true, beq_iff_eq]
  by_cases h0 : t = 0
  · subst h0; simp
  by_cases h1 : t = 1
  · subst h1; simp
  by_cases h2 : t = 2
  · subst h2; simp
  by_cases h3 : t = 3
  · subst h3; simp
    tauto
  by_cases h4 : t = 4
  · subst h4; simp
  by_cases h5 : t = 5
  · subst h5; simp
  by_cases h6 : t = 6
  · subst h6; simp
  by_cases h7 : t = 7
  · subst h7; simp
  simp [h0, h1, h2, h3, h4, h5, h6, h7]

/-- The loop body in a state that is none of the eight known ones. -/
theorem body_invalid (w : World) (m : Machine) (h8 : 8 ≤ base m) :
    handle_interrupt_body w m =
      (false,
        { issue w (entry_cmds (base m) (redirect RFXX_STATE_IDLE m.rfm12_state))
            (usart_msg "INVALID STATE\n" (handle_interrupt_status w m).2) with
          rfm12_state := redirect RFXX_STATE_IDLE m.rfm12_state |||
            (m.rfm12_state &&& RFXX_STATEFLAGS) }) := by
  have hsw := switch_invalid w (handle_interrupt_status w m).1 (base m)
    (handle_interrupt_status w m).2 h8
  rw [body_of_switch w m 0 _ hsw]
  have hb : base (usart_msg "INVALID STATE\n" (handle_interrupt_status w m).2) = base m := by
    simp only [base_eq, usart_msg, status_snd_state]
  have hraw : (usart_msg "INVALID STATE\n" (handle_interrupt_status w m).2).rfm12_state
      = m.rfm12_state := by
    simp only [usart_msg, status_snd_state]
  have hne : base m ≠ redirect 0 m.rfm12_state := by
    have h' : redirect 0 m.rfm12_state = 0 ∨ redirect 0 m.rfm12_state = 1 :=
      redirect_idle_cases m.rfm12_state
    intro heq
    rw [← heq] at h'
    omega
  rw [commit_accept w (base m) 0 _ hb (by rw [hraw]; exact hne)
    (by rw [hraw]; exact guard_idle_listen _ _ (redirect_idle_cases _)), hraw]
  rfl

theorem redirect_idle_flag (m : Machine) :
    redirect RFXX_STATE_IDLE m.rfm12_state =
      if auto_relisten m then RFXX_STATE_LISTEN else RFXX_STATE_IDLE := by
  unfold redirect auto_relisten
  by_cases h : m.rfm12_state &&& RFXX_STATEFLAG_LISTEN ≠ 0
  · simp [h]
  · simp [h]

theorem and_256_ne_zero_ge (v : Nat) (h : v &&& 256 ≠ 0) : 256 ≤ v := by
  by_contra hlt
  exact h (and_256_of_lt (by omega))

/-- The commands of a loop body in Tx with FIFO-space-available set, by the value the write
handler returns. -/
theorem body_tx_cmds (w : World) (m : Machine) (hs : base m = RFXX_STATE_TX)
    (hrgit : response w m.cmds.length 0 &&& RFXX_FLAG_RGIT ≠ 0) :
    (handle_interrupt_body w m).2.cmds = m.cmds ++ [0x0000] ++
      (if tx_data w m &&& 0x100 = 0 then [0xB800 ||| (tx_data w m &&& 0xff)]
       else if tx_data w m = RFXX_EV_TX_END ∨ tx_data w m = RFXX_EV_TX_RESYNC then [0xB8AA]
       else []) := by
  by_cases hd : tx_data w m &&& 0x100 = 0
  · rw [body_tx_byte w m hs hrgit hd, if_pos hd]
    simp [rfm12_write_handler]
  · rw [if_neg hd]
    by_cases h1 : tx_data w m = RFXX_EV_TX_END
    · rw [body_tx_end_of_transfer w m hs hrgit h1, if_pos (Or.inl h1)]
      simp [rfm12_write_handler]
    · by_cases h2 : tx_data w m = RFXX_EV_TX_RESYNC
      · rw [body_tx_resync_request w m hs hrgit h2, if_pos (Or.inr h2)]
        simp [rfm12_write_handler]
      · rw [body_tx_ignored w m hs hrgit hd h1 h2, if_neg (by tauto)]
        simp [rfm12_write_handler]

/-! ### The stored status and the world do not steer the driver -/

theorem rfm12_cmd_frame (w : World) (c x : Nat) (m : Machine) :
    rfm12_cmd w c { m with rfm12_status := x } =
      ((rfm12_cmd w c m).1, { (rfm12_cmd w c m).2 with rfm12_status := x }) := by
  simp only [rfm12_cmd]

/-- The machine an exchange leaves does not depend on what the chip answers. -/
theorem rfm12_cmd_world (w1 w2 : World) (c : Nat) (m : Machine) :
    (rfm12_cmd w1 c m).2 = (rfm12_cmd w2 c m).2 := by
  simp only [rfm12_cmd, rfm12_cmd_loop_eq]

theorem rfm12_cmd_congr (w1 w2 : World) (c : Nat) (m : Machine)
    (h : w1.SDO m.cmds.length = w2.SDO m.cmds.length) :
    rfm12_cmd w1 c m = rfm12_cmd w2 c m := by
  simp only [rfm12_cmd, h]

theorem issue_frame (w : World) (cs : List Nat) (x : Nat) (m : Machine) :
    issue w cs { m with rfm12_status := x } = { issue w cs m with rfm12_status := x } := by
  induction cs generalizing m with
  | nil => rfl
  | cons c cs ih =>
    rw [issue_cons, issue_cons, rfm12_cmd_frame]
    exact ih _

theorem issue_world (w1 w2 : World) (cs : List Nat) (m : Machine) :
    issue w1 cs m = issue w2 cs m := by
  induction cs generalizing m with
  | nil => rfl
  | cons c cs ih =>
    rw [issue_cons, issue_cons, rfm12_cmd_world w1 w2]
    exact ih _

theorem set_state_frame (w : World) (t x : Nat) (m : Machine) :
    rfm12_set_state w t { m with rfm12_status := x } =
      ((rfm12_set_state w t m).1, { (rfm12_set_state w t m).2 with rfm12_status := x }) := by
  rw [rfm12_set_state_eq, rfm12_set_state_eq]
  have hb : base { m with rfm12_status := x } = base m := rfl
  rw [hb]
  by_cases h : base m = t
  · rw [if_pos h, if_pos h]
  · rw [if_neg h, if_neg h]
    cases guard (base m) t
    · rfl
    · simp only [if_true, issue_frame]

theorem set_state_world (w1 w2 : World) (t : Nat) (m : Machine) :
    rfm12_set_state w1 t m = rfm12_set_state w2 t m := by
  rw [rfm12_set_state_eq, rfm12_set_state_eq, issue_world w1 w2]

theorem commit_frame (w : World) (s ns x : Nat) (m : Machine) :
    handle_interrupt_commit w s ns { m with rfm12_status := x } =
      { handle_interrupt_commit w s ns m with rfm12_status := x } := by
  unfold handle_interrupt_commit
  simp only []
  by_cases h : s = redirect ns m.rfm12_state
  · rw [if_neg (not_not.mpr h), if_neg (not_not.mpr h)]
  · rw [if_pos h, if_pos h, set_state_frame]
    cases (rfm12_set_state w (redirect ns m.rfm12_state) m).1 <;> rfl

theorem commit_world (w1 w2 : World) (s ns : Nat) (m : Machine) :
    handle_interrupt_commit w1 s ns m = handle_interrupt_commit w2 s ns m := by
  unfold handle_interrupt_commit
  simp only []
  rw [set_state_world w1 w2]

theorem read_handler_frame (w : World) (e d x : Nat) (m : Machine) :
    rfm12_read_handler w e d { m with rfm12_status := x } =
      ((rfm12_read_handler w e d m).1, { (rfm12_read_handler w e d m).2 with rfm12_status := x }) :=
  rfl

theorem write_handler_frame (w : World) (x : Nat) (m : Machine) :
    rfm12_write_handler w { m with rfm12_status := x } =
      ((rfm12_write_handler w m).1, { (rfm12_write_handler w m).2 with rfm12_status := x }) :=
  rfl

theorem read_handler_congr (w1 w2 : World) (e d : Nat) (m : Machine)
    (h : w1.read_handler = w2.read_handler) :
    rfm12_read_handler w2 e d m = rfm12_read_handler w1 e d m := by
  simp only [rfm12_read_handler, h]

theorem write_handler_congr (w1 w2 : World) (m : Machine)
    (h : w1.write_handler = w2.write_handler) :
    rfm12_write_handler w2 m = rfm12_write_handler w1 m := by
  simp only [rfm12_write_handler, h]

set_option maxHeartbeats 1000000 in
/-- The switch reads the status word only through bit 15 and bit 7, the chip only through
the FIFO read, and never the stored status. -/
theorem switch_congr (w1 w2 : World) (val1 val2 s x : Nat) (m : Machine)
    (h15 : val1 &&& 32768 = val2 &&& 32768) (h7 : val1 &&& 128 = val2 &&& 128)
    (hS : w1.SDO m.cmds.length = w2.SDO m.cmds.length)
    (hr : w1.read_handler = w2.read_handler) (hw : w1.write_handler = w2.write_handler) :
    handle_interrupt_switch w2 val2 s { m with rfm12_status := x } =
      ((handle_interrupt_switch w1 val1 s m).1,
        { (handle_interrupt_switch w1 val1 s m).2 with rfm12_status := x }) := by
  have hcmd : ∀ c, rfm12_cmd w2 c m = rfm12_cmd w1 c m :=
    fun c => (rfm12_cmd_congr w1 w2 c m hS).symm
  by_cases h8 : 8 ≤ s
  · rw [switch_invalid w2 val2 s _ h8, switch_invalid w1 val1 s _ h8]
    rfl
  · have hs : s = 0 ∨ s = 1 ∨ s = 2 ∨ s = 3 ∨ s = 4 ∨ s = 5 ∨ s = 6 ∨ s = 7 := by omega
    by_cases hb : val1 &&& 32768 = 0
    · have hb2 : val2 &&& 32768 = 0 := by rw [← h15]; exact hb
      by_cases h0 : s = 0
      · subst h0
        rw [switch_idle, switch_idle]
      · have h1 : 1 ≤ s := by omega
        have h7 : s ≤ 7 := by omega
        rw [switch_quiet w2 val2 s _ hb2 h1 h7, switch_quiet w1 val1 s _ hb h1 h7]
    · have hb2 : val2 &&& 32768 ≠ 0 := by rw [← h15]; exact hb
      rcases hs with rfl | rfl | rfl | rfl | rfl | rfl | rfl | rfl
      · rw [switch_idle, switch_idle]
      · rw [switch_listen w2 val2 _ hb2, switch_listen w1 val1 _ hb, rfm12_cmd_frame,
          read_handler_frame, hcmd, read_handler_congr w1 w2 _ _ _ hr]
      · rw [switch_rx w2 val2 _ hb2, switch_rx w1 val1 _ hb, rfm12_cmd_frame, h7,
          read_handler_frame, hcmd, read_handler_congr w1 w2 _ _ _ hr]
      · rw [switch_tx_sync0 w2 val2 _ hb2, switch_tx_sync0 w1 val1 _ hb]
      · rw [switch_tx_sync1 w2 val2 _ hb2, switch_tx_sync1 w1 val1 _ hb]
      · have hwh : rfm12_write_handler w2 { m with rfm12_status := x } =
            ((rfm12_write_handler w1 m).1,
              { (rfm12_write_handler w1 m).2 with rfm12_status := x }) := by
          rw [write_handler_frame, write_handler_congr w1 w2 m hw]
        by_cases hd : (rfm12_write_handler w1 m).1 &&& 256 = 0
        · rw [switch_tx_byte w2 val2 _ hb2 (by rw [hwh]; exact hd),
            switch_tx_byte w1 val1 _ hb hd, hwh, rfm12_cmd_frame,
            rfm12_cmd_world w2 w1]
        · by_cases e1 : (rfm12_write_handler w1 m).1 = 256
          · rw [switch_tx_end_of_transfer w2 val2 _ hb2 (by rw [hwh]; exact e1),
              switch_tx_end_of_transfer w1 val1 _ hb e1, hwh]
          · by_cases e2 : (rfm12_write_handler w1 m).1 = 257
            · rw [switch_tx_resync_request w2 val2 _ hb2 (by rw [hwh]; exact e2),
                switch_tx_resync_request w1 val1 _ hb e2, hwh]
            · rw [switch_tx_ignored w2 val2 _ hb2 (by rw [hwh]; exact hd)
                  (by rw [hwh]; exact e1) (by rw [hwh]; exact e2),
                switch_tx_ignored w1 val1 _ hb hd e1 e2, hwh]
      · rw [switch_tx_end w2 val2 _ hb2, switch_tx_end w1 val1 _ hb]
      · rw [switch_tx_resync w2 val2 _ hb2, switch_tx_resync w1 val1 _ hb]

/-- The loop body in terms of the two components of the switch. -/
theorem body_eq (w : World) (m : Machine) :
    handle_interrupt_body w m =
      match (handle_interrupt_switch w (handle_interrupt_status w m).1 (base m)
          (handle_interrupt_status w m).2).1 with
      | none => (true, (handle_interrupt_switch w (handle_interrupt_status w m).1 (base m)
          (handle_interrupt_status w m).2).2)
      | some ns => (false, handle_interrupt_commit w (base m) ns
          (handle_interrupt_switch w (handle_interrupt_status w m).1 (base m)
            (handle_interrupt_status w m).2).2) := by
  rcases body_cases w m with ⟨h0, hb⟩ | ⟨ns, M, hsw, hb⟩
  · rw [hb, h0, switch_idle]
  · rw [hb, hsw]

/-- The status read in a machine whose stored status is replaced by `x`. -/
theorem status_frame (w : World) (m : Machine) (x : Nat) :
    handle_interrupt_status w { m with rfm12_status := x } =
      ((x &&& RFXX_TRANSIENT_FLAGS) ||| response w m.cmds.length 0,
        { (rfm12_cmd w 0 m).2 with
          rfm12_status := (x &&& RFXX_TRANSIENT_FLAGS) ||| response w m.cmds.length 0 }) := by
  rw [handle_interrupt_status_eq, rfm12_cmd_frame, ← rfm12_cmd_fst]

/-- One loop body under a change of the raw status word that keeps bit 15 and bit 7, and of
the stored status: the same exit, and the same machine up to the stored status. -/
theorem body_congr (w1 w2 : World) (m : Machine) (x : Nat)
    (hsdo : w1.SDO (m.cmds.length + 1) = w2.SDO (m.cmds.length + 1))
    (hr : w1.read_handler = w2.read_handler) (hw : w1.write_handler = w2.write_handler)
    (h15 : response w1 m.cmds.length 0 &&& 32768 = response w2 m.cmds.length 0 &&& 32768)
    (h7 : response w1 m.cmds.length 0 &&& 128 = response w2 m.cmds.length 0 &&& 128) :
    ∃ (b : Bool) (X : Machine) (v1 v2 : Nat),
      handle_interrupt_body w1 m = (b, { X with rfm12_status := v1 }) ∧
      handle_interrupt_body w2 { m with rfm12_status := x }
        = (b, { X with rfm12_status := v2 }) := by
  have hC : (rfm12_cmd w2 0 m).2 = (rfm12_cmd w1 0 m).2 := rfm12_cmd_world w2 w1 0 m
  have hlen : (rfm12_cmd w1 0 m).2.cmds.length = m.cmds.length + 1 := by
    rw [rfm12_cmd_cmds]; simp
  have hS : w1.SDO (rfm12_cmd w1 0 m).2.cmds.length = w2.SDO (rfm12_cmd w1 0 m).2.cmds.length := by
    rw [hlen]; exact hsdo
  have e1 := status_frame w1 m m.rfm12_status
  have e2 := status_frame w2 m x
  rw [hC] at e2
  have hm : ({ m with rfm12_status := m.rfm12_status } : Machine) = m := rfl
  rw [hm] at e1
  have hb2 : base ({ m with rfm12_status := x } : Machine) = base m := rfl
  have s1 := switch_congr w1 w1
    ((m.rfm12_status &&& RFXX_TRANSIENT_FLAGS) ||| response w1 m.cmds.length 0)
    ((m.rfm12_status &&& RFXX_TRANSIENT_FLAGS) ||| response w1 m.cmds.length 0) (base m)
    ((m.rfm12_status &&& RFXX_TRANSIENT_FLAGS) ||| response w1 m.cmds.length 0)
    (rfm12_cmd w1 0 m).2 rfl rfl rfl rfl rfl
  have s2 := switch_congr w1 w2
    ((m.rfm12_status &&& RFXX_TRANSIENT_FLAGS) ||| response w1 m.cmds.length 0)
    ((x &&& RFXX_TRANSIENT_FLAGS) ||| response w2 m.cmds.length 0) (base m)
    ((x &&& RFXX_TRANSIENT_FLAGS) ||| response w2 m.cmds.length 0)
    (rfm12_cmd w1 0 m).2
    (by
      show ((m.rfm12_status &&& 30720) ||| _) &&& 32768 = ((x &&& 30720) ||| _) &&& 32768
      rw [merged_bit15, merged_bit15]; exact h15)
    (by
      show ((m.rfm12_status &&& 30720) ||| _) &&& 128 = ((x &&& 30720) ||| _) &&& 128
      rw [merged_bit7, merged_bit7]; exact h7) hS hr hw
  rw [body_eq w1 m, body_eq w2, hb2, e1, e2]
  simp only []
  rw [s1, s2]
  simp only []
  generalize handle_interrupt_switch w1
    ((m.rfm12_status &&& RFXX_TRANSIENT_FLAGS) ||| response w1 m.cmds.length 0) (base m)
    (rfm12_cmd w1 0 m).2 = R
  rcases R with ⟨_ | ns, M⟩
  · exact ⟨true, M, _, _, rfl, rfl⟩
  · simp only []
    rw [commit_frame w1 (base m) ns _ M, commit_frame w2 (base m) ns _ M, commit_world w2 w1]
    exact ⟨false, handle_interrupt_commit w1 (base m) ns M, _, _, rfl, rfl⟩

/-- The state byte after one loop body: unchanged, or an accepted target `t` with the old
flag bit, where `t` is not Idle when the flag is set. -/
theorem body_state_step (w : World) (m : Machine) :
    (handle_interrupt_body w m).2.rfm12_state = m.rfm12_state ∨
    ∃ t, t < 8 ∧ (m.rfm12_state &&& 128 ≠ 0 → t ≠ 0) ∧
      (handle_interrupt_body w m).2.rfm12_state = t ||| (m.rfm12_state &&& 128) := by
  rcases body_cases w m with ⟨-, hb⟩ | ⟨ns, M, hsw, hb⟩
  · rw [hb]
    exact Or.inl (status_snd_state w m)
  · rw [hb]
    have hM : M = (handle_interrupt_switch w (handle_interrupt_status w m).1 (base m)
        (handle_interrupt_status w m).2).2 := by rw [hsw]
    have hraw : M.rfm12_state = m.rfm12_state := by
      rw [hM, switch_snd_state, status_snd_state]
    have hbase : base M = base m := by rw [base_eq, base_eq, hraw]
    rcases commit_state_cases w (base m) ns M hbase with
      ⟨hs, -, -⟩ | ⟨hs, -, hg⟩ | ⟨hs, -, -, -⟩
    · exact Or.inl (hs.trans hraw)
    · refine Or.inr ⟨redirect ns M.rfm12_state, guard_lt _ _ hg, ?_, ?_⟩
      · intro hflag
        rw [hraw]
        unfold redirect
        by_cases h0 : ns = RFXX_STATE_IDLE
        · rw [if_pos ⟨h0, hflag⟩]; decide
        · rw [if_neg (fun h => h0 h.1)]; exact h0
      · show (handle_interrupt_commit w (base m) ns M).rfm12_state = _
        rw [hs, hraw]
    · exact Or.inl (hs.trans hraw)

/-- A property of the state byte that every loop body keeps is kept by the drain. -/
theorem drain_preserves (J : Nat → Prop)
    (hJ : ∀ (w : World) (m : Machine), J m.rfm12_state →
      J (handle_interrupt_body w m).2.rfm12_state) (w : World) :
    ∀ (fuel : Nat) (m m' : Machine), J m.rfm12_state →
      rfm12_handle_interrupt w fuel m = some m' → J m'.rfm12_state := by
  intro fuel
  induction fuel with
  | zero => intro m m' _ h; cases h
  | succ f ih =>
    intro m m' hm h
    simp only [rfm12_handle_interrupt] at h
    have hp : J (handle_interrupt_pass w m).2.rfm12_state := by
      unfold handle_interrupt_pass
      simp only []
      cases (RFXX_GET_NIRQ w m).1
      · simp only [Bool.false_eq_true, if_false]
        exact hJ w _ hm
      · simp only [if_true]
        exact hm
    split_ifs at h
    · exact ih _ _ hp h
    · cases h; exact hp

/-- The state byte after `rfm12_set_state`, as a step: unchanged, or the accepted target
with the old flag bit. -/
theorem set_state_step (w : World) (t : Nat) (m : Machine) :
    (rfm12_set_state w t m).2.rfm12_state = m.rfm12_state ∨
    (t < 8 ∧ (rfm12_set_state w t m).2.rfm12_state = t ||| (m.rfm12_state &&& 128)) := by
  rcases set_state_state_cases w t m with h | ⟨h, hg⟩
  · exact Or.inl h
  · exact Or.inr ⟨guard_lt _ _ hg, h⟩

theorem valid_of_step (raw raw' t : Nat) (ht : t < 8) (h : raw' = t ||| (raw &&& 128)) :
    raw' &&& 127 ≤ 7 := by
  rw [h, commit_base t raw (by omega)]
  omega

theorem relisten_of_step (raw raw' t : Nat) (ht : t < 8) (h0 : raw &&& 128 ≠ 0 → t ≠ 0)
    (h : raw' = t ||| (raw &&& 128)) : raw' &&& 128 ≠ 0 → raw' &&& 127 ≠ 0 := by
  rw [h, commit_base t raw (by omega), commit_flag t raw (by omega)]
  exact h0

/-- Every loop body keeps the base state among the eight known states. -/
theorem body_valid (w : World) (m : Machine) (h : m.rfm12_state &&& 127 ≤ 7) :
    (handle_interrupt_body w m).2.rfm12_state &&& 127 ≤ 7 := by
  rcases body_state_step w m with e | ⟨t, ht, -, e⟩
  · rw [e]; exact h
  · exact valid_of_step _ _ t ht e

/-- Every loop body keeps Idle apart from a set auto-relisten flag. -/
theorem body_relisten (w : World) (m : Machine)
    (h : m.rfm12_state &&& 128 ≠ 0 → m.rfm12_state &&& 127 ≠ 0) :
    (handle_interrupt_body w m).2.rfm12_state &&& 128 ≠ 0 →
      (handle_interrupt_body w m).2.rfm12_state &&& 127 ≠ 0 := by
  rcases body_state_step w m with e | ⟨t, ht, h0, e⟩
  · rw [e]; exact h
  · exact relisten_of_step _ _ t ht h0 e

theorem set_state_valid (w : World) (t : Nat) (m : Machine) (h : m.rfm12_state &&& 127 ≤ 7) :
    (rfm12_set_state w t m).2.rfm12_state &&& 127 ≤ 7 := by
  rcases set_state_step w t m with e | ⟨ht, e⟩
  · rw [e]; exact h
  · exact valid_of_step _ _ t ht e

/-- A transition requested for a target that is not Idle when the flag is set keeps Idle
apart from a set auto-relisten flag. -/
theorem set_state_relisten (w : World) (t : Nat) (m : Machine)
    (h : m.rfm12_state &&& 128 ≠ 0 → m.rfm12_state &&& 127 ≠ 0)
    (h0 : m.rfm12_state &&& 128 ≠ 0 → t ≠ 0) :
    (rfm12_set_state w t m).2.rfm12_state &&& 128 ≠ 0 →
      (rfm12_set_state w t m).2.rfm12_state &&& 127 ≠ 0 := by
  rcases set_state_step w t m with e | ⟨ht, e⟩
  · rw [e]; exact h
  · exact relisten_of_step _ _ t ht h0 e

theorem listen_valid (w : World) (enable : Bool) (m : Machine)
    (h : m.rfm12_state &&& 127 ≤ 7) : (rfm12_listen w enable m).2.rfm12_state &&& 127 ≤ 7 := by
  cases enable
  · rw [listen_disable_eq]
    have hb : (m.rfm12_state &&& (0xFF ^^^ RFXX_STATEFLAG_LISTEN)) &&& 127 ≤ 7 := by
      show (m.rfm12_state &&& (255 ^^^ 128)) &&& 127 ≤ 7
      rw [xor_255_128, and_127_and_127]; exact h
    split_ifs
    · exact set_state_valid w _ _ hb
    · exact hb
  · rw [listen_enable_eq]
    have hb : (m.rfm12_state ||| RFXX_STATEFLAG_LISTEN) &&& 127 ≤ 7 := by
      show (m.rfm12_state ||| 128) &&& 127 ≤ 7
      rw [or_128_and_127]; exact h
    split_ifs
    · exact set_state_valid w _ _ hb
    · exact hb

theorem listen_relisten (w : World) (enable : Bool) (m : Machine) :
    (rfm12_listen w enable m).2.rfm12_state &&& 128 ≠ 0 →
      (rfm12_listen w enable m).2.rfm12_state &&& 127 ≠ 0 := by
  cases enable
  · intro hflag
    have hf := (listen_flag w m).2
    unfold auto_relisten at hf
    simp only [RFXX_STATEFLAG_LISTEN, decide_eq_false_iff_not] at hf
    exact absurd hflag hf
  · rw [listen_enable_eq]
    by_cases hb : base m = RFXX_STATE_IDLE
    · rw [if_pos hb]
      have hb' : base ({ m with rfm12_state := m.rfm12_state ||| RFXX_STATEFLAG_LISTEN } : Machine)
          = 0 := by
        rw [base_eq]
        show (m.rfm12_state ||| 128) &&& 127 = 0
        rw [or_128_and_127, ← base_eq]; exact hb
      rw [set_state_accept w RFXX_STATE_LISTEN _ (by rw [hb']; decide)
        (guard_idle_listen _ _ (Or.inr rfl))]
      intro _
      show (1 ||| ((m.rfm12_state ||| 128) &&& 128)) &&& 127 ≠ 0
      rw [commit_base 1 _ (by decide)]
      decide
    · rw [if_neg hb]
      intro _
      show (m.rfm12_state ||| 128) &&& 127 ≠ 0
      rw [or_128_and_127, ← base_eq]
      exact hb

theorem send_packet_some (w : World) (fuel : Nat) (m : Machine) (res : Bool) (m' : Machine)
    (h : rfm12_send_packet w fuel m = some (res, m')) :
    rfm12_handle_interrupt w fuel (rfm12_set_state w RFXX_STATE_TX_SYNC0 m).2 = some m' := by
  rw [send_packet_eq] at h
  cases hd : rfm12_handle_interrupt w fuel (rfm12_set_state w RFXX_STATE_TX_SYNC0 m).2 with
  | none => rw [hd] at h; cases h
  | some mf => rw [hd] at h; cases h; rfl

theorem stop_target_ne (m : Machine) (h : m.rfm12_state &&& 128 ≠ 0) :
    (if m.rfm12_state &&& RFXX_STATEFLAG_LISTEN ≠ 0 then RFXX_STATE_LISTEN
      else RFXX_STATE_IDLE) ≠ 0 := by
  have h' : m.rfm12_state &&& RFXX_STATEFLAG_LISTEN ≠ 0 := h
  rw [if_pos h']; decide

/-- Every reachable machine has its base state among the eight known states. -/
theorem reach_valid (direct : Bool) (m : Machine) (h : Reach direct m) :
    m.rfm12_state &&& 127 ≤ 7 := by
  induction h with
  | init w m0 =>
    rw [rfm12_init_eq]
    show (0 : Nat) &&& 127 ≤ 7
    decide
  | listen w enable m _ ih => exact listen_valid w enable m ih
  | send_packet w fuel m res m' _ hsp ih =>
    exact drain_preserves (fun st => st &&& 127 ≤ 7) body_valid w fuel _ m'
      (set_state_valid w _ m ih) (send_packet_some w fuel m res m' hsp)
  | send_packet_start w m _ ih => exact set_state_valid w _ m ih
  | stop_sending w m _ ih => exact set_state_valid w _ m ih
  | stop_receiving w m _ ih =>
    unfold rfm12_stop_receiving
    simp only []
    split_ifs
    · exact set_state_valid w _ m ih
    · exact set_state_valid w _ m ih
    · exact ih
  | clear_interrupts m _ ih => exact ih
  | body w m _ ih => exact body_valid w m ih
  | poll w m _ ih => exact ih
  | drain w fuel m m' _ hd ih =>
    exact drain_preserves (fun st => st &&& 127 ≤ 7) body_valid w fuel m m' ih hd
  | set_state w t m _ _ _ ih => exact set_state_valid w t m ih

/-- Without direct calls of `rfm12_set_state`, every reachable machine with auto-relisten
set has a base state other than Idle. -/
theorem reach_relisten (m : Machine) (h : Reach false m) :
    m.rfm12_state &&& 128 ≠ 0 → m.rfm12_state &&& 127 ≠ 0 := by
  induction h with
  | init w m0 =>
    rw [rfm12_init_eq]
    show (0 : Nat) &&& 128 ≠ 0 → (0 : Nat) &&& 127 ≠ 0
    decide
  | listen w enable m _ _ => exact listen_relisten w enable m
  | send_packet w fuel m res m' _ hsp ih =>
    exact drain_preserves (fun st => st &&& 128 ≠ 0 → st &&& 127 ≠ 0) body_relisten w fuel _ m'
      (set_state_relisten w _ m ih (fun _ => by decide)) (send_packet_some w fuel m res m' hsp)
  | send_packet_start w m _ ih => exact set_state_relisten w _ m ih (fun _ => by decide)
  | stop_sending w m _ ih => exact set_state_relisten w _ m ih (stop_target_ne m)
  | stop_receiving w m _ ih =>
    unfold rfm12_stop_receiving
    simp only []
    by_cases hrx : m.rfm12_state &&& (0xFF ^^^ RFXX_STATEFLAGS) = RFXX_STATE_RX
    · rw [if_pos hrx]
      exact set_state_relisten w _ m ih (stop_target_ne m)
    · rw [if_neg hrx]
      exact ih
  | clear_interrupts m _ ih => exact ih
  | body w m _ ih => exact body_relisten w m ih
  | poll w m _ ih => exact ih
  | drain w fuel m m' _ hd ih =>
    exact drain_preserves (fun st => st &&& 128 ≠ 0 → st &&& 127 ≠ 0) body_relisten w fuel m m'
      ih hd
  | set_state w t m hdirect _ _ _ => cases hdirect

/-! ## Claims -/

/-- C1 (as stated, refuted): the table of the specification has no edge from Tx to Idle, none
from Tx to Listen and none from Idle to Idle, yet `rfm12_set_state` reports success for all
three requests, and the first two change the stored state. -/
theorem set_state_accepts_outside_table :
    (table_edge RFXX_STATE_TX RFXX_STATE_IDLE = false ∧
      (rfm12_set_state (sendWorld 0 []) RFXX_STATE_IDLE (fresh RFXX_STATE_TX)).1 = true ∧
      (rfm12_set_state (sendWorld 0 []) RFXX_STATE_IDLE (fresh RFXX_STATE_TX)).2.rfm12_state
        = RFXX_STATE_IDLE) ∧
    (table_edge RFXX_STATE_TX RFXX_STATE_LISTEN = false ∧
      (rfm12_set_state (sendWorld 0 []) RFXX_STATE_LISTEN (fresh RFXX_STATE_TX)).1 = true ∧
      (rfm12_set_state (sendWorld 0 []) RFXX_STATE_LISTEN (fresh RFXX_STATE_TX)).2.rfm12_state
        = RFXX_STATE_LISTEN) ∧
    (table_edge RFXX_STATE_IDLE RFXX_STATE_IDLE = false ∧
      (rfm12_set_state (sendWorld 0 []) RFXX_STATE_IDLE (fresh RFXX_STATE_IDLE)).1 = true) := by
  decide

/-- C1 (amended): for every stored state and every requested target `t` that is not the
current base state, is neither Idle nor Listen, and does not follow the current base state in
the transition table, `rfm12_set_state` reports failure and the machine, stored state
included, is what it was. -/
theorem set_state_rejects_outside_table (w : World) (m : Machine) (t : Nat)
    (hself : t ≠ base m) (hidle : t ≠ RFXX_STATE_IDLE) (hlisten : t ≠ RFXX_STATE_LISTEN)
    (hedge : table_edge (base m) t = false) :
    (rfm12_set_state w t m).1 = false ∧
    (rfm12_set_state w t m).2.rfm12_state = m.rfm12_state ∧
    (rfm12_set_state w t m).2 = m := by
  have hg : guard (base m) t = false := by
    cases hgd : guard (base m) t with
    | false => rfl
    | true =>
      rcases (guard_iff (base m) t).1 hgd with h | h | h
      · exact absurd h hidle
      · exact absurd h hlisten
      · rw [hedge] at h; cases h
  rw [set_state_refuse w t m (Ne.symm hself) hg]
  exact ⟨rfl, rfl, rfl⟩

/-- The amended C1 at a concrete request: Rx, auto-relisten set, asked to go to Tx. -/
theorem set_state_rejects_outside_table_witness :
    (rfm12_set_state (sendWorld 0 []) RFXX_STATE_TX (fresh 0x82)).1 = false ∧
    (rfm12_set_state (sendWorld 0 []) RFXX_STATE_TX (fresh 0x82)).2.rfm12_state
      = (fresh 0x82).rfm12_state ∧
    (rfm12_set_state (sendWorld 0 []) RFXX_STATE_TX (fresh 0x82)).2 = fresh 0x82 :=
  set_state_rejects_outside_table (sendWorld 0 []) (fresh 0x82) RFXX_STATE_TX
    (by decide) (by decide) (by decide) (by decide)

/-- C2: a failed transition is atomic.  Whenever `rfm12_set_state` reports failure the
machine is exactly what it was before the call: the stored state byte is unchanged, no
command word was exchanged and no pin was touched. -/
theorem set_state_failure_atomic (w : World) (m : Machine) (t : Nat)
    (hfail : (rfm12_set_state w t m).1 = false) :
    (rfm12_set_state w t m).2 = m ∧
    (rfm12_set_state w t m).2.rfm12_state = m.rfm12_state ∧
    (rfm12_set_state w t m).2.cmds = m.cmds ∧
    (rfm12_set_state w t m).2.gpio = m.gpio := by
  have h : (rfm12_set_state w t m).2 = m := by
    rw [rfm12_set_state_eq] at hfail ⊢
    by_cases h1 : base m = t
    · rw [if_pos h1] at hfail; cases hfail
    · rw [if_neg h1] at hfail ⊢
      by_cases h2 : guard (base m) t = true
      · rw [if_pos h2] at hfail; cases hfail
      · rw [if_neg h2]
  rw [h]
  exact ⟨rfl, rfl, rfl, rfl⟩

/-- C2 at a concrete request: TxEnd asked to go to Tx, with the auto-relisten bit set. -/
theorem set_state_failure_atomic_witness :
    (rfm12_set_state (sendWorld 0 []) RFXX_STATE_TX (fresh 0x86)).2 = fresh 0x86 ∧
    (rfm12_set_state (sendWorld 0 []) RFXX_STATE_TX (fresh 0x86)).2.rfm12_state
      = (fresh 0x86).rfm12_state ∧
    (rfm12_set_state (sendWorld 0 []) RFXX_STATE_TX (fresh 0x86)).2.cmds = (fresh 0x86).cmds ∧
    (rfm12_set_state (sendWorld 0 []) RFXX_STATE_TX (fresh 0x86)).2.gpio = (fresh 0x86).gpio :=
  set_state_failure_atomic (sendWorld 0 []) (fresh 0x86) RFXX_STATE_TX (by decide)

/-- C7: the Listen dispatch rule.  A pass of the dispatcher in base state Listen whose status
read has FIFO-ready set runs to the end of the body, issues the status read and exactly one
FIFO read 0xB000 and nothing else, calls `rfm12_read_handler` exactly once, with the event
Start and the low 8 bits of the FIFO response, and ends in Rx with auto-relisten unchanged;
it calls no write handler and emits no diagnostic. -/
theorem listen_dispatch (w : World) (m : Machine) (hs : base m = RFXX_STATE_LISTEN)
    (hffit : response w m.cmds.length 0 &&& RFXX_FLAG_FFIT ≠ 0) :
    (handle_interrupt_body w m).1 = false ∧
    (handle_interrupt_body w m).2.cmds = m.cmds ++ [0x0000, 0xB000] ∧
    (handle_interrupt_body w m).2.reads =
      m.reads ++ [(RFXX_EV_START, response w (m.cmds.length + 1) 0xB000 &&& 0xff)] ∧
    base (handle_interrupt_body w m).2 = RFXX_STATE_RX ∧
    auto_relisten (handle_interrupt_body w m).2 = auto_relisten m ∧
    (handle_interrupt_body w m).2.writes = m.writes ∧
    (handle_interrupt_body w m).2.msgs = m.msgs := by
  rw [body_listen w m hs hffit]
  refine ⟨rfl, ?_, ?_, ?_, ?_, ?_, ?_⟩
  · simp [rfm12_read_handler]
  · simp [rfm12_read_handler]
  · exact base_of_state _ 2 m.rfm12_state (by decide) rfl
  · exact flag_of_state m _ 2 (by decide) rfl
  · simp [rfm12_read_handler]
  · simp [rfm12_read_handler]

/-- C7 at a concrete pass: Listen with auto-relisten set, chip answering all ones. -/
theorem listen_dispatch_witness :
    base (fresh 0x81) = RFXX_STATE_LISTEN ∧
    response abortWorld (fresh 0x81).cmds.length 0 &&& RFXX_FLAG_FFIT ≠ 0 ∧
    (handle_interrupt_body abortWorld (fresh 0x81)).2.cmds = [0x0000, 0xB000] ∧
    (handle_interrupt_body abortWorld (fresh 0x81)).2.reads = [(RFXX_EV_START, 0xff)] ∧
    base (handle_interrupt_body abortWorld (fresh 0x81)).2 = RFXX_STATE_RX ∧
    auto_relisten (handle_interrupt_body abortWorld (fresh 0x81)).2 = true :=
  have h := listen_dispatch abortWorld (fresh 0x81) (by decide) (by decide)
  ⟨by decide, by decide, h.2.1, h.2.2.1, h.2.2.2.1, h.2.2.2.2.1⟩

/-- C6: a pass in Rx with FIFO-ready set.  With `byte` the low 8 bits of the FIFO response,
`event` End when data-quality-detect is clear and Continue otherwise, and `cont` the answer of
`rfm12_read_handler event byte`: the switch computes target Idle exactly when
data-quality-detect is clear or `cont` is false, and Rx otherwise; the handler is called once;
the status read is followed by one FIFO read, and by the entry commands of Idle or Listen
when the target is Idle; the base state ends as Rx, or as Idle (Listen with auto-relisten)
when the target is Idle. -/
theorem rx_dispatch (w : World) (m : Machine) (hs : base m = RFXX_STATE_RX)
    (hffit : response w m.cmds.length 0 &&& RFXX_FLAG_FFIT ≠ 0) :
    let byte := response w (m.cmds.length + 1) 0xB000 &&& 0xff
    let event :=
      if response w m.cmds.length 0 &&& RFXX_FLAG_DQD = 0 then RFXX_EV_END else RFXX_EV_CONT
    let cont := w.read_handler m.reads.length event byte
    let target :=
      if response w m.cmds.length 0 &&& RFXX_FLAG_DQD = 0 ∨ cont = false then RFXX_STATE_IDLE
      else RFXX_STATE_RX
    (handle_interrupt_switch w (handle_interrupt_status w m).1 (base m)
        (handle_interrupt_status w m).2).1 = some target ∧
    (handle_interrupt_body w m).1 = false ∧
    (handle_interrupt_body w m).2.reads = m.reads ++ [(event, byte)] ∧
    (handle_interrupt_body w m).2.cmds =
      m.cmds ++ [0x0000, 0xB000] ++
        (if target = RFXX_STATE_IDLE then
          (if auto_relisten m then [0xCA81, 0xCA83] else [0x8201, 0xCA81])
         else []) ∧
    ((handle_interrupt_body w m).2.cmds.drop m.cmds.length).count 0xB000 = 1 ∧
    base (handle_interrupt_body w m).2 =
      (if target = RFXX_STATE_IDLE then
        (if auto_relisten m then RFXX_STATE_LISTEN else RFXX_STATE_IDLE)
       else RFXX_STATE_RX) ∧
    auto_relisten (handle_interrupt_body w m).2 = auto_relisten m := by
  intro byte event cont target
  have hev : rx_event w m = event := rfl
  have hrd1 : (rx_read w m).1 = cont := by
    simp [rx_read, rfm12_read_handler, hev, cont, byte]
  have hrdr : (rx_read w m).2.reads = m.reads ++ [(event, byte)] := by
    simp [rx_read, rfm12_read_handler, hev, byte]
  have hrdc : (rx_read w m).2.cmds = m.cmds ++ [0, 0xB000] := by
    simp [rx_read, rfm12_read_handler]
  have hrds : (rx_read w m).2.rfm12_state = m.rfm12_state := by
    simp [rx_read, rfm12_read_handler]
  have hsw := switch_rx_target w m hs hffit
  rw [hrd1] at hsw
  refine ⟨by rw [hsw], ?_⟩
  by_cases hend : response w m.cmds.length 0 &&& RFXX_FLAG_DQD = 0 ∨ cont = false
  · have ht : target = RFXX_STATE_IDLE := if_pos hend
    rw [body_rx_end w m hs hffit (by rw [hrd1]; exact hend), ht]
    have hcmds : ∀ cs : List Nat, ((m.cmds ++ [0, 0xB000] ++ cs).drop m.cmds.length)
        = [0, 0xB000] ++ cs := by
      intro cs; simp
    simp only [RFXX_STATE_IDLE, RFXX_STATE_RX, RFXX_STATE_LISTEN, if_true]
    by_cases hfl : m.rfm12_state &&& 128 = 0
    · have har : auto_relisten m = false := by simp [auto_relisten, hfl]
      have hred : redirect 0 m.rfm12_state = 0 := by simp [redirect, hfl]
      rw [hred, har]
      refine ⟨trivial, ?_, ?_, ?_, ?_, ?_⟩
      · simp [hrdr]
      · simp [hrdc, entry_cmds]
      · simp only [issue_cmds, hrdc, hcmds]; decide
      · exact base_of_state _ _ m.rfm12_state (by decide) rfl
      · rw [← har]; exact flag_of_state m _ _ (by decide) rfl
    · have har : auto_relisten m = true := by simp [auto_relisten, hfl]
      have hred : redirect 0 m.rfm12_state = 1 := by simp [redirect, hfl]
      rw [hred, har]
      refine ⟨trivial, ?_, ?_, ?_, ?_, ?_⟩
      · simp [hrdr]
      · simp [hrdc, entry_cmds]
      · simp only [issue_cmds, hrdc, hcmds]; decide
      · exact base_of_state _ _ m.rfm12_state (by decide) rfl
      · rw [← har]; exact flag_of_state m _ _ (by decide) rfl
  · have ht : target = RFXX_STATE_RX := if_neg hend
    have hdqd : response w m.cmds.length 0 &&& RFXX_FLAG_DQD ≠ 0 := fun h => hend (Or.inl h)
    have hcont : (rx_read w m).1 = true := by
      rw [hrd1]; cases hc : cont
      · exact absurd (Or.inr hc) hend
      · rfl
    rw [body_rx_continue w m hs hffit hdqd hcont, ht]
    refine ⟨rfl, hrdr, ?_, ?_, ?_, ?_⟩
    · simp [hrdc]
    · rw [hrdc]; simp
    · simp only [base, hrds]; simpa [base] using hs
    · simp only [auto_relisten, hrds]

/-- C6 at a concrete pass: Rx without auto-relisten, data-quality-detect still set, and a
handler that asks to stop. -/
theorem rx_dispatch_witness :
    base (fresh RFXX_STATE_RX) = RFXX_STATE_RX ∧
    response abortWorld (fresh RFXX_STATE_RX).cmds.length 0 &&& RFXX_FLAG_FFIT ≠ 0 ∧
    (handle_interrupt_body abortWorld (fresh RFXX_STATE_RX)).2.reads = [(RFXX_EV_CONT, 0xff)] ∧
    (handle_interrupt_body abortWorld (fresh RFXX_STATE_RX)).2.cmds
      = [0x0000, 0xB000, 0x8201, 0xCA81] ∧
    base (handle_interrupt_body abortWorld (fresh RFXX_STATE_RX)).2 = RFXX_STATE_IDLE :=
  have h := rx_dispatch abortWorld (fresh RFXX_STATE_RX) (by decide) (by decide)
  ⟨by decide, by decide, h.2.2.1, h.2.2.2.1, h.2.2.2.2.2.1⟩

/-- C8 (as stated, refuted): in Listen with FIFO-ready set and a read handler that returns
false for the Start event, the pass ends in Rx, with auto-relisten clear as well as set; it
does not end in Idle or Listen. -/
theorem start_abort_not_honoured :
    (abortWorld.read_handler 0 RFXX_EV_START 0xff = false ∧
      base (fresh RFXX_STATE_LISTEN) = RFXX_STATE_LISTEN ∧
      response abortWorld 0 0 &&& RFXX_FLAG_FFIT ≠ 0 ∧
      (handle_interrupt_body abortWorld (fresh RFXX_STATE_LISTEN)).2.reads
        = [(RFXX_EV_START, 0xff)] ∧
      base (handle_interrupt_body abortWorld (fresh RFXX_STATE_LISTEN)).2 = RFXX_STATE_RX) ∧
    (base (fresh 0x81) = RFXX_STATE_LISTEN ∧ auto_relisten (fresh 0x81) = true ∧
      base (handle_interrupt_body abortWorld (fresh 0x81)).2 = RFXX_STATE_RX) := by
  decide

/-- C8 (amended): in Listen with FIFO-ready set the answer of the read handler to the Start
event is ignored.  The pass is the same whatever the handler answers, and it ends in Rx with
auto-relisten unchanged. -/
theorem start_result_ignored (w : World) (m : Machine) (rh : Nat → Nat → Nat → Bool)
    (hs : base m = RFXX_STATE_LISTEN)
    (hffit : response w m.cmds.length 0 &&& RFXX_FLAG_FFIT ≠ 0) :
    handle_interrupt_body { w with read_handler := rh } m = handle_interrupt_body w m ∧
    base (handle_interrupt_body w m).2 = RFXX_STATE_RX ∧
    auto_relisten (handle_interrupt_body w m).2 = auto_relisten m := by
  have hresp : ∀ k c, response { w with read_handler := rh } k c = response w k c :=
    fun _ _ => rfl
  have hst : handle_interrupt_status { w with read_handler := rh } m
      = handle_interrupt_status w m := by
    simp only [handle_interrupt_status, rfm12_cmd]
  have hcmd : ∀ c M, rfm12_cmd { w with read_handler := rh } c M = rfm12_cmd w c M := by
    intro c M; simp only [rfm12_cmd]
  rw [body_listen { w with read_handler := rh } m hs (by rw [hresp]; exact hffit),
    body_listen w m hs hffit, hst, hcmd, hresp]
  refine ⟨?_, ?_, ?_⟩
  · simp [rfm12_read_handler]
  · exact base_of_state _ 2 m.rfm12_state (by decide) rfl
  · exact flag_of_state m _ 2 (by decide) rfl

/-- The amended C8 at a concrete pass: swapping the always-refusing handler for an
always-accepting one changes nothing. -/
theorem start_result_ignored_witness :
    handle_interrupt_body { abortWorld with read_handler := fun _ _ _ => true }
        (fresh RFXX_STATE_LISTEN)
      = handle_interrupt_body abortWorld (fresh RFXX_STATE_LISTEN) ∧
    base (handle_interrupt_body abortWorld (fresh RFXX_STATE_LISTEN)).2 = RFXX_STATE_RX ∧
    auto_relisten (handle_interrupt_body abortWorld (fresh RFXX_STATE_LISTEN)).2
      = auto_relisten (fresh RFXX_STATE_LISTEN) :=
  start_result_ignored abortWorld (fresh RFXX_STATE_LISTEN) (fun _ _ _ => true)
    (by decide) (by decide)

/-- C10: the status merge.  After one pass of the dispatcher, from any stored status and any
stored state, the stored status is the old one masked with the transient flags, or-ed with
the raw response to the status read; the mask is bits 14, 13, 12 and 11. -/
theorem status_merge (w : World) (m : Machine) :
    (handle_interrupt_body w m).2.rfm12_status =
      (m.rfm12_status &&& RFXX_TRANSIENT_FLAGS) ||| response w m.cmds.length 0 ∧
    RFXX_TRANSIENT_FLAGS = 0x7800 ∧
    RFXX_TRANSIENT_FLAGS = 2 ^ 14 + 2 ^ 13 + 2 ^ 12 + 2 ^ 11 ∧
    RFXX_TRANSIENT_FLAGS =
      RFXX_FLAG_POR ||| RFXX_FLAG_FFOV ||| RFXX_FLAG_WKUP ||| RFXX_FLAG_EXT := by
  refine ⟨?_, by decide, by decide, rfl⟩
  unfold handle_interrupt_body
  simp only []
  generalize hsw : handle_interrupt_switch w (handle_interrupt_status w m).1
    ((handle_interrupt_status w m).2.rfm12_state &&& (0xFF ^^^ RFXX_STATEFLAGS))
    (handle_interrupt_status w m).2 = r
  have hr : r.2.rfm12_status = (handle_interrupt_status w m).2.rfm12_status := by
    rw [← hsw]; exact switch_snd_status _ _ _ _
  rw [status_snd_status, rfm12_cmd_fst] at hr
  rcases r with ⟨_ | ns, M⟩
  · exact hr
  · show (handle_interrupt_commit w _ ns M).rfm12_status = _
    rw [commit_status]; exact hr

/-- C5: the resync path.  From Tx, with FIFO-space-available set in every status read and
`rfm12_write_handler` returning `RFXX_EV_TX_RESYNC`, the next four passes of the dispatcher
end in TxResync, TxSync0, TxSync1 and Tx; the pass from TxResync to TxSync0 issues the status
read and a single dummy byte, and the eight commands of the four passes contain no 0x8239;
auto-relisten is unchanged. -/
theorem resync_path (w : World) (m : Machine) (hs : base m = RFXX_STATE_TX)
    (hrgit : ∀ k, response w k 0 &&& RFXX_FLAG_RGIT ≠ 0)
    (hd : w.write_handler m.writes % 65536 = RFXX_EV_TX_RESYNC) :
    let m1 := (handle_interrupt_body w m).2
    let m2 := (handle_interrupt_body w m1).2
    let m3 := (handle_interrupt_body w m2).2
    let m4 := (handle_interrupt_body w m3).2
    [(handle_interrupt_body w m).1, (handle_interrupt_body w m1).1,
      (handle_interrupt_body w m2).1, (handle_interrupt_body w m3).1]
      = [false, false, false, false] ∧
    [base m1, base m2, base m3, base m4]
      = [RFXX_STATE_TX_RESYNC, RFXX_STATE_TX_SYNC0, RFXX_STATE_TX_SYNC1, RFXX_STATE_TX] ∧
    m2.cmds = m1.cmds ++ [0x0000, 0xB8AA] ∧
    m4.cmds = m.cmds ++ [0x0000, 0xB8AA, 0x0000, 0xB8AA, 0x0000, 0xB82D, 0x0000, 0xB8D4] ∧
    [auto_relisten m1, auto_relisten m2, auto_relisten m3, auto_relisten m4]
      = [auto_relisten m, auto_relisten m, auto_relisten m, auto_relisten m] ∧
    m4.msgs = m.msgs := by
  intro m1 m2 m3 m4
  have h1 := body_tx_resync_request w m hs (hrgit _) hd
  have hst1 : m1.rfm12_state = 7 ||| (m.rfm12_state &&& RFXX_STATEFLAGS) := by
    simp [m1, h1]
  have hb1 : base m1 = RFXX_STATE_TX_RESYNC := base_of_state m1 7 _ (by decide) hst1
  have hf1 : auto_relisten m1 = auto_relisten m := flag_of_state m m1 7 (by decide) hst1
  have hc1 : m1.cmds = m.cmds ++ [0, 0xB8AA] := by simp [m1, h1, rfm12_write_handler]
  have hm1 : m1.msgs = m.msgs := by simp [m1, h1, rfm12_write_handler]
  have h2 := body_tx_resync w m1 hb1 (hrgit _)
  have hst2 : m2.rfm12_state = 3 ||| (m1.rfm12_state &&& RFXX_STATEFLAGS) := by
    simp [m2, h2]
  have hb2 : base m2 = RFXX_STATE_TX_SYNC0 := base_of_state m2 3 _ (by decide) hst2
  have hf2 : auto_relisten m2 = auto_relisten m1 := flag_of_state m1 m2 3 (by decide) hst2
  have hc2 : m2.cmds = m1.cmds ++ [0, 0xB8AA] := by simp [m2, h2]
  have hm2 : m2.msgs = m1.msgs := by simp [m2, h2]
  have h3 := body_tx_sync0 w m2 hb2 (hrgit _)
  have hst3 : m3.rfm12_state = 4 ||| (m2.rfm12_state &&& RFXX_STATEFLAGS) := by
    simp [m3, h3]
  have hb3 : base m3 = RFXX_STATE_TX_SYNC1 := base_of_state m3 4 _ (by decide) hst3
  have hf3 : auto_relisten m3 = auto_relisten m2 := flag_of_state m2 m3 4 (by decide) hst3
  have hc3 : m3.cmds = m2.cmds ++ [0, 0xB82D] := by simp [m3, h3]
  have hm3 : m3.msgs = m2.msgs := by simp [m3, h3]
  have h4 := body_tx_sync1 w m3 hb3 (hrgit _)
  have hst4 : m4.rfm12_state = 5 ||| (m3.rfm12_state &&& RFXX_STATEFLAGS) := by
    simp [m4, h4]
  have hb4 : base m4 = RFXX_STATE_TX := base_of_state m4 5 _ (by decide) hst4
  have hf4 : auto_relisten m4 = auto_relisten m3 := flag_of_state m3 m4 5 (by decide) hst4
  have hc4 : m4.cmds = m3.cmds ++ [0, 0xB8D4] := by simp [m4, h4]
  have hm4 : m4.msgs = m3.msgs := by simp [m4, h4]
  refine ⟨?_, ?_, hc2, ?_, ?_, ?_⟩
  · rw [h1, h2, h3, h4]
  · rw [hb1, hb2, hb3, hb4]
  · rw [hc4, hc3, hc2, hc1]; simp
  · rw [hf4, hf3, hf2, hf1]
  · rw [hm4, hm3, hm2, hm1]

/-- C5 at a concrete run: Tx with auto-relisten set. -/
theorem resync_path_witness :
    base (fresh 0x85) = RFXX_STATE_TX ∧
    (∀ k, response resyncWorld k 0 &&& RFXX_FLAG_RGIT ≠ 0) ∧
    resyncWorld.write_handler (fresh 0x85).writes % 65536 = RFXX_EV_TX_RESYNC ∧
    [base (handle_interrupt_body resyncWorld (fresh 0x85)).2,
      base (handle_interrupt_body resyncWorld
        (handle_interrupt_body resyncWorld (fresh 0x85)).2).2,
      base (handle_interrupt_body resyncWorld (handle_interrupt_body resyncWorld
        (handle_interrupt_body resyncWorld (fresh 0x85)).2).2).2,
      base (handle_interrupt_body resyncWorld (handle_interrupt_body resyncWorld
        (handle_interrupt_body resyncWorld
          (handle_interrupt_body resyncWorld (fresh 0x85)).2).2).2).2]
      = [RFXX_STATE_TX_RESYNC, RFXX_STATE_TX_SYNC0, RFXX_STATE_TX_SYNC1, RFXX_STATE_TX] :=
  ⟨by decide, fun k => by rw [response_ones resyncWorld k 0 rfl]; decide, by decide,
    (resync_path resyncWorld (fresh 0x85) (by decide)
      (fun k => by rw [response_ones resyncWorld k 0 rfl]; decide) (by decide)).2.1⟩

/-- C3: the full transmit order.  From Idle with auto-relisten clear, with nIRQ low while the
packet is sent, FIFO-space-available set in every status read, and `rfm12_write_handler`
returning the bytes `bs` and then `RFXX_EV_TX_END`: the initial transition succeeds and
enters TxSync0; the base states at the end of the passes of the drain are TxSync1, Tx, Tx
once more for each byte, TxEnd, Idle, followed only by the pass in which the drain finds
itself in Idle and returns, if nIRQ is still low then; and `rfm12_send_packet` returns
success with the machine in Idle, for every fuel of at least `bs.length + 5`. -/
theorem full_transmit_order (w : World) (m0 : Machine) (bs : List Nat)
    (h0 : m0.rfm12_state = RFXX_STATE_IDLE)
    (hb : ∀ b ∈ bs, b < 256)
    (hrgit : ∀ k, response w k 0 &&& RFXX_FLAG_RGIT ≠ 0)
    (hirq : ∀ i, i < bs.length + 4 → w.NIRQ (m0.polls + i) = false)
    (hwr : ∀ i (h : i < bs.length), w.write_handler (m0.writes + i) = bs[i])
    (heot : w.write_handler (m0.writes + bs.length) = RFXX_EV_TX_END) :
    (rfm12_set_state w RFXX_STATE_TX_SYNC0 m0).1 = true ∧
    base (rfm12_set_state w RFXX_STATE_TX_SYNC0 m0).2 = RFXX_STATE_TX_SYNC0 ∧
    ∀ fuel, bs.length + 5 ≤ fuel →
      (handle_interrupt_trace w fuel (rfm12_set_state w RFXX_STATE_TX_SYNC0 m0).2).map base
        = [RFXX_STATE_TX_SYNC1, RFXX_STATE_TX] ++ List.replicate bs.length RFXX_STATE_TX ++
          [RFXX_STATE_TX_END, RFXX_STATE_IDLE] ++
          (if w.NIRQ (m0.polls + bs.length + 4) then [] else [RFXX_STATE_IDLE]) ∧
      ∃ mf, rfm12_send_packet w fuel m0 = some (true, mf) ∧ base mf = RFXX_STATE_IDLE := by
  have hbase0 : base m0 = 0 := by rw [base_eq, h0]; decide
  have hset := set_state_accept w RFXX_STATE_TX_SYNC0 m0 (by rw [hbase0]; decide)
    (by rw [hbase0]; decide)
  generalize hm1 : ({ issue w (entry_cmds (base m0) RFXX_STATE_TX_SYNC0) m0 with
    rfm12_state := RFXX_STATE_TX_SYNC0 ||| (m0.rfm12_state &&& RFXX_STATEFLAGS) } : Machine)
    = m1 at hset
  have hst1 : m1.rfm12_state = 3 := by rw [← hm1]; simp only [h0]; decide
  have hp1 : m1.polls = m0.polls := by rw [← hm1]; simp
  have hw1 : m1.writes = m0.writes := by rw [← hm1]; simp
  have hb1 : base m1 = RFXX_STATE_TX_SYNC0 := by rw [base_eq, hst1]; decide
  have hred : redirect RFXX_STATE_IDLE m1.rfm12_state = 0 := by rw [hst1]; decide
  obtain ⟨tr, M, hrun, htr, hstM, _, hpM, _⟩ := transmit_run w hrgit bs m1 hb1 hb
    (by rw [hp1]; exact hirq) (by rw [hw1]; exact hwr) (by rw [hw1]; exact heot)
  rw [hred] at htr hstM
  have hstM0 : M.rfm12_state = 0 := by rw [hstM, hst1]; decide
  have hbM : base M = RFXX_STATE_IDLE := by rw [base_eq, hstM0]; decide
  have hlen : tr.length = bs.length + 4 := by
    have := congrArg List.length htr
    simpa using this
  rw [hset]
  refine ⟨rfl, hb1, ?_⟩
  intro fuel hfuel
  obtain ⟨f, rfl⟩ : ∃ f, fuel = tr.length + (f + 1) := ⟨fuel - tr.length - 1, by omega⟩
  obtain ⟨⟨mf, hmf, hbmf, _⟩, htrM⟩ := drain_in_idle w f M hbM
  refine ⟨?_, mf, ?_, hbmf⟩
  · rw [runs_trace w hrun, List.map_append, htr, htrM, hpM, hp1]
    rfl
  · unfold rfm12_send_packet
    rw [hset]
    simp only []
    rw [runs_drain w hrun, hmf]

/-- C3 at a concrete run: a packet of three bytes, nIRQ low for exactly the seven passes. -/
theorem full_transmit_order_witness :
    (handle_interrupt_trace (sendWorld 7 [0x11, 0x22, 0x33]) 8
        (rfm12_set_state (sendWorld 7 [0x11, 0x22, 0x33]) RFXX_STATE_TX_SYNC0
          (fresh RFXX_STATE_IDLE)).2).map base
      = [RFXX_STATE_TX_SYNC1, RFXX_STATE_TX] ++
        List.replicate [0x11, 0x22, 0x33].length RFXX_STATE_TX ++
        [RFXX_STATE_TX_END, RFXX_STATE_IDLE] ++
        (if (sendWorld 7 [0x11, 0x22, 0x33]).NIRQ
            ((fresh RFXX_STATE_IDLE).polls + [0x11, 0x22, 0x33].length + 4)
          then [] else [RFXX_STATE_IDLE]) ∧
    ∃ mf, rfm12_send_packet (sendWorld 7 [0x11, 0x22, 0x33]) 8 (fresh RFXX_STATE_IDLE)
        = some (true, mf) ∧ base mf = RFXX_STATE_IDLE :=
  (full_transmit_order (sendWorld 7 [0x11, 0x22, 0x33]) (fresh RFXX_STATE_IDLE)
    [0x11, 0x22, 0x33] rfl (by decide)
    (fun k => by rw [response_ones (sendWorld 7 [0x11, 0x22, 0x33]) k 0 rfl]; decide)
    (by decide) (by decide) (by decide)).2.2 8 (by decide)

/-- C4: packet framing on the wire.  From Idle or Listen, with either value of auto-relisten,
nIRQ low while the packet is sent, FIFO-space-available set in every status read and
`rfm12_write_handler` returning the bytes `bs` and then `RFXX_EV_TX_END`: the
transmit-register writes issued by the initial transition and the `bs.length + 4` passes that
follow are 0xB8AA, 0xB8AA, 0xB82D, 0xB8D4, one word `0xB800 | b` for each byte in order, and
0xB8AA; and whenever `rfm12_send_packet` returns, these are all the transmit-register writes
it has issued. -/
theorem packet_framing (w : World) (m0 : Machine) (bs : List Nat)
    (h0 : base m0 = RFXX_STATE_IDLE ∨ base m0 = RFXX_STATE_LISTEN)
    (hb : ∀ b ∈ bs, b < 256)
    (hrgit : ∀ k, response w k 0 &&& RFXX_FLAG_RGIT ≠ 0)
    (hirq : ∀ i, i < bs.length + 4 → w.NIRQ (m0.polls + i) = false)
    (hwr : ∀ i (h : i < bs.length), w.write_handler (m0.writes + i) = bs[i])
    (heot : w.write_handler (m0.writes + bs.length) = RFXX_EV_TX_END) :
    (∃ tr M, Runs w (rfm12_set_state w RFXX_STATE_TX_SYNC0 m0).2 tr M ∧
      tr.length = bs.length + 4 ∧
      tx_writes M.cmds = tx_writes m0.cmds ++ [0xB8AA, 0xB8AA, 0xB82D, 0xB8D4] ++
        bs.map (fun b => 0xB800 ||| b) ++ [0xB8AA]) ∧
    (∀ fuel res mf, rfm12_send_packet w fuel m0 = some (res, mf) →
      res = true ∧
      tx_writes mf.cmds = tx_writes m0.cmds ++ [0xB8AA, 0xB8AA, 0xB82D, 0xB8D4] ++
        bs.map (fun b => 0xB800 ||| b) ++ [0xB8AA]) := by
  have hne : base m0 ≠ RFXX_STATE_TX_SYNC0 := by
    rcases h0 with h | h <;> rw [h] <;> decide
  have hg : guard (base m0) RFXX_STATE_TX_SYNC0 = true := by
    rcases h0 with h | h <;> rw [h] <;> decide
  have hec : entry_cmds (base m0) RFXX_STATE_TX_SYNC0 = [0xB8AA, 0xB8AA, 0x8239] := by
    rcases h0 with h | h <;> rw [h] <;> decide
  have hset := set_state_accept w RFXX_STATE_TX_SYNC0 m0 hne hg
  rw [hec] at hset
  generalize hm1 : ({ issue w [0xB8AA, 0xB8AA, 0x8239] m0 with
    rfm12_state := RFXX_STATE_TX_SYNC0 ||| (m0.rfm12_state &&& RFXX_STATEFLAGS) } : Machine)
    = m1 at hset
  have hst1 : m1.rfm12_state = 3 ||| (m0.rfm12_state &&& RFXX_STATEFLAGS) := by
    rw [← hm1]; rfl
  have hc1 : m1.cmds = m0.cmds ++ [0xB8AA, 0xB8AA, 0x8239] := by rw [← hm1]; simp
  have hp1 : m1.polls = m0.polls := by rw [← hm1]; simp
  have hw1 : m1.writes = m0.writes := by rw [← hm1]; simp
  have hb1 : base m1 = RFXX_STATE_TX_SYNC0 := base_of_state m1 3 _ (by decide) hst1
  obtain ⟨tr, M, hrun, htr, hstM, hcM, _, _⟩ := transmit_run w hrgit bs m1 hb1 hb
    (by rw [hp1]; exact hirq) (by rw [hw1]; exact hwr) (by rw [hw1]; exact heot)
  have hlen : tr.length = bs.length + 4 := by
    have := congrArg List.length htr
    simpa using this
  have hr := redirect_idle_cases m1.rfm12_state
  have hbM : base M ≤ 2 := by
    rw [base_of_state M _ m1.rfm12_state (redirect_lt 0 _ (by decide)) hstM]
    exact redirect_idle_le _
  have htx : tx_writes M.cmds = tx_writes m0.cmds ++ [0xB8AA, 0xB8AA, 0xB82D, 0xB8D4] ++
      bs.map (fun b => 0xB800 ||| b) ++ [0xB8AA] := by
    rw [hcM, hc1]
    simp only [tx_writes_append, tx_writes_data_cmds bs hb, tx_writes_entry_idle_listen _ _ hr]
    simp [tx_writes]
  rw [hset]
  refine ⟨⟨tr, M, hrun, hlen, htx⟩, ?_⟩
  intro fuel res mf hsend
  unfold rfm12_send_packet at hsend
  rw [hset] at hsend
  simp only [] at hsend
  by_cases hfuel : fuel ≤ tr.length
  · rw [runs_short w hrun fuel hfuel] at hsend
    cases hsend
  · obtain ⟨f, rfl⟩ : ∃ f, fuel = tr.length + f := ⟨fuel - tr.length, by omega⟩
    rw [runs_drain w hrun] at hsend
    cases hd : rfm12_handle_interrupt w f M with
    | none => rw [hd] at hsend; cases hsend
    | some mf' =>
      rw [hd] at hsend
      cases hsend
      exact ⟨rfl, by rw [receive_side_no_tx_writes w hrgit f M _ hbM hd, htx]⟩

/-- C4 at a concrete run: a packet of three bytes sent from Listen with auto-relisten set. -/
theorem packet_framing_witness :
    ∃ tr M, Runs (sendWorld 7 [0x11, 0x22, 0x33])
        (rfm12_set_state (sendWorld 7 [0x11, 0x22, 0x33]) RFXX_STATE_TX_SYNC0 (fresh 0x81)).2
        tr M ∧
      tr.length = [0x11, 0x22, 0x33].length + 4 ∧
      tx_writes M.cmds = tx_writes (fresh 0x81).cmds ++ [0xB8AA, 0xB8AA, 0xB82D, 0xB8D4] ++
        [0x11, 0x22, 0x33].map (fun b => 0xB800 ||| b) ++ [0xB8AA] :=
  (packet_framing (sendWorld 7 [0x11, 0x22, 0x33]) (fresh 0x81) [0x11, 0x22, 0x33]
    (Or.inr (by decide)) (by decide)
    (fun k => by rw [response_ones (sendWorld 7 [0x11, 0x22, 0x33]) k 0 rfl]; decide)
    (by decide) (by decide) (by decide)).1

/-- C9: auto-relisten after reception.  From Idle with auto-relisten set,
`rfm12_listen(true)` enters Listen, and a drain whose first status has FIFO-ready set, whose
second status has FIFO-ready set and data-quality-detect clear, and which then finds nIRQ
high, passes through Rx and returns in Listen, not Idle, with auto-relisten set.  More
generally, whenever the switch of a pass computes the target Idle while auto-relisten is set,
the pass ends in Listen. -/
theorem auto_relisten_after_reception (w : World) (m0 : Machine)
    (h0 : m0.rfm12_state = 0x80)
    (hirq0 : w.NIRQ m0.polls = false) (hirq1 : w.NIRQ (m0.polls + 1) = false)
    (hirq2 : w.NIRQ (m0.polls + 2) = true)
    (hs1 : response w (m0.cmds.length + 2) 0 &&& RFXX_FLAG_FFIT ≠ 0)
    (hs2 : response w (m0.cmds.length + 4) 0 &&& RFXX_FLAG_FFIT ≠ 0)
    (hq2 : response w (m0.cmds.length + 4) 0 &&& RFXX_FLAG_DQD = 0) :
    ((rfm12_listen w true m0).1 = true ∧
      base (rfm12_listen w true m0).2 = RFXX_STATE_LISTEN ∧
      ∀ fuel, 3 ≤ fuel →
        ∃ mf, rfm12_handle_interrupt w fuel (rfm12_listen w true m0).2 = some mf ∧
          base mf = RFXX_STATE_LISTEN ∧ auto_relisten mf = true ∧
          (handle_interrupt_trace w fuel (rfm12_listen w true m0).2).map base
            = [RFXX_STATE_RX, RFXX_STATE_LISTEN]) ∧
    (∀ (w' : World) (m M : Machine),
      handle_interrupt_switch w' (handle_interrupt_status w' m).1 (base m)
          (handle_interrupt_status w' m).2 = (some RFXX_STATE_IDLE, M) →
      auto_relisten m = true →
      (handle_interrupt_body w' m).1 = false ∧
      base (handle_interrupt_body w' m).2 = RFXX_STATE_LISTEN ∧
      auto_relisten (handle_interrupt_body w' m).2 = true) := by
  obtain ⟨hres, hst, _⟩ := listen_enable_from_idle w m0 h0
  refine ⟨⟨hres, ?_, ?_⟩, ?_⟩
  · rw [base_eq, hst]; decide
  · exact fun fuel hfuel =>
      receive_then_relisten w m0 h0 hirq0 hirq1 hirq2 hs1 hs2 hq2 fuel hfuel
  · exact fun w' m M hsw har => idle_target_relistens w' m M hsw har

/-- C9 at a concrete run: one reception of two bytes. -/
theorem auto_relisten_after_reception_witness :
    base (rfm12_listen receiveWorld true (fresh 0x80)).2 = RFXX_STATE_LISTEN ∧
    ∃ mf, rfm12_handle_interrupt receiveWorld 3 (rfm12_listen receiveWorld true (fresh 0x80)).2
        = some mf ∧
      base mf = RFXX_STATE_LISTEN ∧ auto_relisten mf = true ∧
      (handle_interrupt_trace receiveWorld 3
          (rfm12_listen receiveWorld true (fresh 0x80)).2).map base
        = [RFXX_STATE_RX, RFXX_STATE_LISTEN] :=
  have h := (auto_relisten_after_reception receiveWorld (fresh 0x80) rfl (by decide)
    (by decide) (by decide) (by decide) (by decide) (by decide)).1
  ⟨h.2.1, h.2.2 3 (by decide)⟩

/-- C11: status accumulation over a sequence of reads.  After `k` runs of the dispatcher's
loop body with no clear in between, each transient bit (bits 11 to 14) of the stored status
is the OR of that bit in the starting status and in all `k` raw status reads, and after at
least one run each other bit is that bit of the last raw read alone; merging the same raw
word twice gives the same stored status as merging it once; and after
`rfm12_clear_interrupts` the stored status is 0. -/
theorem status_accumulation (w : World) (m : Machine) :
    (∀ k, (status_reads w k m).length = k) ∧
    (∀ k i, RFXX_TRANSIENT_FLAGS.testBit i = true →
      (passes w k m).rfm12_status.testBit i =
        (m.rfm12_status.testBit i || (status_reads w k m).any (fun r => r.testBit i))) ∧
    (∀ k i, RFXX_TRANSIENT_FLAGS.testBit i = false →
      (passes w (k + 1) m).rfm12_status.testBit i =
        ((status_reads w (k + 1) m).getLastD 0).testBit i) ∧
    (∀ i, RFXX_TRANSIENT_FLAGS.testBit i = true ↔ i = 11 ∨ i = 12 ∨ i = 13 ∨ i = 14) ∧
    (response w (handle_interrupt_body w m).2.cmds.length 0 = response w m.cmds.length 0 →
      (handle_interrupt_body w (handle_interrupt_body w m).2).2.rfm12_status
        = (handle_interrupt_body w m).2.rfm12_status) ∧
    (∀ k, (rfm12_clear_interrupts (passes w k m)).rfm12_status = 0) := by
  refine ⟨?_, ?_, ?_, transient_bits, ?_, fun _ => rfl⟩
  · intro k
    induction k with
    | zero => rfl
    | succ k ih => simp [status_reads, ih]
  · intro k i hi
    induction k with
    | zero => simp [passes, status_reads]
    | succ k ih =>
      simp only [passes, status_reads]
      rw [body_status_testBit, ih, hi, List.any_append]
      simp [Bool.or_assoc]
  · intro k i hi
    simp only [passes, status_reads]
    rw [body_status_testBit, hi]
    simp
  · intro hr
    rw [body_status w (handle_interrupt_body w m).2, hr, body_status w m]
    apply Nat.eq_of_testBit_eq
    intro i
    simp only [Nat.testBit_or, Nat.testBit_and]
    cases m.rfm12_status.testBit i <;> cases RFXX_TRANSIENT_FLAGS.testBit i <;>
      cases (response w m.cmds.length 0).testBit i <;> rfl

/-- C11 at a concrete run: overflow reported by the first of two status reads and not by the
second is still stored after both. -/
theorem status_accumulation_witness :
    RFXX_TRANSIENT_FLAGS.testBit 13 = true ∧
    status_reads latchWorld 2 (fresh RFXX_STATE_LISTEN) = [0x2000, 0] ∧
    (passes latchWorld 2 (fresh RFXX_STATE_LISTEN)).rfm12_status.testBit 13 = true :=
  ⟨by decide, by decide,
    ((status_accumulation latchWorld (fresh RFXX_STATE_LISTEN)).2.1 2 13 (by decide)).trans
      (by decide)⟩

/-- C12 (as stated, refuted): the low-battery flag is not latched.  With low-battery set in
the stored status and clear in the next raw status read, it is clear in the stored status
after the pass. -/
theorem low_battery_not_latched :
    ({ fresh RFXX_STATE_LISTEN with rfm12_status := RFXX_FLAG_LBD } : Machine).rfm12_status
      &&& RFXX_FLAG_LBD ≠ 0 ∧
    response quietWorld 0 0 &&& RFXX_FLAG_LBD = 0 ∧
    (handle_interrupt_body quietWorld
      { fresh RFXX_STATE_LISTEN with rfm12_status := RFXX_FLAG_LBD }).2.rfm12_status
      &&& RFXX_FLAG_LBD = 0 := by
  decide

/-- C12 (amended): the FIFO-overflow/underrun flag (bit 13) is latched: for every stored
status in which it is set and every raw status read, it is still set in the stored status
after the merge of a pass, until `rfm12_clear_interrupts` stores 0.  The low-battery flag
(bit 10) is not latched: for every stored status, after the merge it is that bit of the raw
status read. -/
theorem overflow_latched_low_battery_level (w : World) (m : Machine) :
    (m.rfm12_status &&& RFXX_FLAG_FFOV ≠ 0 →
      (handle_interrupt_body w m).2.rfm12_status &&& RFXX_FLAG_FFOV ≠ 0) ∧
    (handle_interrupt_body w m).2.rfm12_status &&& RFXX_FLAG_LBD
      = response w m.cmds.length 0 &&& RFXX_FLAG_LBD ∧
    (rfm12_clear_interrupts (handle_interrupt_body w m).2).rfm12_status &&& RFXX_FLAG_FFOV
      = 0 := by
  have hT : RFXX_TRANSIENT_FLAGS = 30720 := by decide
  have hF : RFXX_FLAG_FFOV = 8192 := by decide
  have hL : RFXX_FLAG_LBD = 1024 := by decide
  refine ⟨?_, ?_, ?_⟩
  · intro hset
    rw [body_status, hT, hF, merged_ffov]
    rw [hF] at hset
    exact or_ne_zero_left hset
  · rw [body_status, hT, hL, merged_lbd]
  · show (0 : Nat) &&& RFXX_FLAG_FFOV = 0
    decide

/-- The amended C12 at concrete passes with the chip answering zero: overflow stored stays
stored, and low-battery stored (status 0x0400) is replaced by the bit of the raw read. -/
theorem overflow_latched_low_battery_level_witness :
    (({ fresh RFXX_STATE_LISTEN with rfm12_status := RFXX_FLAG_FFOV } : Machine).rfm12_status
        &&& RFXX_FLAG_FFOV ≠ 0 ∧
      (handle_interrupt_body quietWorld
        { fresh RFXX_STATE_LISTEN with rfm12_status := RFXX_FLAG_FFOV }).2.rfm12_status
        &&& RFXX_FLAG_FFOV ≠ 0) ∧
    (handle_interrupt_body quietWorld
        { fresh RFXX_STATE_LISTEN with rfm12_status := 0x0400 }).2.rfm12_status
        &&& RFXX_FLAG_LBD
      = response quietWorld 0 0 &&& RFXX_FLAG_LBD :=
  ⟨⟨by decide,
      (overflow_latched_low_battery_level quietWorld
        { fresh RFXX_STATE_LISTEN with rfm12_status := RFXX_FLAG_FFOV }).1 (by decide)⟩,
    (overflow_latched_low_battery_level quietWorld
      { fresh RFXX_STATE_LISTEN with rfm12_status := 0x0400 }).2.1⟩

/-- C13: the Tx dispatch rule.  A pass in base state Tx whose status read has
FIFO-space-available set runs to the end of the body, calls `rfm12_write_handler` exactly once
and keeps auto-relisten.  With `v` the value returned: if `v < 0x100` the pass issues, after
the status read, exactly the command `0xB800 | v` and the state stays Tx; if `v` is
`RFXX_EV_TX_END` the state becomes TxEnd, if it is `RFXX_EV_TX_RESYNC` the state becomes
TxResync, and in both cases the only command after the status read is the dummy 0xB8AA. -/
theorem tx_dispatch (w : World) (m : Machine) (hs : base m = RFXX_STATE_TX)
    (hrgit : response w m.cmds.length 0 &&& RFXX_FLAG_RGIT ≠ 0) :
    (handle_interrupt_body w m).1 = false ∧
    (handle_interrupt_body w m).2.writes = m.writes + 1 ∧
    auto_relisten (handle_interrupt_body w m).2 = auto_relisten m ∧
    (w.write_handler m.writes % 65536 < 0x100 →
      (handle_interrupt_body w m).2.cmds
        = m.cmds ++ [0x0000, 0xB800 ||| (w.write_handler m.writes % 65536)] ∧
      base (handle_interrupt_body w m).2 = RFXX_STATE_TX) ∧
    (w.write_handler m.writes % 65536 = RFXX_EV_TX_END →
      (handle_interrupt_body w m).2.cmds = m.cmds ++ [0x0000, 0xB8AA] ∧
      base (handle_interrupt_body w m).2 = RFXX_STATE_TX_END) ∧
    (w.write_handler m.writes % 65536 = RFXX_EV_TX_RESYNC →
      (handle_interrupt_body w m).2.cmds = m.cmds ++ [0x0000, 0xB8AA] ∧
      base (handle_interrupt_body w m).2 = RFXX_STATE_TX_RESYNC) := by
  obtain ⟨hret, hwr⟩ := body_tx_writes w m hs hrgit
  refine ⟨hret, hwr, auto_relisten_congr _ _ (body_flag w m), ?_, ?_, ?_⟩
  · intro hv
    have hd : tx_data w m &&& 0x100 = 0 := and_256_of_lt hv
    have hb := body_tx_byte w m hs hrgit hd
    rw [show tx_data w m &&& 0xff = w.write_handler m.writes % 65536 from and_255_of_lt hv]
      at hb
    rw [hb]
    refine ⟨by simp [rfm12_write_handler], ?_⟩
    have : (rfm12_cmd w (0xB800 ||| (w.write_handler m.writes % 65536))
        (rfm12_write_handler w (handle_interrupt_status w m).2).2).2.rfm12_state
        = m.rfm12_state := by simp [rfm12_write_handler]
    simp only [base, this]; exact hs
  · intro hv
    rw [body_tx_end_of_transfer w m hs hrgit hv]
    exact ⟨by simp [rfm12_write_handler], base_of_state _ 6 m.rfm12_state (by decide) rfl⟩
  · intro hv
    rw [body_tx_resync_request w m hs hrgit hv]
    exact ⟨by simp [rfm12_write_handler], base_of_state _ 7 m.rfm12_state (by decide) rfl⟩

/-- C13 at concrete passes: a data byte, and the end of the transfer. -/
theorem tx_dispatch_witness :
    (base (fresh RFXX_STATE_TX) = RFXX_STATE_TX ∧
      response (sendWorld 9 [0x42]) (fresh RFXX_STATE_TX).cmds.length 0 &&& RFXX_FLAG_RGIT ≠ 0 ∧
      (sendWorld 9 [0x42]).write_handler (fresh RFXX_STATE_TX).writes % 65536 < 0x100 ∧
      (handle_interrupt_body (sendWorld 9 [0x42]) (fresh RFXX_STATE_TX)).2.cmds
        = (fresh RFXX_STATE_TX).cmds ++
          [0x0000, 0xB800 ||| ((sendWorld 9 [0x42]).write_handler
            (fresh RFXX_STATE_TX).writes % 65536)]) ∧
    ((sendWorld 9 []).write_handler (fresh RFXX_STATE_TX).writes % 65536 = RFXX_EV_TX_END ∧
      base (handle_interrupt_body (sendWorld 9 []) (fresh RFXX_STATE_TX)).2
        = RFXX_STATE_TX_END) :=
  ⟨⟨by decide, by decide, by decide,
      ((tx_dispatch (sendWorld 9 [0x42]) (fresh RFXX_STATE_TX) (by decide)
        (by decide)).2.2.2.1 (by decide)).1⟩,
    ⟨by decide,
      ((tx_dispatch (sendWorld 9 []) (fresh RFXX_STATE_TX) (by decide)
        (by decide)).2.2.2.2.1 (by decide)).2⟩⟩

/-- C14: `rfm12_stop_receiving`.  From Rx it returns success and the base state becomes
Listen when auto-relisten is set and Idle when it is clear, with auto-relisten unchanged;
from every other base state it returns success and leaves the machine as it was: the stored
state is unchanged and no command is issued. -/
theorem stop_receiving_rule (w : World) (m : Machine) :
    (base m = RFXX_STATE_RX →
      (rfm12_stop_receiving w m).1 = true ∧
      base (rfm12_stop_receiving w m).2 =
        (if auto_relisten m then RFXX_STATE_LISTEN else RFXX_STATE_IDLE) ∧
      auto_relisten (rfm12_stop_receiving w m).2 = auto_relisten m) ∧
    (base m ≠ RFXX_STATE_RX →
      (rfm12_stop_receiving w m).1 = true ∧
      (rfm12_stop_receiving w m).2 = m ∧
      (rfm12_stop_receiving w m).2.rfm12_state = m.rfm12_state ∧
      (rfm12_stop_receiving w m).2.cmds = m.cmds) := by
  constructor
  · intro hs
    have hb : m.rfm12_state &&& (0xFF ^^^ RFXX_STATEFLAGS) = RFXX_STATE_RX := hs
    have hrec : rfm12_stop_receiving w m =
        rfm12_set_state w
          (if m.rfm12_state &&& RFXX_STATEFLAG_LISTEN ≠ 0 then RFXX_STATE_LISTEN
            else RFXX_STATE_IDLE) m := by
      unfold rfm12_stop_receiving
      simp only []
      exact if_pos hb
    rw [hrec]
    have hres := set_state_idle_listen w _ m (relisten_target_cases m)
    refine ⟨hres, ?_, auto_relisten_congr _ _ (set_state_flag w _ m)⟩
    rw [set_state_base w _ m hres]
    exact relisten_target m
  · intro hs
    have hb : ¬ m.rfm12_state &&& (0xFF ^^^ RFXX_STATEFLAGS) = RFXX_STATE_RX := hs
    have hrec : rfm12_stop_receiving w m = (true, m) := by
      unfold rfm12_stop_receiving
      simp only []
      exact if_neg hb
    rw [hrec]
    exact ⟨rfl, rfl, rfl, rfl⟩

/-- C14 at concrete calls: from Rx with auto-relisten set, and from Tx. -/
theorem stop_receiving_rule_witness :
    (base (fresh 0x82) = RFXX_STATE_RX ∧
      (rfm12_stop_receiving abortWorld (fresh 0x82)).1 = true ∧
      base (rfm12_stop_receiving abortWorld (fresh 0x82)).2 =
        (if auto_relisten (fresh 0x82) then RFXX_STATE_LISTEN else RFXX_STATE_IDLE)) ∧
    (base (fresh RFXX_STATE_TX) ≠ RFXX_STATE_RX ∧
      (rfm12_stop_receiving abortWorld (fresh RFXX_STATE_TX)).2 = fresh RFXX_STATE_TX) :=
  ⟨⟨by decide,
      ((stop_receiving_rule abortWorld (fresh 0x82)).1 (by decide)).1,
      ((stop_receiving_rule abortWorld (fresh 0x82)).1 (by decide)).2.1⟩,
    ⟨by decide,
      ((stop_receiving_rule abortWorld (fresh RFXX_STATE_TX)).2 (by decide)).2.1⟩⟩

/-- C15: `rfm12_stop_sending`.  From every stored state it returns success, and afterwards
the base state is Listen if auto-relisten is set and Idle if it is clear, with auto-relisten
unchanged. -/
theorem stop_sending_rule (w : World) (m : Machine) :
    (rfm12_stop_sending w m).1 = true ∧
    base (rfm12_stop_sending w m).2 =
      (if auto_relisten m then RFXX_STATE_LISTEN else RFXX_STATE_IDLE) ∧
    auto_relisten (rfm12_stop_sending w m).2 = auto_relisten m := by
  have hsend : rfm12_stop_sending w m =
      rfm12_set_state w
        (if m.rfm12_state &&& RFXX_STATEFLAG_LISTEN ≠ 0 then RFXX_STATE_LISTEN
          else RFXX_STATE_IDLE) m := rfl
  rw [hsend]
  have hres := set_state_idle_listen w _ m (relisten_target_cases m)
  refine ⟨hres, ?_, auto_relisten_congr _ _ (set_state_flag w _ m)⟩
  rw [set_state_base w _ m hres]
  exact relisten_target m

/-- C16: `rfm12_listen`.  `listen(true)` returns success and leaves auto-relisten set; from
Idle it is the transition to Listen and the base state becomes Listen, from every other base
state the base state is unchanged and no command is issued.  `listen(false)` returns success
and leaves auto-relisten clear; from Listen it is the transition to Idle and the base state
becomes Idle, from every other base state the base state is unchanged and no command is
issued. -/
theorem listen_rule (w : World) (m : Machine) :
    ((rfm12_listen w true m).1 = true ∧
      auto_relisten (rfm12_listen w true m).2 = true ∧
      (base m = RFXX_STATE_IDLE →
        rfm12_listen w true m = rfm12_set_state w RFXX_STATE_LISTEN
          { m with rfm12_state := m.rfm12_state ||| RFXX_STATEFLAG_LISTEN } ∧
        base (rfm12_listen w true m).2 = RFXX_STATE_LISTEN) ∧
      (base m ≠ RFXX_STATE_IDLE →
        base (rfm12_listen w true m).2 = base m ∧
        (rfm12_listen w true m).2.cmds = m.cmds ∧
        (rfm12_listen w true m).2.gpio = m.gpio)) ∧
    ((rfm12_listen w false m).1 = true ∧
      auto_relisten (rfm12_listen w false m).2 = false ∧
      (base m = RFXX_STATE_LISTEN →
        rfm12_listen w false m = rfm12_set_state w RFXX_STATE_IDLE
          { m with rfm12_state := m.rfm12_state &&& (0xFF ^^^ RFXX_STATEFLAG_LISTEN) } ∧
        base (rfm12_listen w false m).2 = RFXX_STATE_IDLE) ∧
      (base m ≠ RFXX_STATE_LISTEN →
        base (rfm12_listen w false m).2 = base m ∧
        (rfm12_listen w false m).2.cmds = m.cmds ∧
        (rfm12_listen w false m).2.gpio = m.gpio)) := by
  have hon : auto_relisten { m with rfm12_state := m.rfm12_state ||| RFXX_STATEFLAG_LISTEN }
      = true := by
    simp only [auto_relisten, RFXX_STATEFLAG_LISTEN, or_128_and_128]; decide
  have hoff : auto_relisten
      { m with rfm12_state := m.rfm12_state &&& (0xFF ^^^ RFXX_STATEFLAG_LISTEN) } = false := by
    simp only [auto_relisten, RFXX_STATEFLAG_LISTEN, xor_255_128, and_127_and_128]; decide
  constructor
  · rw [listen_enable_eq]
    by_cases hs : base m = RFXX_STATE_IDLE
    · rw [if_pos hs]
      have hres := set_state_idle_listen w RFXX_STATE_LISTEN
        { m with rfm12_state := m.rfm12_state ||| RFXX_STATEFLAG_LISTEN } (Or.inr rfl)
      refine ⟨hres, ?_, fun _ => ⟨rfl, set_state_base w _ _ hres⟩, fun h => absurd hs h⟩
      rw [auto_relisten_congr _ _ (set_state_flag w _ _), hon]
    · rw [if_neg hs]
      refine ⟨rfl, hon, fun h => absurd h hs, fun _ => ⟨?_, rfl, rfl⟩⟩
      simp only [base_eq, RFXX_STATEFLAG_LISTEN, or_128_and_127]
  · rw [listen_disable_eq]
    by_cases hs : base m = RFXX_STATE_LISTEN
    · rw [if_pos hs]
      have hres := set_state_idle_listen w RFXX_STATE_IDLE
        { m with rfm12_state := m.rfm12_state &&& (0xFF ^^^ RFXX_STATEFLAG_LISTEN) }
        (Or.inl rfl)
      refine ⟨hres, ?_, fun _ => ⟨rfl, set_state_base w _ _ hres⟩, fun h => absurd hs h⟩
      rw [auto_relisten_congr _ _ (set_state_flag w _ _), hoff]
    · rw [if_neg hs]
      refine ⟨rfl, hoff, fun h => absurd h hs, fun _ => ⟨?_, rfl, rfl⟩⟩
      simp only [base_eq, RFXX_STATEFLAG_LISTEN, xor_255_128, and_127_and_127]

/-- C16 at concrete calls: enabling from Idle, enabling from Tx, disabling from Listen. -/
theorem listen_rule_witness :
    (base (fresh RFXX_STATE_IDLE) = RFXX_STATE_IDLE ∧
      base (rfm12_listen abortWorld true (fresh RFXX_STATE_IDLE)).2 = RFXX_STATE_LISTEN) ∧
    (base (fresh RFXX_STATE_TX) ≠ RFXX_STATE_IDLE ∧
      base (rfm12_listen abortWorld true (fresh RFXX_STATE_TX)).2 = base (fresh RFXX_STATE_TX) ∧
      (rfm12_listen abortWorld true (fresh RFXX_STATE_TX)).2.cmds
        = (fresh RFXX_STATE_TX).cmds) ∧
    (base (fresh 0x81) = RFXX_STATE_LISTEN ∧
      base (rfm12_listen abortWorld false (fresh 0x81)).2 = RFXX_STATE_IDLE) :=
  ⟨⟨by decide,
      ((listen_rule abortWorld (fresh RFXX_STATE_IDLE)).1.2.2.1 (by decide)).2⟩,
    ⟨by decide,
      ((listen_rule abortWorld (fresh RFXX_STATE_TX)).1.2.2.2 (by decide)).1,
      ((listen_rule abortWorld (fresh RFXX_STATE_TX)).1.2.2.2 (by decide)).2.1⟩,
    ⟨by decide,
      ((listen_rule abortWorld (fresh 0x81)).2.2.2.1 (by decide)).2⟩⟩

/-- C17: the result of `rfm12_send_packet`.  The call is the transition to TxSync0 followed
by one drain of the machine the transition leaves, and whenever it returns, its result is the
result of that transition, whatever the drain did.  The transition fails from Rx, TxSync1, Tx
and TxEnd, leaving the machine as it was, and succeeds from Idle, Listen and TxResync.  If
nIRQ is high at some sample from the call on, the call returns for every fuel above the
number of samples before it. -/
theorem send_packet_result (w : World) (m : Machine) :
    (∀ fuel, rfm12_send_packet w fuel m =
      (rfm12_handle_interrupt w fuel (rfm12_set_state w RFXX_STATE_TX_SYNC0 m).2).map
        (fun mf => ((rfm12_set_state w RFXX_STATE_TX_SYNC0 m).1, mf))) ∧
    (∀ fuel res mf, rfm12_send_packet w fuel m = some (res, mf) →
      res = (rfm12_set_state w RFXX_STATE_TX_SYNC0 m).1) ∧
    (base m = RFXX_STATE_RX ∨ base m = RFXX_STATE_TX_SYNC1 ∨ base m = RFXX_STATE_TX ∨
        base m = RFXX_STATE_TX_END →
      (rfm12_set_state w RFXX_STATE_TX_SYNC0 m).1 = false ∧
      (rfm12_set_state w RFXX_STATE_TX_SYNC0 m).2 = m) ∧
    (base m = RFXX_STATE_IDLE ∨ base m = RFXX_STATE_LISTEN ∨ base m = RFXX_STATE_TX_RESYNC →
      (rfm12_set_state w RFXX_STATE_TX_SYNC0 m).1 = true) ∧
    (∀ j, w.NIRQ (m.polls + j) = true → ∀ fuel, j < fuel →
      ∃ mf, rfm12_send_packet w fuel m
        = some ((rfm12_set_state w RFXX_STATE_TX_SYNC0 m).1, mf)) := by
  refine ⟨fun fuel => send_packet_eq w fuel m, ?_, ?_, ?_, ?_⟩
  · intro fuel res mf h
    rw [send_packet_eq] at h
    cases hd : rfm12_handle_interrupt w fuel (rfm12_set_state w RFXX_STATE_TX_SYNC0 m).2 with
    | none => rw [hd] at h; cases h
    | some mf' => rw [hd] at h; cases h; rfl
  · intro hs
    have hne : base m ≠ RFXX_STATE_TX_SYNC0 := by
      rcases hs with h | h | h | h <;> rw [h] <;> decide
    have hg : guard (base m) RFXX_STATE_TX_SYNC0 = false := by
      rcases hs with h | h | h | h <;> rw [h] <;> decide
    rw [set_state_refuse w _ m hne hg]
    exact ⟨rfl, rfl⟩
  · intro hs
    have hne : base m ≠ RFXX_STATE_TX_SYNC0 := by
      rcases hs with h | h | h <;> rw [h] <;> decide
    have hg : guard (base m) RFXX_STATE_TX_SYNC0 = true := by
      rcases hs with h | h | h <;> rw [h] <;> decide
    rw [set_state_accept w _ m hne hg]
  · intro j hj fuel hf
    have hp : (rfm12_set_state w RFXX_STATE_TX_SYNC0 m).2.polls = m.polls :=
      set_state_snd_polls w _ m
    obtain ⟨mf, hmf⟩ := drain_terminates w j (rfm12_set_state w RFXX_STATE_TX_SYNC0 m).2
      (by rw [hp]; exact hj) fuel hf
    exact ⟨mf, by rw [send_packet_eq, hmf]; rfl⟩

/-- C17 at concrete calls: from Rx the transition fails, from Listen it succeeds, and with
nIRQ high at the first sample the call returns with that result. -/
theorem send_packet_result_witness :
    (base (fresh RFXX_STATE_RX) = RFXX_STATE_RX ∧
      (rfm12_set_state (sendWorld 0 []) RFXX_STATE_TX_SYNC0 (fresh RFXX_STATE_RX)).1 = false ∧
      (rfm12_set_state (sendWorld 0 []) RFXX_STATE_TX_SYNC0 (fresh RFXX_STATE_RX)).2
        = fresh RFXX_STATE_RX) ∧
    (base (fresh RFXX_STATE_LISTEN) = RFXX_STATE_LISTEN ∧
      (rfm12_set_state (sendWorld 0 []) RFXX_STATE_TX_SYNC0 (fresh RFXX_STATE_LISTEN)).1
        = true) ∧
    ((sendWorld 0 []).NIRQ ((fresh RFXX_STATE_RX).polls + 0) = true ∧
      ∃ mf, rfm12_send_packet (sendWorld 0 []) 1 (fresh RFXX_STATE_RX)
        = some ((rfm12_set_state (sendWorld 0 []) RFXX_STATE_TX_SYNC0
            (fresh RFXX_STATE_RX)).1, mf)) :=
  ⟨⟨by decide,
      (send_packet_result (sendWorld 0 []) (fresh RFXX_STATE_RX)).2.2.1 (Or.inl (by decide))⟩,
    ⟨by decide,
      (send_packet_result (sendWorld 0 []) (fresh RFXX_STATE_LISTEN)).2.2.2.1
        (Or.inr (Or.inl (by decide)))⟩,
    ⟨by decide,
      (send_packet_result (sendWorld 0 []) (fresh RFXX_STATE_RX)).2.2.2.2 0 (by decide) 1
        (by decide)⟩⟩

/-- C18: the bit-link exchange.  For every 16-bit command word `c`, in every world (so for
every sequence of levels sampled on the data-out line), `rfm12_cmd` appends to the GPIO history
the writes `ops`: clock low, select low, then sixteen pulses (data-in level, clock toggle, clock
toggle), then select high.  During pulse `i` the data-in line carries bit `15 - i` of `c`
(most significant bit first), the clock rises and falls once; the clock is toggled exactly 32
times and is low at the end; select is low from its falling edge through the sixteen pulses and
high afterwards.  Bit `15 - i` of the returned word is the level sampled on data-out in pulse
`i`, the returned word fits in 16 bits, and no field of the machine other than the GPIO history
and the record of the words sent changes: in particular the stored status and the stored state
are unchanged.  If data-out echoes data-in at every sample, the returned word is `c`. -/
theorem bit_link_exchange (w : World) (c : Nat) (m : Machine) (hc : c < 65536) :
    ∃ ops : List GpioOp,
      (rfm12_cmd w c m).2.gpio = m.gpio ++ ops ∧
      ops = [GpioOp.LOW Pin.SCK, GpioOp.LOW Pin.SEL] ++
        pulse_ops ((List.range 16).map fun i => c.testBit (15 - i)) ++ [GpioOp.HI Pin.SEL] ∧
      (∀ i, i < 16 → ∀ k, 1 ≤ k → k ≤ 3 → ∀ b,
        port_level Pin.SDI b (ops.take (2 + 3 * i + k)) = c.testBit (15 - i)) ∧
      (∀ i, i < 16 → ∀ b,
        port_level Pin.SCK b (ops.take (2 + 3 * i + 1)) = false ∧
        port_level Pin.SCK b (ops.take (2 + 3 * i + 2)) = true ∧
        port_level Pin.SCK b (ops.take (2 + 3 * i + 3)) = false) ∧
      ops.count (GpioOp.TOGGLE Pin.SCK) = 32 ∧
      (∀ b, port_level Pin.SCK b ops = false) ∧
      (∀ n, 2 ≤ n → n ≤ 50 → ∀ b, port_level Pin.SEL b (ops.take n) = false) ∧
      (∀ b, port_level Pin.SEL b ops = true) ∧
      (∀ i, i < 16 → (rfm12_cmd w c m).1.testBit (15 - i) =
        w.SDO m.cmds.length ((List.range (i + 1)).map fun j => c.testBit (15 - j))) ∧
      (rfm12_cmd w c m).1 < 65536 ∧
      (rfm12_cmd w c m).2.rfm12_status = m.rfm12_status ∧
      (rfm12_cmd w c m).2.rfm12_state = m.rfm12_state ∧
      (rfm12_cmd w c m).2.cmds = m.cmds ++ [c] ∧
      (rfm12_cmd w c m).2.reads = m.reads ∧
      (rfm12_cmd w c m).2.writes = m.writes ∧
      (rfm12_cmd w c m).2.polls = m.polls ∧
      (rfm12_cmd w c m).2.msgs = m.msgs ∧
      ((∀ i, i < 16 →
          w.SDO m.cmds.length ((List.range (i + 1)).map fun j => c.testBit (15 - j))
            = c.testBit (15 - i)) →
        (rfm12_cmd w c m).1 = c) := by
  have hlen : ((List.range 16).map fun i => c.testBit (15 - i)).length = 16 := by simp
  have hP : (pulse_ops ((List.range 16).map fun i => c.testBit (15 - i))).length = 48 := by
    rw [pulse_ops_length, hlen]
  have htake : ∀ n, 2 ≤ n → n ≤ 50 →
      ([GpioOp.LOW Pin.SCK, GpioOp.LOW Pin.SEL] ++
        pulse_ops ((List.range 16).map fun i => c.testBit (15 - i)) ++
          [GpioOp.HI Pin.SEL]).take n =
      [GpioOp.LOW Pin.SCK, GpioOp.LOW Pin.SEL] ++
        (pulse_ops ((List.range 16).map fun i => c.testBit (15 - i))).take (n - 2) :=
    fun n h2 hn => exchange_take _ _ n h2 (by rw [hP]; omega)
  have hbit : ∀ i, i < 16 →
      (response w m.cmds.length c).testBit (15 - i) =
        w.SDO m.cmds.length ((List.range (i + 1)).map fun j => c.testBit (15 - j)) :=
    fun i hi => response_testBit w _ c hc i hi
  refine ⟨_, rfm12_cmd_gpio w c m hc, rfl, ?_, ?_, ?_, ?_, ?_, ?_, ?_, ?_, ?_, ?_, ?_, ?_, ?_,
    ?_, ?_, ?_⟩
  · intro i hi k h1 hk b
    rw [htake _ (by omega) (by omega), port_level_append]
    have h3 : 2 + 3 * i + k - 2 = 3 * i + k := by omega
    rw [h3, port_level_pulse_sdi _ i k (by rw [hlen]; exact hi) h1 hk,
      range_map_getD _ _ _ hi]
  · intro i hi b
    have hs : ∀ k, k ≤ 3 →
        port_level Pin.SCK b
          (([GpioOp.LOW Pin.SCK, GpioOp.LOW Pin.SEL] ++
            pulse_ops ((List.range 16).map fun i => c.testBit (15 - i)) ++
              [GpioOp.HI Pin.SEL]).take (2 + 3 * i + k)) =
        port_level Pin.SCK false (([GpioOp.LOW Pin.SDI, GpioOp.TOGGLE Pin.SCK,
          GpioOp.TOGGLE Pin.SCK] : List GpioOp).take k) := by
      intro k hk
      rw [htake _ (by omega) (by omega), port_level_append, port_level_head]
      have h3 : 2 + 3 * i + k - 2 = 3 * i + k := by omega
      rw [h3, port_level_pulse_sck _ i k (by rw [hlen]; exact hi) hk]
      simp
    refine ⟨?_, ?_, ?_⟩
    · rw [hs 1 (by omega)]; decide
    · rw [hs 2 (by omega)]; decide
    · rw [hs 3 (by omega)]; decide
  · rw [List.count_append, List.count_append, pulse_ops_count, hlen]
    decide
  · intro b
    rw [port_level_append, port_level_append, port_level_head, port_level_sck_pulses]
    simp [port_level, apply_op]
  · intro n h2 hn b
    rw [htake n h2 hn, port_level_append, port_level_head]
    simp only [or_true, if_true]
    exact port_level_sel _ (fun op hop => pulse_ops_mem _ op (List.mem_of_mem_take hop)) false
  · intro b
    rw [port_level_append]
    simp [port_level, apply_op]
  · intro i hi
    rw [rfm12_cmd_fst]
    exact hbit i hi
  · rw [rfm12_cmd_fst]
    exact response_lt w _ c
  · simp only [rfm12_cmd]
  · simp only [rfm12_cmd]
  · simp only [rfm12_cmd]
  · simp only [rfm12_cmd]
  · simp only [rfm12_cmd]
  · simp only [rfm12_cmd]
  · simp only [rfm12_cmd]
  · intro hecho
    rw [rfm12_cmd_fst]
    apply Nat.eq_of_testBit_eq
    intro j
    by_cases hj : j < 16
    · have h := hbit (15 - j) (by omega)
      have hjj : 15 - (15 - j) = j := by omega
      rw [hjj] at h
      rw [h, hecho (15 - j) (by omega), hjj]
    · have h16 : (65536 : Nat) = 2 ^ 16 := by norm_num
      have hle : 2 ^ 16 ≤ 2 ^ j := Nat.pow_le_pow_right (by norm_num) (by omega)
      rw [Nat.testBit_lt_two_pow (lt_of_lt_of_le (h16 ▸ response_lt w m.cmds.length c) hle),
        Nat.testBit_lt_two_pow (lt_of_lt_of_le (h16 ▸ hc) hle)]

/-- C18 at a concrete exchange: the word `0xB8AA` sent from a fresh machine to a chip whose
data-out line echoes data-in comes back unchanged, with the first data-in level high. -/
theorem bit_link_exchange_witness :
    (0xB8AA : Nat) < 65536 ∧
    (rfm12_cmd echoWorld 0xB8AA (fresh RFXX_STATE_IDLE)).1 = 0xB8AA ∧
    (rfm12_cmd echoWorld 0xB8AA (fresh RFXX_STATE_IDLE)).2.rfm12_state = RFXX_STATE_IDLE :=
  match bit_link_exchange echoWorld 0xB8AA (fresh RFXX_STATE_IDLE) (by decide) with
  | ⟨_, h⟩ =>
    ⟨by decide,
      h.2.2.2.2.2.2.2.2.2.2.2.2.2.2.2.2.2 (by decide),
      h.2.2.2.2.2.2.2.2.2.2.2.1⟩

/-- C19: `rfm12_init`.  From every stored status and state it issues the twelve configuration
words 0x80D7, 0x8201, 0xA640, 0xC647, 0x94A0, 0xC2AC, 0xCA81, 0xC483, 0x9850, 0xE000, 0xC800,
0xC400 in that order and no other command, calls no handler and emits no diagnostic, and
leaves the stored status 0 and the state Idle with auto-relisten clear. -/
theorem init_rule (w : World) (m : Machine) :
    (rfm12_init w m).cmds = m.cmds ++
      [0x80D7, 0x8201, 0xA640, 0xC647, 0x94A0, 0xC2AC, 0xCA81, 0xC483, 0x9850, 0xE000, 0xC800,
        0xC400] ∧
    (rfm12_init w m).rfm12_status = 0 ∧
    (rfm12_init w m).rfm12_state = RFXX_STATE_IDLE ∧
    base (rfm12_init w m) = RFXX_STATE_IDLE ∧
    auto_relisten (rfm12_init w m) = false ∧
    (rfm12_init w m).reads = m.reads ∧
    (rfm12_init w m).writes = m.writes ∧
    (rfm12_init w m).msgs = m.msgs := by
  rw [rfm12_init_eq]
  refine ⟨?_, rfl, rfl, ?_, ?_, ?_, ?_, ?_⟩
  · exact issue_cmds w _ _
  · simp only [base_eq]; decide
  · simp [auto_relisten]
  · exact issue_reads w _ _
  · exact issue_writes w _ _
  · exact issue_msgs w _ _

/-- C20: auto-relisten is independent of the base state.  `rfm12_set_state` (successful or
not), `rfm12_send_packet`, `rfm12_stop_sending`, `rfm12_stop_receiving`,
`rfm12_clear_interrupts`, every pass of the dispatcher and every drain leave auto-relisten as
it was, and a drain or a `rfm12_send_packet` that meets nIRQ high does return, with
auto-relisten as it was; a successful `rfm12_set_state(t)` leaves the base state `t`;
`rfm12_listen(enable)` leaves auto-relisten equal to `enable`, and `rfm12_init` leaves it
clear. -/
theorem auto_relisten_frame (w : World) (m : Machine) :
    (∀ t, auto_relisten (rfm12_set_state w t m).2 = auto_relisten m) ∧
    (∀ t, (rfm12_set_state w t m).1 = true → base (rfm12_set_state w t m).2 = t) ∧
    (∀ fuel res mf, rfm12_send_packet w fuel m = some (res, mf) →
      auto_relisten mf = auto_relisten m) ∧
    auto_relisten (rfm12_stop_sending w m).2 = auto_relisten m ∧
    auto_relisten (rfm12_stop_receiving w m).2 = auto_relisten m ∧
    auto_relisten (rfm12_clear_interrupts m) = auto_relisten m ∧
    auto_relisten (handle_interrupt_body w m).2 = auto_relisten m ∧
    (∀ fuel mf, rfm12_handle_interrupt w fuel m = some mf →
      auto_relisten mf = auto_relisten m) ∧
    (∀ j, w.NIRQ (m.polls + j) = true → ∀ fuel, j < fuel →
      (∃ mf, rfm12_handle_interrupt w fuel m = some mf ∧
        auto_relisten mf = auto_relisten m) ∧
      (∃ res mf, rfm12_send_packet w fuel m = some (res, mf) ∧
        auto_relisten mf = auto_relisten m)) ∧
    (∀ enable, auto_relisten (rfm12_listen w enable m).2 = enable) ∧
    auto_relisten (rfm12_init w m) = false := by
  have hsend : ∀ fuel res mf, rfm12_send_packet w fuel m = some (res, mf) →
      auto_relisten mf = auto_relisten m := by
    intro fuel res mf h
    rw [send_packet_eq] at h
    cases hd : rfm12_handle_interrupt w fuel (rfm12_set_state w RFXX_STATE_TX_SYNC0 m).2 with
    | none => rw [hd] at h; cases h
    | some mf' =>
      rw [hd] at h; cases h
      rw [auto_relisten_congr _ _ (drain_flag w fuel _ _ hd)]
      exact auto_relisten_congr _ _ (set_state_flag w _ m)
  refine ⟨fun t => auto_relisten_congr _ _ (set_state_flag w t m),
    fun t h => set_state_base w t m h, hsend, (stop_sending_flag w m), ?_, rfl,
    auto_relisten_congr _ _ (body_flag w m),
    fun fuel mf h => auto_relisten_congr _ _ (drain_flag w fuel m mf h), ?_, ?_, ?_⟩
  · unfold rfm12_stop_receiving
    simp only []
    split_ifs
    · exact auto_relisten_congr _ _ (set_state_flag w _ m)
    · exact auto_relisten_congr _ _ (set_state_flag w _ m)
    · exact auto_relisten_congr _ _ rfl
  · intro j hj fuel hf
    constructor
    · obtain ⟨mf, hmf⟩ := drain_terminates w j m hj fuel hf
      exact ⟨mf, hmf, auto_relisten_congr _ _ (drain_flag w fuel m mf hmf)⟩
    · have hp : (rfm12_set_state w RFXX_STATE_TX_SYNC0 m).2.polls = m.polls :=
        set_state_snd_polls w _ m
      obtain ⟨mf, hmf⟩ := drain_terminates w j (rfm12_set_state w RFXX_STATE_TX_SYNC0 m).2
        (by rw [hp]; exact hj) fuel hf
      have hs : rfm12_send_packet w fuel m
          = some ((rfm12_set_state w RFXX_STATE_TX_SYNC0 m).1, mf) := by
        rw [send_packet_eq, hmf]; rfl
      exact ⟨_, mf, hs, hsend fuel _ mf hs⟩
  · intro enable
    cases enable
    · exact (listen_flag w m).2
    · exact (listen_flag w m).1
  · rw [rfm12_init_eq]; simp [auto_relisten]

/-- C20 at concrete calls: a successful transition from Listen with auto-relisten set, a
drain from Rx that finds nIRQ high, and a `rfm12_send_packet` from Rx. -/
theorem auto_relisten_frame_witness :
    ((rfm12_set_state (sendWorld 0 []) RFXX_STATE_TX_SYNC0 (fresh 0x81)).1 = true ∧
      base (rfm12_set_state (sendWorld 0 []) RFXX_STATE_TX_SYNC0 (fresh 0x81)).2
        = RFXX_STATE_TX_SYNC0 ∧
      auto_relisten (rfm12_set_state (sendWorld 0 []) RFXX_STATE_TX_SYNC0 (fresh 0x81)).2
        = auto_relisten (fresh 0x81)) ∧
    (rfm12_handle_interrupt (sendWorld 0 []) 1 (fresh 0x82)
        = some (RFXX_GET_NIRQ (sendWorld 0 []) (fresh 0x82)).2 ∧
      auto_relisten (RFXX_GET_NIRQ (sendWorld 0 []) (fresh 0x82)).2
        = auto_relisten (fresh 0x82)) ∧
    ((sendWorld 0 []).NIRQ ((fresh 0x82).polls + 0) = true ∧
      ∃ res mf, rfm12_send_packet (sendWorld 0 []) 1 (fresh 0x82) = some (res, mf) ∧
        auto_relisten mf = auto_relisten (fresh 0x82)) :=
  ⟨⟨by decide,
      (auto_relisten_frame (sendWorld 0 []) (fresh 0x81)).2.1 RFXX_STATE_TX_SYNC0 (by decide),
      (auto_relisten_frame (sendWorld 0 []) (fresh 0x81)).1 RFXX_STATE_TX_SYNC0⟩,
    ⟨by decide,
      (auto_relisten_frame (sendWorld 0 []) (fresh 0x82)).2.2.2.2.2.2.2.1 1 _ (by decide)⟩,
    ⟨by decide,
      ((auto_relisten_frame (sendWorld 0 []) (fresh 0x82)).2.2.2.2.2.2.2.2.1 0 (by decide) 1
        (by decide)).2⟩⟩

/-- C21 (as stated, refuted): a value of 0x100 or more is written to the FIFO as a data byte
when its bit 8 is clear.  With the write handler returning 0x200 in Tx with
FIFO-space-available set, the loop body issues the FIFO write `0xB800 | (0x200 & 0xFF)` after
the status read. -/
theorem stray_value_written :
    tx_data strayWorld (fresh RFXX_STATE_TX) = 0x200 ∧ (0x100 : Nat) ≤ 0x200 ∧
    base (fresh RFXX_STATE_TX) = RFXX_STATE_TX ∧
    response strayWorld (fresh RFXX_STATE_TX).cmds.length 0 &&& RFXX_FLAG_RGIT ≠ 0 ∧
    (handle_interrupt_body strayWorld (fresh RFXX_STATE_TX)).2.cmds = [0x0000, 0xB800] ∧
    (0xB800 ||| (0x200 &&& 0xFF) : Nat) = 0xB800 ∧
    base (handle_interrupt_body strayWorld (fresh RFXX_STATE_TX)).2 = RFXX_STATE_TX := by
  decide

/-- C21 (amended): the sentinel convention of the write channel is bit 8.  In Tx with
FIFO-space-available set, with `v` the value the write handler returns: if bit 8 of `v` is
clear, `v` is treated as a data byte, the FIFO write `0xB800 | (v & 0xFF)` is issued after the
status read and the state stays Tx; if bit 8 of `v` is set, `v` is treated as a sentinel and
no FIFO write `0xB800 | (v & 0xFF)` is issued: the only command after the status read is the
dummy 0xB8AA when `v` is `RFXX_EV_TX_END` or `RFXX_EV_TX_RESYNC`, and there is none
otherwise.  Every `v < 0x100` has bit 8 clear, and every `v` with bit 8 set is at least
0x100. -/
theorem sentinel_is_bit_eight (w : World) (m : Machine) (hs : base m = RFXX_STATE_TX)
    (hrgit : response w m.cmds.length 0 &&& RFXX_FLAG_RGIT ≠ 0) :
    (tx_data w m &&& 0x100 = 0 →
      (handle_interrupt_body w m).2.cmds
        = m.cmds ++ [0x0000, 0xB800 ||| (tx_data w m &&& 0xff)] ∧
      base (handle_interrupt_body w m).2 = RFXX_STATE_TX) ∧
    (tx_data w m &&& 0x100 ≠ 0 →
      (handle_interrupt_body w m).2.cmds = m.cmds ++ [0x0000] ++
        (if tx_data w m = RFXX_EV_TX_END ∨ tx_data w m = RFXX_EV_TX_RESYNC then [0xB8AA]
         else []) ∧
      0xB800 ||| (tx_data w m &&& 0xff) ∉ (handle_interrupt_body w m).2.cmds.drop m.cmds.length) ∧
    (tx_data w m < 0x100 → tx_data w m &&& 0x100 = 0) ∧
    (tx_data w m &&& 0x100 ≠ 0 → 0x100 ≤ tx_data w m) := by
  have hc := body_tx_cmds w m hs hrgit
  refine ⟨?_, ?_, fun h => and_256_of_lt h, fun h => and_256_ne_zero_ge _ h⟩
  · intro hd
    rw [if_pos hd] at hc
    refine ⟨by rw [hc]; simp, ?_⟩
    rw [body_tx_byte w m hs hrgit hd]
    have : (rfm12_cmd w (0xB800 ||| (tx_data w m &&& 0xff))
        (rfm12_write_handler w (handle_interrupt_status w m).2).2).2.rfm12_state
        = m.rfm12_state := by simp [rfm12_write_handler]
    simp only [base, this]; exact hs
  · intro hd
    rw [if_neg hd] at hc
    refine ⟨hc, ?_⟩
    rw [hc, List.append_assoc, List.drop_left]
    have hne0 : 0xB800 ||| (tx_data w m &&& 0xff) ≠ 0 := or_ne_zero_left (by decide)
    by_cases h12 : tx_data w m = RFXX_EV_TX_END ∨ tx_data w m = RFXX_EV_TX_RESYNC
    · rw [if_pos h12]
      have hne : 0xB800 ||| (tx_data w m &&& 0xff) ≠ 0xB8AA := by
        rcases h12 with h | h <;> rw [h] <;> decide
      simp [hne0, hne]
    · rw [if_neg h12]
      simp [hne0]

/-- The amended C21 at concrete passes: the byte 0x42 is written, the sentinel
`RFXX_EV_TX_END` is not. -/
theorem sentinel_is_bit_eight_witness :
    (base (fresh RFXX_STATE_TX) = RFXX_STATE_TX ∧
      response (sendWorld 9 [0x42]) (fresh RFXX_STATE_TX).cmds.length 0 &&& RFXX_FLAG_RGIT ≠ 0 ∧
      tx_data (sendWorld 9 [0x42]) (fresh RFXX_STATE_TX) &&& 0x100 = 0 ∧
      (handle_interrupt_body (sendWorld 9 [0x42]) (fresh RFXX_STATE_TX)).2.cmds
        = (fresh RFXX_STATE_TX).cmds ++
          [0x0000, 0xB800 ||| (tx_data (sendWorld 9 [0x42]) (fresh RFXX_STATE_TX) &&& 0xff)]) ∧
    (tx_data (sendWorld 9 []) (fresh RFXX_STATE_TX) &&& 0x100 ≠ 0 ∧
      0xB800 ||| (tx_data (sendWorld 9 []) (fresh RFXX_STATE_TX) &&& 0xff) ∉
        (handle_interrupt_body (sendWorld 9 []) (fresh RFXX_STATE_TX)).2.cmds.drop
          (fresh RFXX_STATE_TX).cmds.length) :=
  ⟨⟨by decide, by decide, by decide,
      ((sentinel_is_bit_eight (sendWorld 9 [0x42]) (fresh RFXX_STATE_TX) (by decide)
        (by decide)).1 (by decide)).1⟩,
    ⟨by decide,
      ((sentinel_is_bit_eight (sendWorld 9 []) (fresh RFXX_STATE_TX) (by decide)
        (by decide)).2.1 (by decide)).2⟩⟩

/-- C22: informational flags do not drive transitions.  Take one loop body of the dispatcher
in two runs: from the same machine up to the stored status (`x` in the second run), with the
same handlers and the same FIFO response, and with raw status words that agree on bit 15
(FIFO-ready / space-available) and bit 7 (data-quality-detect).  Both runs leave the loop body
the same way and with the same state byte, the same handler calls with the same arguments, the
same command words, the same diagnostics and the same GPIO writes: no other bit of the raw
status and no bit of the stored status (FIFO-overflow/underrun and low-battery included)
changes what the state machine does. -/
theorem informational_flags_inert (w1 w2 : World) (m : Machine) (x : Nat)
    (hsdo : w1.SDO (m.cmds.length + 1) = w2.SDO (m.cmds.length + 1))
    (hr : w1.read_handler = w2.read_handler) (hw : w1.write_handler = w2.write_handler)
    (h15 : response w1 m.cmds.length 0 &&& RFXX_FLAG_FFIT
      = response w2 m.cmds.length 0 &&& RFXX_FLAG_FFIT)
    (h7 : response w1 m.cmds.length 0 &&& RFXX_FLAG_DQD
      = response w2 m.cmds.length 0 &&& RFXX_FLAG_DQD) :
    (handle_interrupt_body w1 m).1
      = (handle_interrupt_body w2 { m with rfm12_status := x }).1 ∧
    (handle_interrupt_body w1 m).2.rfm12_state
      = (handle_interrupt_body w2 { m with rfm12_status := x }).2.rfm12_state ∧
    (handle_interrupt_body w1 m).2.reads
      = (handle_interrupt_body w2 { m with rfm12_status := x }).2.reads ∧
    (handle_interrupt_body w1 m).2.writes
      = (handle_interrupt_body w2 { m with rfm12_status := x }).2.writes ∧
    (handle_interrupt_body w1 m).2.cmds
      = (handle_interrupt_body w2 { m with rfm12_status := x }).2.cmds ∧
    (handle_interrupt_body w1 m).2.msgs
      = (handle_interrupt_body w2 { m with rfm12_status := x }).2.msgs ∧
    (handle_interrupt_body w1 m).2.gpio
      = (handle_interrupt_body w2 { m with rfm12_status := x }).2.gpio ∧
    (handle_interrupt_body w1 m).2.polls
      = (handle_interrupt_body w2 { m with rfm12_status := x }).2.polls := by
  obtain ⟨b, X, v1, v2, e1, e2⟩ := body_congr w1 w2 m x hsdo hr hw h15 h7
  rw [e1, e2]
  exact ⟨rfl, rfl, rfl, rfl, rfl, rfl, rfl, rfl⟩

/-- C22 at a concrete pass in Rx: the chip answers the status read with all ones in one run
and with 0x8080 in the other, where in addition overflow and low-battery are stored; both
runs read the FIFO, call the read handler with the same arguments and end in the same
state. -/
theorem informational_flags_inert_witness :
    (response abortWorld (fresh RFXX_STATE_RX).cmds.length 0 = 0xFFFF ∧
      response bareWorld (fresh RFXX_STATE_RX).cmds.length 0 = 0x8080) ∧
    (handle_interrupt_body abortWorld (fresh RFXX_STATE_RX)).2.rfm12_state
      = (handle_interrupt_body bareWorld
          { fresh RFXX_STATE_RX with rfm12_status := 0x2400 }).2.rfm12_state ∧
    (handle_interrupt_body abortWorld (fresh RFXX_STATE_RX)).2.reads
      = (handle_interrupt_body bareWorld
          { fresh RFXX_STATE_RX with rfm12_status := 0x2400 }).2.reads ∧
    (handle_interrupt_body abortWorld (fresh RFXX_STATE_RX)).2.cmds
      = (handle_interrupt_body bareWorld
          { fresh RFXX_STATE_RX with rfm12_status := 0x2400 }).2.cmds :=
  have h := informational_flags_inert abortWorld bareWorld (fresh RFXX_STATE_RX) 0x2400
    rfl rfl rfl (by decide) (by decide)
  ⟨⟨by decide, by decide⟩, h.2.1, h.2.2.1, h.2.2.2.2.1⟩

/-- C23: recovery from an unrecognized state.  For every machine whose base state (the low
seven bits of the state byte) is outside 0..7, in every world (so for every status word), one
loop body of the dispatcher runs to its end, emits exactly the diagnostic "INVALID STATE" and
not "FAIL", calls neither handler, and leaves the base state Idle, or Listen when auto-relisten
is set, with auto-relisten unchanged; the commands are the status read and those of the
transition. -/
theorem invalid_state_recovery (w : World) (m : Machine) (h8 : 8 ≤ base m) :
    (handle_interrupt_body w m).1 = false ∧
    (handle_interrupt_body w m).2.msgs = m.msgs ++ ["INVALID STATE\n"] ∧
    (handle_interrupt_body w m).2.reads = m.reads ∧
    (handle_interrupt_body w m).2.writes = m.writes ∧
    base (handle_interrupt_body w m).2 =
      (if auto_relisten m then RFXX_STATE_LISTEN else RFXX_STATE_IDLE) ∧
    auto_relisten (handle_interrupt_body w m).2 = auto_relisten m ∧
    (handle_interrupt_body w m).2.cmds = m.cmds ++ [0x0000] ++
      (if auto_relisten m then [0x82C9, 0xCA83] else [0x8201, 0xCA81]) := by
  have hlt : redirect RFXX_STATE_IDLE m.rfm12_state < 128 := redirect_lt _ _ (by decide)
  refine ⟨?_, ?_, ?_, ?_, ?_, auto_relisten_congr _ _ (body_flag w m), ?_⟩
  · rw [body_invalid w m h8]
  · rw [body_msgs, if_pos h8]
  · rw [body_invalid w m h8]
    show (issue w _ _).reads = m.reads
    rw [issue_reads]
    exact status_snd_reads w m
  · rw [body_invalid w m h8]
    show (issue w _ _).writes = m.writes
    rw [issue_writes]
    exact status_snd_writes w m
  · rw [body_invalid w m h8, ← redirect_idle_flag]
    exact base_of_state _ _ m.rfm12_state hlt rfl
  · rw [body_invalid w m h8]
    show (issue w _ _).cmds = _
    rw [issue_cmds]
    have hc : (usart_msg "INVALID STATE\n" (handle_interrupt_status w m).2).cmds
        = m.cmds ++ [0] := status_snd_cmds w m
    rw [hc, redirect_idle_flag]
    have hrx : ¬ base m = 2 := by omega
    cases auto_relisten m
    · simp [entry_cmds]
    · simp [entry_cmds, hrx]

/-- C23 at a concrete pass: state byte 0x89 (base 9, auto-relisten set). -/
theorem invalid_state_recovery_witness :
    8 ≤ base (fresh 0x89) ∧
    (handle_interrupt_body abortWorld (fresh 0x89)).2.msgs = ["INVALID STATE\n"] ∧
    base (handle_interrupt_body abortWorld (fresh 0x89)).2 = RFXX_STATE_LISTEN :=
  ⟨by decide,
    (invalid_state_recovery abortWorld (fresh 0x89) (by decide)).2.1,
    (invalid_state_recovery abortWorld (fresh 0x89) (by decide)).2.2.2.2.1⟩

/-- C24: reachable states are valid.  Starting from `rfm12_init`, after any finite sequence
of `rfm12_listen`, `rfm12_send_packet`, `rfm12_stop_sending`, `rfm12_stop_receiving`,
`rfm12_clear_interrupts`, `rfm12_set_state` with any 8-bit argument, and loop bodies and runs
of the dispatcher, in arbitrary worlds, the base state is one of the eight values 0..7; so
the `default` branch of the dispatcher is not taken from a reachable machine: the switch and
the whole loop body emit no diagnostic. -/
theorem reachable_states_valid (direct : Bool) (m : Machine) (h : Reach direct m) :
    base m ≤ 7 ∧
    (∀ w val M, (handle_interrupt_switch w val (base m) M).2.msgs = M.msgs) ∧
    (∀ w, (handle_interrupt_body w m).2.msgs = m.msgs) := by
  have hb : base m ≤ 7 := by rw [base_eq]; exact reach_valid direct m h
  refine ⟨hb, ?_, ?_⟩
  · intro w val M
    rw [switch_snd_msgs, if_neg (by omega)]
  · intro w
    rw [body_msgs, if_neg (by omega)]

/-- C24 at a concrete run: after `rfm12_init`, a request for the state 200 and a request for
TxSync0, the base state is TxSync0. -/
theorem reachable_states_valid_witness :
    base (rfm12_set_state abortWorld RFXX_STATE_TX_SYNC0
      (rfm12_set_state abortWorld 200 (rfm12_init abortWorld (fresh 0x55))).2).2 ≤ 7 :=
  (reachable_states_valid true _
    (Reach.set_state abortWorld RFXX_STATE_TX_SYNC0 _ rfl (by decide)
      (Reach.set_state abortWorld 200 _ rfl (by decide)
        (Reach.init abortWorld (fresh 0x55))))).1

/-- C25: the dispatcher never requests an invalid transition.  For every machine and every
world, whatever `newstate` the switch of one loop body leaves, the guarded transition to its
redirected value succeeds from the machine the switch leaves, and the body emits no diagnostic
other than "INVALID STATE" (in the `default` branch): "FAIL" is never emitted. -/
theorem dispatcher_transition_succeeds (w : World) (m : Machine) :
    (∀ ns, (handle_interrupt_switch w (handle_interrupt_status w m).1 (base m)
        (handle_interrupt_status w m).2).1 = some ns →
      (rfm12_set_state w
        (redirect ns (handle_interrupt_switch w (handle_interrupt_status w m).1 (base m)
          (handle_interrupt_status w m).2).2.rfm12_state)
        (handle_interrupt_switch w (handle_interrupt_status w m).1 (base m)
          (handle_interrupt_status w m).2).2).1 = true) ∧
    (handle_interrupt_body w m).2.msgs =
      (if 8 ≤ base m then m.msgs ++ ["INVALID STATE\n"] else m.msgs) ∧
    "FAIL\n" ∉ (handle_interrupt_body w m).2.msgs.drop m.msgs.length := by
  refine ⟨?_, body_msgs w m, ?_⟩
  · intro ns h
    rw [set_state_fst, switch_base, switch_snd_state, status_snd_state, Bool.or_eq_true,
      decide_eq_true_eq]
    rcases switch_fst w (handle_interrupt_status w m).1 (base m)
      (handle_interrupt_status w m).2 with ⟨-, hn⟩ | ⟨ns', hns, ht⟩
    · rw [hn] at h; cases h
    · rw [hns] at h
      cases h
      exact target_accepted _ _ _ ht
  · rw [body_msgs]
    split_ifs
    · rw [List.drop_left]
      decide
    · rw [List.drop_length]
      exact List.not_mem_nil _

/-- C25 at a concrete pass: in TxEnd with auto-relisten set and FIFO-space-available, the
switch asks for Idle and the transition to the redirected target succeeds. -/
theorem dispatcher_transition_succeeds_witness :
    (handle_interrupt_switch abortWorld (handle_interrupt_status abortWorld (fresh 0x86)).1
      (base (fresh 0x86)) (handle_interrupt_status abortWorld (fresh 0x86)).2).1 = some 0 ∧
    (rfm12_set_state abortWorld
      (redirect 0 (handle_interrupt_switch abortWorld
        (handle_interrupt_status abortWorld (fresh 0x86)).1 (base (fresh 0x86))
        (handle_interrupt_status abortWorld (fresh 0x86)).2).2.rfm12_state)
      (handle_interrupt_switch abortWorld (handle_interrupt_status abortWorld (fresh 0x86)).1
        (base (fresh 0x86)) (handle_interrupt_status abortWorld (fresh 0x86)).2).2).1 = true :=
  ⟨by decide, (dispatcher_transition_succeeds abortWorld (fresh 0x86)).1 0 (by decide)⟩

/-- C26: Idle never coexists with auto-relisten under the facade.  Starting from
`rfm12_init`, after any finite sequence of `rfm12_listen`, `rfm12_send_packet`,
`rfm12_stop_sending`, `rfm12_stop_receiving`, `rfm12_clear_interrupts` and loop bodies and
runs of the dispatcher, in arbitrary worlds, with no direct call of `rfm12_set_state`:
whenever auto-relisten is set the base state is not Idle. -/
theorem idle_excludes_auto_relisten (m : Machine) (h : Reach false m)
    (hflag : auto_relisten m = true) : base m ≠ RFXX_STATE_IDLE := by
  rw [base_eq]
  apply reach_relisten m h
  unfold auto_relisten at hflag
  simpa using hflag

/-- C26 at a concrete run: `rfm12_init`, `rfm12_listen(true)`, then `rfm12_stop_sending`. -/
theorem idle_excludes_auto_relisten_witness :
    auto_relisten (rfm12_stop_sending abortWorld
      (rfm12_listen abortWorld true (rfm12_init abortWorld (fresh 0x55))).2).2 = true ∧
    base (rfm12_stop_sending abortWorld
      (rfm12_listen abortWorld true (rfm12_init abortWorld (fresh 0x55))).2).2
        ≠ RFXX_STATE_IDLE :=
  ⟨by decide,
    idle_excludes_auto_relisten _
      (Reach.stop_sending abortWorld _
        (Reach.listen abortWorld true _ (Reach.init abortWorld (fresh 0x55))))
      (by decide)⟩

/-- C27: the exact acceptance set of `rfm12_set_state`.  With `s` the base state, the call
with target `t` returns success exactly when `t = s`, or `t` is Idle, or `t` is Listen, or
`(s, t)` is one of (Listen, Rx), (Idle, TxSync0), (Listen, TxSync0), (TxResync, TxSync0),
(TxSync0, TxSync1), (TxSync1, Tx), (Tx, TxEnd), (Tx, TxResync).  When `t = s` the machine is
unchanged (no command is issued); in every other successful case the new base state is `t`,
with auto-relisten as it was; a failed call leaves the machine unchanged. -/
theorem set_state_acceptance (w : World) (t : Nat) (m : Machine) :
    ((rfm12_set_state w t m).1 = true ↔
      t = base m ∨ t = RFXX_STATE_IDLE ∨ t = RFXX_STATE_LISTEN ∨
      (base m = RFXX_STATE_LISTEN ∧ t = RFXX_STATE_RX) ∨
      (base m = RFXX_STATE_IDLE ∧ t = RFXX_STATE_TX_SYNC0) ∨
      (base m = RFXX_STATE_LISTEN ∧ t = RFXX_STATE_TX_SYNC0) ∨
      (base m = RFXX_STATE_TX_RESYNC ∧ t = RFXX_STATE_TX_SYNC0) ∨
      (base m = RFXX_STATE_TX_SYNC0 ∧ t = RFXX_STATE_TX_SYNC1) ∨
      (base m = RFXX_STATE_TX_SYNC1 ∧ t = RFXX_STATE_TX) ∨
      (base m = RFXX_STATE_TX ∧ t = RFXX_STATE_TX_END) ∨
      (base m = RFXX_STATE_TX ∧ t = RFXX_STATE_TX_RESYNC)) ∧
    (t = base m → rfm12_set_state w t m = (true, m)) ∧
    ((rfm12_set_state w t m).1 = true → t ≠ base m →
      base (rfm12_set_state w t m).2 = t ∧
      auto_relisten (rfm12_set_state w t m).2 = auto_relisten m) ∧
    ((rfm12_set_state w t m).1 = false → (rfm12_set_state w t m).2 = m) := by
  refine ⟨?_, ?_, ?_, ?_⟩
  · rw [set_state_fst, Bool.or_eq_true, decide_eq_true_eq, guard_edges]
    constructor
    · rintro (h | h)
      · exact Or.inl h.symm
      · exact Or.inr h
    · rintro (h | h)
      · exact Or.inl h.symm
      · exact Or.inr h
  · intro h
    rw [rfm12_set_state_eq, if_pos h.symm]
  · intro h _
    exact ⟨set_state_base w t m h, auto_relisten_congr _ _ (set_state_flag w t m)⟩
  · intro h
    rw [rfm12_set_state_eq] at h ⊢
    split_ifs at h ⊢
    rfl

/-- C27 at concrete calls: Tx to TxEnd is accepted, Rx to Tx is refused, Tx to Tx changes
nothing. -/
theorem set_state_acceptance_witness :
    ((rfm12_set_state abortWorld RFXX_STATE_TX_END (fresh RFXX_STATE_TX)).1 = true ∧
      base (rfm12_set_state abortWorld RFXX_STATE_TX_END (fresh RFXX_STATE_TX)).2
        = RFXX_STATE_TX_END) ∧
    ((rfm12_set_state abortWorld RFXX_STATE_TX (fresh RFXX_STATE_RX)).1 = false ∧
      (rfm12_set_state abortWorld RFXX_STATE_TX (fresh RFXX_STATE_RX)).2
        = fresh RFXX_STATE_RX) ∧
    rfm12_set_state abortWorld RFXX_STATE_TX (fresh RFXX_STATE_TX)
      = (true, fresh RFXX_STATE_TX) :=
  ⟨⟨by decide,
      ((set_state_acceptance abortWorld RFXX_STATE_TX_END (fresh RFXX_STATE_TX)).2.2.1
        (by decide) (by decide)).1⟩,
    ⟨by decide,
      (set_state_acceptance abortWorld RFXX_STATE_TX (fresh RFXX_STATE_RX)).2.2.2 (by decide)⟩,
    (set_state_acceptance abortWorld RFXX_STATE_TX (fresh RFXX_STATE_TX)).2.1 (by decide)⟩

end Rfm12

/-! # Servo array driver: claims -/

namespace ServoArray

/-- C28 (code defect): `servo_array_reorder` stores the loop index `l`, not the channel `ch`
it took out, in `ctx->order[i] = l`.  On the context `servo_array_init` builds for the mask
0x04 (one channel, number 2, of width 1500) the order array `[2, 0xff, ...]` becomes
`[0, 0xff, ...]`: channel 2 is lost and channel 0 appears, so the first entry is not a
permutation of the channel that was there.  On the context `sorted_pair`, where an earlier
call has listed the channels 1 and 0 in the order of their widths 1000 and 2000, the order
array becomes `[0, 1, 0xff, ...]`, whose widths 2000, 1000 are decreasing.  The padding is
unchanged in both. -/
theorem reorder_stores_index :
    ((servo_array_init zeroed 0x25 0x04).order = [2, 0xff, 0xff, 0xff, 0xff, 0xff, 0xff, 0xff] ∧
      (servo_array_init zeroed 0x25 0x04).pwm = [0, 0, 1500, 0, 0, 0, 0, 0] ∧
      (servo_array_reorder (servo_array_init zeroed 0x25 0x04)).order
        = [0, 0xff, 0xff, 0xff, 0xff, 0xff, 0xff, 0xff] ∧
      2 ∉ (servo_array_reorder (servo_array_init zeroed 0x25 0x04)).order) ∧
    (sorted_pair.pwm = [2000, 1000, 0, 0, 0, 0, 0, 0] ∧
      sorted_pair.order = [1, 0, 0xff, 0xff, 0xff, 0xff, 0xff, 0xff] ∧
      widths sorted_pair = [1000, 2000] ∧
      (servo_array_reorder sorted_pair).order = [0, 1, 0xff, 0xff, 0xff, 0xff, 0xff, 0xff] ∧
      (servo_array_reorder sorted_pair).pwm = sorted_pair.pwm ∧
      widths (servo_array_reorder sorted_pair) = [2000, 1000]) := by
  decide

end ServoArray

/-! # PCD8544 display driver: lemmas and claims -/

namespace Pcd8544

theorem and_bit_ne_zero (v b : Nat) : v &&& (1 <<< b) ≠ 0 ↔ v.testBit b = true := by
  rw [Nat.one_shiftLeft, Nat.and_two_pow]
  cases v.testBit b <;> simp

theorem testBit_255 (j : Nat) (hj : j < 8) : (255 : Nat).testBit j = true := by
  interval_cases j <;> decide

theorem paint_byte_testBit (color mask v j : Nat) (hj : j < 8) :
    (paint_byte color mask v).testBit j = paint_bit color (mask.testBit j) (v.testBit j) := by
  have h256 : (256 : Nat) = 2 ^ 8 := by norm_num
  unfold paint_byte paint_bit
  split_ifs
  · rw [h256, Nat.testBit_mod_two_pow, Nat.testBit_and, Nat.testBit_xor, testBit_255 j hj]
    simp [hj]
  · rw [h256, Nat.testBit_mod_two_pow, Nat.testBit_or]
    simp [hj]
  · rw [h256, Nat.testBit_mod_two_pow, Nat.testBit_xor]
    simp [hj]
  · rfl

/-- `display_getpixel` reads one bit of one byte of the image. -/
theorem getpixel_eq (d : display_ctx_t) (x y : Nat) (hx : x < 84) (hy : y < 48) :
    display_getpixel d x y =
      if (d.image (x + 84 * (y / 8))).testBit (y % 8) then COLOR_BLACK else COLOR_WHITE := by
  have h1 : y >>> 3 = y / 8 := by rw [Nat.shiftRight_eq_div_pow]
  have h2 : y &&& 7 = y % 8 := by
    have := Nat.and_pow_two_sub_one_eq_mod y 3
    simpa using this
  have h3 : (x + 84 * (y / 8)) % 65536 = x + 84 * (y / 8) := by omega
  unfold display_getpixel
  simp only [LCD_WIDTH, LCD_HEIGHT, hx, hy, and_self, not_true_eq_false, if_false, h1, h2, h3]
  by_cases hb : (d.image (x + 84 * (y / 8))).testBit (y % 8) = true
  · rw [if_pos ((and_bit_ne_zero _ _).mpr hb), if_pos hb]
  · rw [if_neg (fun h => hb ((and_bit_ne_zero _ _).mp h)), if_neg hb]

theorem getpixel_outside (d : display_ctx_t) (x y : Nat) (h : ¬ (x < 84 ∧ y < 48)) :
    display_getpixel d x y = 0 := by
  unfold display_getpixel
  simp only [LCD_WIDTH, LCD_HEIGHT]
  rw [if_pos h]

theorem image_paint_image (d : display_ctx_t) (pos color mask p : Nat) :
    (image_paint d pos color mask).image p =
      if p = pos then paint_byte color mask (d.image p) else d.image p := by
  unfold image_paint paint_byte image_read image_write
  by_cases hp : p = pos
  · subst hp
    simp only []
    split_ifs <;> simp only [if_true]
  · simp only []
    split_ifs <;> simp only [hp, if_false]

theorem image_paint_used (d : display_ctx_t) (pos color mask : Nat) :
    (image_paint d pos color mask).used = d.used ∨
    (image_paint d pos color mask).used = d.used ++ [pos] := by
  unfold image_paint image_read image_write
  split_ifs <;> simp

/-- The search of `display_isr` ends at a patch number below `display_mask_size`. -/
theorem isr_search_lt (mask : Nat → Nat) :
    ∀ (n i count : Nat), (n = 0 → i < 126) → (isr_search mask n i count).1 < 126 := by
  intro n
  induction n with
  | zero => intro i count h; exact h rfl
  | succ n ih =>
    intro i count _
    have hsize : display_mask_size = 126 := by decide
    simp only [isr_search, hsize]
    generalize hi' : (if (i + 1) % 256 ≥ 126 then 0 else (i + 1) % 256) = i'
    have hi : i' < 126 := by
      rw [← hi']
      split_ifs <;> omega
    split_ifs
    · exact ih _ _ (fun _ => hi)
    · exact hi

theorem isr_send_image (d : display_ctx_t) (i j : Nat) : (isr_send d i j).2.image = d.image :=
  rfl

theorem isr_send_used (d : display_ctx_t) (i j : Nat) :
    (isr_send d i j).2.used = d.used ++ [(i * 4 + j) % 65536] := rfl

/-- `display_isr` never writes the image. -/
theorem display_isr_image (d : display_ctx_t) : (display_isr d).2.image = d.image := by
  unfold display_isr
  simp only []
  split_ifs <;> simp only [isr_send_image, display_hwgoto]

/-- `display_isr`, entered with `mod == 0`, reads the image at most once, below 504. -/
theorem display_isr_used (d : display_ctx_t) (h : d.mod = 0) :
    (display_isr d).2.used = d.used ∨
    ∃ i, i < 504 ∧ (display_isr d).2.used = d.used ++ [i] := by
  have hlt := isr_search_lt d.modified_mask 127 255 0 (by omega)
  unfold display_isr
  simp only [h, or_true, if_true, ne_eq, not_true_eq_false]
  split_ifs
  · exact Or.inl rfl
  · refine Or.inr ⟨_, ?_, isr_send_used _ _ _⟩
    omega

theorem display_poll_image (d : display_ctx_t) : (display_poll d).image = d.image := by
  unfold display_poll
  split_ifs
  · exact display_isr_image d
  · rfl

theorem display_poll_used (d : display_ctx_t) :
    (display_poll d).used = d.used ∨ ∃ i, i < 504 ∧ (display_poll d).used = d.used ++ [i] := by
  unfold display_poll
  split_ifs with h
  · exact display_isr_used d h
  · exact Or.inl rfl

theorem paint_bit_false (color : Nat) (old : Bool) : paint_bit color false old = old := by
  unfold paint_bit
  split_ifs <;> simp

theorem and_7 (y : Nat) : y &&& 7 = y % 8 := by
  have := Nat.and_pow_two_sub_one_eq_mod y 3
  simpa using this

theorem shr_3 (y : Nat) : y >>> 3 = y / 8 := by
  rw [Nat.shiftRight_eq_div_pow]

/-- The image after `display_putpixel` on the screen. -/
theorem putpixel_image (d : display_ctx_t) (x y color p : Nat) (hx : x < 84) (hy : y < 48) :
    (display_putpixel d x y color).image p =
      if p = x + 84 * (y / 8) then paint_byte color (2 ^ (y % 8)) (d.image p) else d.image p := by
  have h3 : (x + 84 * (y / 8)) % 65536 = x + 84 * (y / 8) := by omega
  unfold display_putpixel
  simp only [LCD_WIDTH, LCD_HEIGHT, hx, hy, and_self, not_true_eq_false, if_false,
    display_poll_image, shr_3, and_7, h3, Nat.one_shiftLeft]
  show (image_paint d (x + 84 * (y / 8)) color (2 ^ (y % 8))).image p = _
  exact image_paint_image d _ color _ p

theorem putpixel_outside (d : display_ctx_t) (x y color : Nat) (h : ¬ (x < 84 ∧ y < 48)) :
    display_putpixel d x y color = d := by
  unfold display_putpixel
  simp only [LCD_WIDTH, LCD_HEIGHT]
  rw [if_pos h]

/-- The pixel read back after `display_putpixel`, for pixels on the screen. -/
theorem getpixel_putpixel (d : display_ctx_t) (x y color px py : Nat) (hx : x < 84)
    (hy : y < 48) (hpx : px < 84) (hpy : py < 48) :
    display_getpixel (display_putpixel d x y color) px py =
      if paint_bit color (decide (px = x ∧ py = y))
          ((d.image (px + 84 * (py / 8))).testBit (py % 8))
      then COLOR_BLACK else COLOR_WHITE := by
  rw [getpixel_eq _ px py hpx hpy, putpixel_image d x y color _ hx hy]
  by_cases hp : px + 84 * (py / 8) = x + 84 * (y / 8)
  · rw [if_pos hp, paint_byte_testBit _ _ _ _ (Nat.mod_lt _ (by norm_num)), Nat.testBit_two_pow]
    have hxx : px = x := by omega
    have hyy : py / 8 = y / 8 := by omega
    have : decide (y % 8 = py % 8) = decide (px = x ∧ py = y) := by
      by_cases h : py = y
      · subst h; simp [hxx]
      · have : y % 8 ≠ py % 8 := by omega
        simp [h, this]
    rw [this]
  · have : ¬ (px = x ∧ py = y) := by
      rintro ⟨rfl, rfl⟩; exact hp rfl
    rw [if_neg hp, decide_eq_false this, paint_bit_false]

theorem mask_set_used (d : display_ctx_t) (mpos : Nat) : (mask_set d mpos).used = d.used := rfl

theorem mask_set_image (d : display_ctx_t) (mpos : Nat) : (mask_set d mpos).image = d.image :=
  rfl

/-- The image indices `display_putpixel` uses are below 504. -/
theorem putpixel_used (d : display_ctx_t) (x y color : Nat) :
    ∃ l, (display_putpixel d x y color).used = d.used ++ l ∧ ∀ i ∈ l, i < 504 := by
  by_cases h : x < 84 ∧ y < 48
  · have h3 : (x + 84 * (y / 8)) % 65536 = x + 84 * (y / 8) := by omega
    have hlt : x + 84 * (y / 8) < 504 := by omega
    unfold display_putpixel
    simp only [LCD_WIDTH, LCD_HEIGHT, h, and_self, not_true_eq_false, if_false, shr_3, h3]
    generalize hm : mask_set (image_paint d (x + 84 * (y / 8)) color (1 <<< (y &&& 7))) _ = dm
    have hdm : dm.used = d.used ∨ dm.used = d.used ++ [x + 84 * (y / 8)] := by
      rw [← hm, mask_set_used]
      exact image_paint_used d _ color _
    rcases display_poll_used dm with hp | ⟨i, hi, hp⟩ <;> rcases hdm with hd | hd
    · exact ⟨[], by rw [hp, hd]; simp, by simp⟩
    · exact ⟨[x + 84 * (y / 8)], by rw [hp, hd], by simpa using hlt⟩
    · exact ⟨[i], by rw [hp, hd], by simpa using hi⟩
    · exact ⟨[x + 84 * (y / 8), i], by rw [hp, hd]; simp, by
        intro k hk
        simp only [List.mem_cons, List.mem_singleton, List.not_mem_nil, or_false] at hk
        rcases hk with rfl | rfl
        · exact hlt
        · exact hi⟩
  · rw [putpixel_outside d x y color h]
    exact ⟨[], by simp, by simp⟩

/-- The image after the inner loop of `display_rect` in band `r`, by column and band. -/
theorem rect_row_image (color mask x r : Nat) (hr : r < 6) :
    ∀ (n dx : Nat) (d : display_ctx_t), x + dx + n ≤ 84 → ∀ px b, px < 84 →
      (rect_row color mask (x + 84 * r) n dx d).image (px + 84 * b) =
        if b = r ∧ x + dx ≤ px ∧ px < x + dx + n then
          paint_byte color mask (d.image (px + 84 * b))
        else d.image (px + 84 * b) := by
  intro n
  induction n with
  | zero =>
    intro dx d _ px b _
    rw [if_neg (by omega)]
    rfl
  | succ n ih =>
    intro dx d hle px b hpx
    have hpos : (x + 84 * r + dx) % 65536 = x + 84 * r + dx := by omega
    simp only [rect_row, hpos]
    rw [ih (dx + 1) _ (by omega) px b hpx, image_paint_image]
    by_cases h1 : b = r ∧ x + (dx + 1) ≤ px ∧ px < x + (dx + 1) + n
    · have h2 : ¬ (px + 84 * b = x + 84 * r + dx) := by omega
      have h3 : b = r ∧ x + dx ≤ px ∧ px < x + dx + (n + 1) := by omega
      rw [if_pos h1, if_neg h2, if_pos h3]
    · rw [if_neg h1]
      by_cases h2 : px + 84 * b = x + 84 * r + dx
      · have h3 : b = r ∧ x + dx ≤ px ∧ px < x + dx + (n + 1) := by omega
        rw [if_pos h2, if_pos h3]
      · have h3 : ¬ (b = r ∧ x + dx ≤ px ∧ px < x + dx + (n + 1)) := by omega
        rw [if_neg h2, if_neg h3]

/-- The image indices the inner loop of `display_rect` uses are below 504. -/
theorem rect_row_used (color mask x r : Nat) (hr : r < 6) :
    ∀ (n dx : Nat) (d : display_ctx_t), x + dx + n ≤ 84 →
      ∃ l, (rect_row color mask (x + 84 * r) n dx d).used = d.used ++ l ∧ ∀ i ∈ l, i < 504 := by
  intro n
  induction n with
  | zero => intro dx d _; exact ⟨[], by simp [rect_row], by simp⟩
  | succ n ih =>
    intro dx d hle
    have hpos : (x + 84 * r + dx) % 65536 = x + 84 * r + dx := by omega
    have hlt : x + 84 * r + dx < 504 := by omega
    simp only [rect_row, hpos]
    obtain ⟨l, hl, hl'⟩ := ih (dx + 1) (image_paint d (x + 84 * r + dx) color mask) (by omega)
    rcases image_paint_used d (x + 84 * r + dx) color mask with hu | hu
    · exact ⟨l, by rw [hl, hu], hl'⟩
    · refine ⟨(x + 84 * r + dx) :: l, by rw [hl, hu]; simp, ?_⟩
      intro i hi
      rcases List.mem_cons.mp hi with rfl | hi
      · exact hlt
      · exact hl' i hi

/-- The image after the outer loop of `display_rect`, by column and band. -/
theorem rect_rows_image (color y0mask y1mask x y0 last nx : Nat) (hnx : x + nx ≤ 84) :
    ∀ (n dy : Nat) (d : display_ctx_t), y0 + dy + n ≤ 6 → ∀ px b, px < 84 →
      (rect_rows color y0mask y1mask (x + 84 * y0) last nx n dy d).image (px + 84 * b) =
        if y0 + dy ≤ b ∧ b < y0 + dy + n ∧ x ≤ px ∧ px < x + nx then
          paint_byte color
            (if b - y0 = 0 then y0mask else if b - y0 = last then y1mask else 0xff)
            (d.image (px + 84 * b))
        else d.image (px + 84 * b) := by
  intro n
  induction n with
  | zero =>
    intro dy d _ px b _
    rw [if_neg (by omega)]
    rfl
  | succ n ih =>
    intro dy d hle px b hpx
    have hpos : (x + 84 * y0 + dy * LCD_WIDTH) % 65536 = x + 84 * (y0 + dy) := by
      simp only [LCD_WIDTH]; omega
    simp only [rect_rows, hpos]
    rw [ih (dy + 1) _ (by omega) px b hpx,
      rect_row_image color _ x (y0 + dy) (by omega) nx 0 d (by omega) px b hpx]
    by_cases h1 : y0 + (dy + 1) ≤ b ∧ b < y0 + (dy + 1) + n ∧ x ≤ px ∧ px < x + nx
    · have h2 : ¬ (b = y0 + dy ∧ x + 0 ≤ px ∧ px < x + 0 + nx) := by omega
      have h3 : y0 + dy ≤ b ∧ b < y0 + dy + (n + 1) ∧ x ≤ px ∧ px < x + nx := by omega
      rw [if_pos h1, if_neg h2, if_pos h3]
    · rw [if_neg h1]
      by_cases h2 : b = y0 + dy ∧ x + 0 ≤ px ∧ px < x + 0 + nx
      · have hb : b - y0 = dy := by omega
        have h3 : y0 + dy ≤ b ∧ b < y0 + dy + (n + 1) ∧ x ≤ px ∧ px < x + nx := by omega
        rw [if_pos h2, if_pos h3, hb]
      · have h3 : ¬ (y0 + dy ≤ b ∧ b < y0 + dy + (n + 1) ∧ x ≤ px ∧ px < x + nx) := by omega
        rw [if_neg h2, if_neg h3]

/-- The image indices the outer loop of `display_rect` uses are below 504. -/
theorem rect_rows_used (color y0mask y1mask x y0 last nx : Nat) (hnx : x + nx ≤ 84) :
    ∀ (n dy : Nat) (d : display_ctx_t), y0 + dy + n ≤ 6 →
      ∃ l, (rect_rows color y0mask y1mask (x + 84 * y0) last nx n dy d).used = d.used ++ l ∧
        ∀ i ∈ l, i < 504 := by
  intro n
  induction n with
  | zero => intro dy d _; exact ⟨[], by simp [rect_rows], by simp⟩
  | succ n ih =>
    intro dy d hle
    have hpos : (x + 84 * y0 + dy * LCD_WIDTH) % 65536 = x + 84 * (y0 + dy) := by
      simp only [LCD_WIDTH]; omega
    simp only [rect_rows, hpos]
    obtain ⟨l1, h1, h1'⟩ := rect_row_used color
      (if dy = 0 then y0mask else if dy = last then y1mask else 0xff) x (y0 + dy) (by omega)
      nx 0 d (by omega)
    obtain ⟨l2, h2, h2'⟩ := ih (dy + 1) (rect_row color
      (if dy = 0 then y0mask else if dy = last then y1mask else 0xff) (x + 84 * (y0 + dy))
      nx 0 d) (by omega)
    refine ⟨l1 ++ l2, by rw [h2, h1]; simp, ?_⟩
    intro i hi
    rcases List.mem_append.mp hi with hi | hi
    · exact h1' i hi
    · exact h2' i hi

theorem invalidate_row_image (mpos0 dy : Nat) :
    ∀ (n dx : Nat) (d : display_ctx_t),
      (invalidate_row mpos0 dy n dx d).image = d.image ∧
      (invalidate_row mpos0 dy n dx d).used = d.used := by
  intro n
  induction n with
  | zero => intro dx d; exact ⟨rfl, rfl⟩
  | succ n ih =>
    intro dx d
    simp only [invalidate_row]
    exact ih _ _

theorem invalidate_rows_image (mpos0 nx : Nat) :
    ∀ (n dy : Nat) (d : display_ctx_t),
      (invalidate_rows mpos0 nx n dy d).image = d.image ∧
      (invalidate_rows mpos0 nx n dy d).used = d.used := by
  intro n
  induction n with
  | zero => intro dy d; exact ⟨rfl, rfl⟩
  | succ n ih =>
    intro dy d
    simp only [invalidate_rows]
    rw [(ih _ _).1, (ih _ _).2]
    exact invalidate_row_image mpos0 dy nx 0 d

/-- `display_invalidate_rect` never writes the image. -/
theorem invalidate_rect_image (d : display_ctx_t) (x y w h : Nat) :
    (display_invalidate_rect d x y w h).image = d.image := by
  unfold display_invalidate_rect
  simp only []
  rw [display_poll_image, (invalidate_rows_image _ _ _ _ _).1]

/-- `display_invalidate_rect` reads the image at most once, below 504. -/
theorem invalidate_rect_used (d : display_ctx_t) (x y w h : Nat) :
    ∃ l, (display_invalidate_rect d x y w h).used = d.used ++ l ∧ ∀ i ∈ l, i < 504 := by
  unfold display_invalidate_rect
  simp only []
  generalize hd : invalidate_rows _ _ _ _ d = d'
  have hu : d'.used = d.used := by rw [← hd]; exact (invalidate_rows_image _ _ _ _ _).2
  rcases display_poll_used d' with hp | ⟨i, hi, hp⟩
  · exact ⟨[], by rw [hp, hu]; simp, by simp⟩
  · exact ⟨[i], by rw [hp, hu], by simpa using hi⟩

/-- The arguments of the loops of `display_rect` for a rectangle on the screen. -/
theorem display_rect_eq (d : display_ctx_t) (x y w h color : Nat) (hw : 1 ≤ w) (hh : 1 ≤ h)
    (hx : x + w ≤ 84) (hy : y + h ≤ 48) :
    display_rect d x y w h color =
      display_invalidate_rect
        (rect_rows color
          (if y / 8 = (y + h - 1) / 8 then
            ((0xff <<< (y % 8)) % 256) &&& (0xff >>> (7 - (y + h - 1) % 8))
           else (0xff <<< (y % 8)) % 256)
          (0xff >>> (7 - (y + h - 1) % 8)) (x + 84 * (y / 8)) ((y + h - 1) / 8 - y / 8) w
          ((y + h - 1) / 8 + 1 - y / 8) 0 d) x y w h := by
  have e1 : last_band y h = (y + h - 1) / 8 := by
    unfold last_band
    rw [if_neg (by omega), shr_3]
    omega
  have e2 : ¬ ((y + h - 1) / 8 ≥ 6) := by omega
  have e3 : (x + w - 1) % 256 = x + w - 1 := by omega
  have e4 : ¬ (x + w - 1 ≥ 84) := by omega
  have e5 : x + w - 1 + 1 - x = w := by omega
  have e6 : (x + y / 8 * 84) % 65536 = x + 84 * (y / 8) := by omega
  have e7 : ¬ (x + w = 0) := by omega
  have e8 : ¬ (y + h = 0) := by omega
  have e9 : (48 : Nat) >>> 3 = 6 := by decide
  unfold display_rect
  simp only [LCD_WIDTH, LCD_HEIGHT, e1, e9, e2, e3, e4, e5, e6, e7, e8, if_false, shr_3, and_7]

set_option maxRecDepth 100000 in
theorem low_mask_testBit :
    ∀ a, a < 8 → ∀ j, j < 8 → ((0xff <<< a) % 256).testBit j = decide (a ≤ j) := by
  decide

set_option maxRecDepth 100000 in
theorem high_mask_testBit :
    ∀ c, c < 8 → ∀ j, j < 8 → ((0xff : Nat) >>> (7 - c)).testBit j = decide (j ≤ c) := by
  decide

/-- The bit of the band mask of `display_rect` for the pixel row `py`: set exactly for the
rows of the rectangle. -/
theorem band_mask_testBit (y h py : Nat) (hh : 1 ≤ h) (h0 : y / 8 ≤ py / 8)
    (h1 : py / 8 ≤ (y + h - 1) / 8) :
    (if py / 8 - y / 8 = 0 then
        (if y / 8 = (y + h - 1) / 8 then
          ((0xff <<< (y % 8)) % 256) &&& (0xff >>> (7 - (y + h - 1) % 8))
         else (0xff <<< (y % 8)) % 256)
      else if py / 8 - y / 8 = (y + h - 1) / 8 - y / 8 then 0xff >>> (7 - (y + h - 1) % 8)
      else 0xff).testBit (py % 8) = decide (y ≤ py ∧ py < y + h) := by
  have hj : py % 8 < 8 := Nat.mod_lt _ (by norm_num)
  have ha : y % 8 < 8 := Nat.mod_lt _ (by norm_num)
  have hc : (y + h - 1) % 8 < 8 := Nat.mod_lt _ (by norm_num)
  have hlow := low_mask_testBit (y % 8) ha (py % 8) hj
  have hhigh := high_mask_testBit ((y + h - 1) % 8) hc (py % 8) hj
  by_cases c1 : py / 8 - y / 8 = 0
  · rw [if_pos c1]
    by_cases c2 : y / 8 = (y + h - 1) / 8
    · rw [if_pos c2, Nat.testBit_and, hlow, hhigh, ← Bool.decide_and]
      apply decide_eq_decide.mpr
      omega
    · rw [if_neg c2, hlow]
      apply decide_eq_decide.mpr
      omega
  · rw [if_neg c1]
    by_cases c3 : py / 8 - y / 8 = (y + h - 1) / 8 - y / 8
    · rw [if_pos c3, hhigh]
      apply decide_eq_decide.mpr
      omega
    · rw [if_neg c3, testBit_255 _ hj]
      symm
      apply decide_eq_true
      omega

/-- The pixel read back after `display_rect`, for a rectangle and a pixel on the screen. -/
theorem getpixel_rect (d : display_ctx_t) (x y w h color px py : Nat) (hw : 1 ≤ w)
    (hh : 1 ≤ h) (hx : x + w ≤ 84) (hy : y + h ≤ 48) (hpx : px < 84) (hpy : py < 48) :
    display_getpixel (display_rect d x y w h color) px py =
      if paint_bit color (decide (x ≤ px ∧ px < x + w ∧ y ≤ py ∧ py < y + h))
          ((d.image (px + 84 * (py / 8))).testBit (py % 8))
      then COLOR_BLACK else COLOR_WHITE := by
  have hj : py % 8 < 8 := Nat.mod_lt _ (by norm_num)
  rw [getpixel_eq _ px py hpx hpy, display_rect_eq d x y w h color hw hh hx hy,
    invalidate_rect_image,
    rect_rows_image color _ _ x (y / 8) _ w hx _ 0 d (by omega) px (py / 8) hpx]
  by_cases hin : y / 8 + 0 ≤ py / 8 ∧ py / 8 < y / 8 + 0 + ((y + h - 1) / 8 + 1 - y / 8) ∧
      x ≤ px ∧ px < x + w
  · rw [if_pos hin, paint_byte_testBit _ _ _ _ hj,
      band_mask_testBit y h py hh (by omega) (by omega)]
    have : decide (y ≤ py ∧ py < y + h)
        = decide (x ≤ px ∧ px < x + w ∧ y ≤ py ∧ py < y + h) := by
      apply decide_eq_decide.mpr
      omega
    rw [this]
  · rw [if_neg hin]
    have : ¬ (x ≤ px ∧ px < x + w ∧ y ≤ py ∧ py < y + h) := by omega
    rw [decide_eq_false this, paint_bit_false]

/-- The image indices `display_rect` uses for a rectangle on the screen are below 504. -/
theorem rect_used (d : display_ctx_t) (x y w h color : Nat) (hw : 1 ≤ w) (hh : 1 ≤ h)
    (hx : x + w ≤ 84) (hy : y + h ≤ 48) :
    ∃ l, (display_rect d x y w h color).used = d.used ++ l ∧ ∀ i ∈ l, i < 504 := by
  rw [display_rect_eq d x y w h color hw hh hx hy]
  obtain ⟨l1, h1, h1'⟩ := rect_rows_used color
    (if y / 8 = (y + h - 1) / 8 then
      ((0xff <<< (y % 8)) % 256) &&& (0xff >>> (7 - (y + h - 1) % 8))
     else (0xff <<< (y % 8)) % 256)
    (0xff >>> (7 - (y + h - 1) % 8)) x (y / 8) ((y + h - 1) / 8 - y / 8) w hx
    ((y + h - 1) / 8 + 1 - y / 8) 0 d (by omega)
  obtain ⟨l2, h2, h2'⟩ := invalidate_rect_used (rect_rows color
    (if y / 8 = (y + h - 1) / 8 then
      ((0xff <<< (y % 8)) % 256) &&& (0xff >>> (7 - (y + h - 1) % 8))
     else (0xff <<< (y % 8)) % 256)
    (0xff >>> (7 - (y + h - 1) % 8)) (x + 84 * (y / 8)) ((y + h - 1) / 8 - y / 8) w
    ((y + h - 1) / 8 + 1 - y / 8) 0 d) x y w h
  refine ⟨l1 ++ l2, by rw [h2, h1]; simp, ?_⟩
  intro i hi
  rcases List.mem_append.mp hi with hi | hi
  · exact h1' i hi
  · exact h2' i hi

/-! ## Claims about the display -/

/-- C29: `display_rect` fills exactly the rectangle.  For every display context and every
rectangle with `w >= 1`, `h >= 1`, `x + w <= 84` and `y + h <= 48`: after
`display_rect(x, y, w, h, color)` every pixel of the rectangle reads back through
`display_getpixel` as `COLOR_BLACK` for colour `COLOR_BLACK`, as `COLOR_WHITE` for colour
`COLOR_WHITE`, and as the opposite of its previous value for colour `COLOR_INVERT`; every
pixel outside the rectangle reads back as before, whatever the colour; and every image index
the call uses is below 504. -/
theorem rect_fills_rectangle (d : display_ctx_t) (x y w h : Nat) (hw : 1 ≤ w) (hh : 1 ≤ h)
    (hx : x + w ≤ 84) (hy : y + h ≤ 48) :
    (∀ px py, x ≤ px ∧ px < x + w ∧ y ≤ py ∧ py < y + h →
      display_getpixel (display_rect d x y w h COLOR_BLACK) px py = COLOR_BLACK ∧
      display_getpixel (display_rect d x y w h COLOR_WHITE) px py = COLOR_WHITE ∧
      display_getpixel (display_rect d x y w h COLOR_INVERT) px py =
        (if display_getpixel d px py = COLOR_BLACK then COLOR_WHITE else COLOR_BLACK)) ∧
    (∀ color px py, ¬ (x ≤ px ∧ px < x + w ∧ y ≤ py ∧ py < y + h) →
      display_getpixel (display_rect d x y w h color) px py = display_getpixel d px py) ∧
    (∀ color, ∃ l, (display_rect d x y w h color).used = d.used ++ l ∧ ∀ i ∈ l, i < 504) := by
  refine ⟨?_, ?_, fun color => rect_used d x y w h color hw hh hx hy⟩
  · intro px py hin
    have hpx : px < 84 := by omega
    have hpy : py < 48 := by omega
    rw [getpixel_rect d x y w h _ px py hw hh hx hy hpx hpy,
      getpixel_rect d x y w h _ px py hw hh hx hy hpx hpy,
      getpixel_rect d x y w h _ px py hw hh hx hy hpx hpy, getpixel_eq d px py hpx hpy,
      decide_eq_true hin]
    refine ⟨by simp [paint_bit], by simp [paint_bit], ?_⟩
    cases (d.image (px + 84 * (py / 8))).testBit (py % 8) <;> simp [paint_bit]
  · intro color px py hout
    by_cases hp : px < 84 ∧ py < 48
    · rw [getpixel_rect d x y w h color px py hw hh hx hy hp.1 hp.2,
        getpixel_eq d px py hp.1 hp.2, decide_eq_false hout, paint_bit_false]
    · rw [getpixel_outside _ px py hp, getpixel_outside _ px py hp]

/-- C29 at a concrete rectangle on a cleared display: the rectangle at (3, 5) of 4 by 10
pixels, which spans two bands. -/
theorem rect_fills_rectangle_witness :
    ((1 ≤ 4 ∧ 1 ≤ 10 ∧ 3 + 4 ≤ 84 ∧ 5 + 10 ≤ 48) ∧ (3 ≤ 6 ∧ 6 < 3 + 4 ∧ 5 ≤ 14 ∧ 14 < 5 + 10) ∧
      display_getpixel (display_rect cleared 3 5 4 10 COLOR_BLACK) 6 14 = COLOR_BLACK) ∧
    (¬ (3 ≤ 7 ∧ 7 < 3 + 4 ∧ 5 ≤ 14 ∧ 14 < 5 + 10) ∧
      display_getpixel (display_rect cleared 3 5 4 10 COLOR_BLACK) 7 14 = COLOR_WHITE) :=
  ⟨⟨by decide, by decide,
      ((rect_fills_rectangle cleared 3 5 4 10 (by decide) (by decide) (by decide)
        (by decide)).1 6 14 (by decide)).1⟩,
    ⟨by decide,
      ((rect_fills_rectangle cleared 3 5 4 10 (by decide) (by decide) (by decide)
        (by decide)).2.1 COLOR_BLACK 7 14 (by decide)).trans (by decide)⟩⟩

/-- C30: the pixel round trip.  For every display context and every pixel with `x < 84` and
`y < 48`: `display_getpixel(x,y)` after `display_putpixel(x,y,COLOR_BLACK)` is `COLOR_BLACK`,
after `COLOR_WHITE` it is `COLOR_WHITE`, after `COLOR_INVERT` it is the opposite of its value
before; after `display_putpixel` with any colour every other pixel reads back as before, and
the image indices used are below 504.  For `x >= 84` or `y >= 48`, `display_putpixel` leaves
the whole context, so every byte of the image, as it was, and `display_getpixel` returns
`COLOR_WHITE` (0). -/
theorem pixel_round_trip (d : display_ctx_t) (x y : Nat) :
    (x < 84 ∧ y < 48 →
      display_getpixel (display_putpixel d x y COLOR_BLACK) x y = COLOR_BLACK ∧
      display_getpixel (display_putpixel d x y COLOR_WHITE) x y = COLOR_WHITE ∧
      display_getpixel (display_putpixel d x y COLOR_INVERT) x y =
        (if display_getpixel d x y = COLOR_BLACK then COLOR_WHITE else COLOR_BLACK) ∧
      (∀ color px py, ¬ (px = x ∧ py = y) →
        display_getpixel (display_putpixel d x y color) px py = display_getpixel d px py) ∧
      (∀ color, ∃ l, (display_putpixel d x y color).used = d.used ++ l ∧ ∀ i ∈ l, i < 504)) ∧
    (¬ (x < 84 ∧ y < 48) →
      (∀ color, display_putpixel d x y color = d) ∧
      display_getpixel d x y = COLOR_WHITE ∧ COLOR_WHITE = 0) := by
  constructor
  · rintro ⟨hx, hy⟩
    refine ⟨?_, ?_, ?_, ?_, fun color => putpixel_used d x y color⟩
    · rw [getpixel_putpixel d x y _ x y hx hy hx hy]
      simp [paint_bit]
    · rw [getpixel_putpixel d x y _ x y hx hy hx hy]
      simp [paint_bit]
    · rw [getpixel_putpixel d x y _ x y hx hy hx hy, getpixel_eq d x y hx hy]
      cases (d.image (x + 84 * (y / 8))).testBit (y % 8) <;> simp [paint_bit]
    · intro color px py hne
      by_cases hp : px < 84 ∧ py < 48
      · rw [getpixel_putpixel d x y color px py hx hy hp.1 hp.2, getpixel_eq d px py hp.1 hp.2,
          decide_eq_false hne, paint_bit_false]
      · rw [getpixel_outside _ px py hp, getpixel_outside _ px py hp]
  · intro h
    exact ⟨fun color => putpixel_outside d x y color h, getpixel_outside d x y h, rfl⟩

/-- C30 at concrete pixels of a cleared display: the corner pixel (83, 47) and a pixel off
the screen. -/
theorem pixel_round_trip_witness :
    ((83 < 84 ∧ 47 < 48) ∧
      display_getpixel (display_putpixel cleared 83 47 COLOR_INVERT) 83 47 = COLOR_BLACK ∧
      display_getpixel (display_putpixel cleared 83 47 COLOR_BLACK) 82 47 = COLOR_WHITE) ∧
    (¬ (84 < 84 ∧ 0 < 48) ∧ display_getpixel cleared 84 0 = COLOR_WHITE) :=
  ⟨⟨by decide,
      ((pixel_round_trip cleared 83 47).1 (by decide)).2.2.1.trans (by decide),
      (((pixel_round_trip cleared 83 47).1 (by decide)).2.2.2.1 COLOR_BLACK 82 47
        (by decide)).trans (by decide)⟩,
    ⟨by decide, ((pixel_round_trip cleared 84 0).2 (by decide)).2.1⟩⟩

end Pcd8544
